import Mathlib

/-!
# Gas-station simulator (`projekt/main.go`): embedding and verification

The Go program is embedded as follows.

* `int` counters and `time.Duration` / `time.Time` (int64 nanoseconds) are `Int`; the
  counters move by one per vehicle and the durations are sums of waits, so wrap-around
  at `2^63` is outside the model. The one exception is `refuelingTime`, which is computed
  from the quantity that the caller supplies: there the conversion of the float64 to
  int64 and the multiplication by `time.Millisecond` are int64 operations (`truncToInt`,
  `wrapInt64`).
* `float64` values (litres, prices, the two float64 totals) are rationals (`ℚ`), and
  every float64 operation of the program is the exact operation followed by rounding to
  the nearest float64, ties to even (`roundFloat64`): the product and the sum in
  `generateRandomVehicle`, the product in `refuelingTime`, the product and the two sums
  of the statistics update, and the literals of the price table. Each operation is
  rounded on its own, which is what the Go compiler emits for amd64 (no fused
  multiply-add). The exponent range of float64 is not modelled: the model follows the
  hardware as long as exact results are zero or of normal size (`float64Range`), and the
  statements about float64 totals say so; infinities, NaN and the sign of zero do not
  occur in it.
* `VehicleType` and `FuelType` are Go `int` types, hence `Int` here with the `iota`
  constants; `fuelPrices` is a lookup that yields `0` for a missing key, as a Go map does.
* `*Vehicle` is `Option Vehicle` where `nil` can occur (argument of `AddVehicle`, value
  received from a closed channel).
* The buffered channel `Queue` is its buffer (a list, oldest first), its capacity and a
  closed flag.
* Goroutines are entries of a thread list; every atomic piece of a Go function is one
  step of the thread that runs it, and a run is a list of scheduler actions. A panic
  ends the process: nothing moves afterwards.
* Vehicles are values: every call of `AddVehicle` gets a `Vehicle` of its own, as in
  `main`, so no two queue entries alias.
* The deadlock detector of the Go runtime and the two display goroutines of `Start`
  (they only read) are outside the model.
-/

namespace GasStationSim

/-! ## Data model -/

abbrev VehicleType := Int

def Car : VehicleType := 0
def Truck : VehicleType := 1
def Motorcycle : VehicleType := 2

abbrev FuelType := Int

def Gasoline95 : FuelType := 0
def Gasoline98 : FuelType := 1
def Diesel : FuelType := 2
def LPG : FuelType := 3

/-- Instant of the monotonic clock, in nanoseconds. -/
abbrev Time := Int

/-- Go `time.Duration`: nanoseconds. -/
abbrev Duration := Int

def Millisecond : Duration := 1000000

/-- Go `Vehicle`; the field `Type` is called `VType` here. -/
structure Vehicle where
  ID : Int
  VType : VehicleType
  FuelType : FuelType
  FuelAmount : ℚ
  ArrivalTime : Time
deriving DecidableEq

/-- Go `Pump` (the mutex is the atomicity of the steps that touch the pump). -/
structure Pump where
  ID : Int
  FuelTypes : List FuelType
  IsOccupied : Bool
  CurrentVehicle : Option Vehicle
deriving DecidableEq

/-- Go `Statistics`. -/
structure Statistics where
  TotalVehicles : Int
  ServedVehicles : Int
  TotalFuelDispensed : ℚ
  TotalRevenue : ℚ
  AverageWaitTime : Duration
  TotalWaitTime : Duration
deriving DecidableEq

/-- Go `GasStation`: `Queue`, `QueueCap`, `QueueClosed` are the channel, `pumpWg` is the
counter of the wait group. -/
structure GasStation where
  Pumps : List Pump
  Queue : List Vehicle
  QueueCap : Nat
  QueueClosed : Bool
  Stats : Statistics
  Running : Bool
  pumpWg : Int
deriving DecidableEq

/-! ## Float64 rounding -/

/-- The integer nearest to `q`; a tie goes to the even one. -/
def roundHalfEven (q : ℚ) : Int :=
  if q - ⌊q⌋ < 1 / 2 then ⌊q⌋
  else if 1 / 2 < q - ⌊q⌋ then ⌊q⌋ + 1
  else if ⌊q⌋ % 2 = 0 then ⌊q⌋
  else ⌊q⌋ + 1

/-- Number of binary digits of `n`, found by halving; `fuel` bounds the number of
halvings. -/
def bitLengthAux : Nat → Nat → Nat
  | 0, _ => 0
  | fuel + 1, n => if n = 0 then 0 else bitLengthAux fuel (n / 2) + 1

/-- Number of binary digits of `n` (`n` halvings are always enough). -/
def bitLength (n : Nat) : Nat := bitLengthAux n n

/-- The binary exponent of `x ≠ 0`: the integer `e` with `2^e ≤ |x| < 2^(e+1)`. The
difference of the digit counts of numerator and denominator is `e` or `e + 1`. -/
def binade (x : ℚ) : Int :=
  if (2 : ℚ) ^ ((bitLength x.num.natAbs : Int) - (bitLength x.den : Int)) ≤ |x| then
    (bitLength x.num.natAbs : Int) - (bitLength x.den : Int)
  else (bitLength x.num.natAbs : Int) - (bitLength x.den : Int) - 1

/-- The float64 nearest to the real `x`, ties to even: `x` is scaled so that its 53-bit
significand is an integer, rounded, and scaled back. The exponent range is not modelled
(no overflow, no subnormals). -/
def roundFloat64 (x : ℚ) : ℚ :=
  if x = 0 then 0
  else roundHalfEven (x / 2 ^ (binade x - 52)) * 2 ^ (binade x - 52)

/-- The float64 sum `x + y`. -/
def float64Add (x y : ℚ) : ℚ := roundFloat64 (x + y)

/-- The float64 product `x * y`. -/
def float64Mul (x y : ℚ) : ℚ := roundFloat64 (x * y)

/-- Whether `x` is zero or of a size between the smallest normal float64 and
`math.MaxFloat64`. For an exact result of this kind the float64 operation of the
hardware returns `roundFloat64` of it; outside (overflow to infinity, subnormal results)
the model does not follow the hardware. -/
def float64Range (x : ℚ) : Bool :=
  decide (x = 0 ∨ (1 / 2 ^ 1022 ≤ |x| ∧ |x| ≤ (2 ^ 53 - 1) * 2 ^ 971))

/-! ## The station -/

/-- The price table `fuelPrices`, as the list of its entries. Each price is a float64:
the one nearest to the decimal of the source. -/
def fuelPricesTable : List (FuelType × ℚ) :=
  [(Gasoline95, roundFloat64 6.50), (Gasoline98, roundFloat64 7.20),
   (Diesel, roundFloat64 6.80), (LPG, roundFloat64 3.50)]

/-- Map lookup `fuelPrices[ft]`: the zero value for a key that is not in the map. -/
def fuelPrices (ft : FuelType) : ℚ :=
  match fuelPricesTable.lookup ft with
  | some p => p
  | none => 0

/-- The pumps built by the loop of `NewGasStation`. -/
def newPumps (numPumps : Nat) : List Pump :=
  (List.range numPumps).map fun i =>
    { ID := (i : Int) + 1
      FuelTypes := [Gasoline95, Gasoline98, Diesel, LPG]
      IsOccupied := false
      CurrentVehicle := none }

/-- `NewGasStation(numPumps)`. -/
def NewGasStation (numPumps : Nat) : GasStation :=
  { Pumps := newPumps numPumps
    Queue := []
    QueueCap := 50
    QueueClosed := false
    Stats :=
      { TotalVehicles := 0, ServedVehicles := 0, TotalFuelDispensed := 0, TotalRevenue := 0,
        AverageWaitTime := 0, TotalWaitTime := 0 }
    Running := true
    pumpWg := 0 }

/-! ## Atomic pieces of the Go functions -/

/-- The int64 that an integer operation yields when its exact result is `n`: the value
wraps around modulo `2^64`. -/
def wrapInt64 (n : Int) : Int := (n + 2 ^ 63) % 2 ^ 64 - 2 ^ 63

/-- Conversion `time.Duration(x)` of a float64 to int64: truncation toward zero. For a
value outside the int64 range Go leaves the result to the implementation; `-2^63` is the
result on amd64. -/
def truncToInt (x : ℚ) : Int :=
  if -2 ^ 63 ≤ Int.tdiv x.num (x.den : Int) ∧ Int.tdiv x.num (x.den : Int) < 2 ^ 63 then
    Int.tdiv x.num (x.den : Int)
  else -2 ^ 63

/-- The refuelling time `time.Duration(vehicle.FuelAmount*100) * time.Millisecond`: a
float64 product, converted to int64, times the int64 constant `time.Millisecond`. -/
def refuelingTime (vehicle : Vehicle) : Duration :=
  wrapInt64 (truncToInt (float64Mul vehicle.FuelAmount 100) * Millisecond)

/-- The update of `gs.Stats` in `serveVehicle`, up to and including the division. The
product of the cost and the two `+=` on the float64 totals are float64 operations. The
assignment to `AverageWaitTime` is skipped when the divisor is zero (Go panics there). -/
def Statistics.record (st : Statistics) (vehicle : Vehicle) (waitTime : Duration) :
    Statistics :=
  let cost := float64Mul vehicle.FuelAmount (fuelPrices vehicle.FuelType)
  let served := st.ServedVehicles + 1
  let totalWait := st.TotalWaitTime + waitTime
  { st with
    ServedVehicles := served
    TotalFuelDispensed := float64Add st.TotalFuelDispensed vehicle.FuelAmount
    TotalRevenue := float64Add st.TotalRevenue cost
    TotalWaitTime := totalWait
    AverageWaitTime := if served = 0 then st.AverageWaitTime else Int.tdiv totalWait served }

/-- The division in `serveVehicle` panics: the divisor `ServedVehicles` is zero. -/
def Statistics.recordPanics (st : Statistics) : Bool :=
  decide (st.ServedVehicles + 1 = 0)

/-- The statement `gs.Stats.TotalVehicles++` of `AddVehicle`. -/
def GasStation.countVehicle (gs : GasStation) : GasStation :=
  { gs with Stats := { gs.Stats with TotalVehicles := gs.Stats.TotalVehicles + 1 } }

/-- Result of a channel send that is attempted once. -/
inductive SendResult where
  | sent (gs : GasStation)
  | full
  | closed
deriving DecidableEq

/-- The send `gs.Queue <- vehicle`: panics on a closed channel, needs a free slot. -/
def GasStation.trySend (gs : GasStation) (vehicle : Vehicle) : SendResult :=
  if gs.QueueClosed then .closed
  else if gs.Queue.length < gs.QueueCap then .sent { gs with Queue := gs.Queue ++ [vehicle] }
  else .full

/-- Sets the fields of pump number `idx` (0-based position in `gs.Pumps`). -/
def GasStation.setPump (gs : GasStation) (idx : Nat) (occupied : Bool)
    (current : Option Vehicle) : GasStation :=
  { gs with
    Pumps := gs.Pumps.modify
      (fun p => { p with IsOccupied := occupied, CurrentVehicle := current }) idx }

/-! ## Goroutines -/

/-- Program points of `runPump` together with the `serveVehicle` call inside it. -/
inductive PumpPc where
  /-- About to read `gs.Running` at the top of the loop. -/
  | loopHead
  /-- Read `Running = true`; blocked in the `select`, the timer fires at `deadline`. -/
  | selecting (deadline : Time)
  /-- Received `vehicle`; `serveVehicle` is about to mark the pump occupied. -/
  | occupy (vehicle : Option Vehicle)
  /-- About to evaluate `time.Since(vehicle.ArrivalTime)` and to start the sleep. -/
  | measure (vehicle : Option Vehicle)
  /-- Sleeping until `wake`; `waitTime` is already computed. -/
  | refuel (vehicle : Vehicle) (waitTime : Duration) (wake : Time)
  /-- About to update `gs.Stats`. -/
  | record (vehicle : Vehicle) (waitTime : Duration)
  /-- About to free the pump; `vehicle` is the argument of the `serveVehicle` call. -/
  | release (vehicle : Vehicle)
  /-- Read `Running = false`; the deferred `pumpWg.Done()` is still to run. -/
  | leaving
  | exited
deriving DecidableEq

/-- Program points of `AddVehicle`. -/
inductive AddPc where
  | stamp (vehicle : Option Vehicle)
  | count (vehicle : Vehicle)
  | send (vehicle : Vehicle)
  | done
deriving DecidableEq

/-- Program points of `Stop`. -/
inductive StopPc where
  | setFlag
  | waiting
  | closing
  | returned
deriving DecidableEq

/-- A goroutine, or a call in progress on some goroutine. `starter next` is a call of
`Start` whose loop is about to handle pump number `next`. The two display goroutines of
`Start` only read the state and are left out. -/
inductive Thread where
  | starter (next : Nat)
  | started
  | pump (idx : Nat) (pc : PumpPc)
  | adder (pc : AddPc)
  | stopper (pc : StopPc)
deriving DecidableEq

/-- What one step of one thread does to the shared state. `sent`, `received`, `served`
are the events of the step (history only, nothing reads them). -/
structure Effect where
  gs : GasStation
  thread : Thread
  spawned : List Thread
  panicked : Bool
  sent : List Vehicle
  received : List (Nat × Vehicle)
  served : List (Nat × Vehicle)

/-- A step that changes the station and the thread, and nothing else. -/
def Effect.plain (gs : GasStation) (thread : Thread) : Effect :=
  { gs := gs, thread := thread, spawned := [], panicked := false,
    sent := [], received := [], served := [] }

/-- A step that panics and so ends the process. -/
def Effect.panic (gs : GasStation) (thread : Thread) : Effect :=
  { Effect.plain gs thread with panicked := true }

/-- One step of `runPump` / `serveVehicle` for pump `idx`. `fire` selects the timer case
of the `select`; `none` means the thread cannot move now. -/
def pumpStep (now : Time) (gs : GasStation) (idx : Nat) (fire : Bool) :
    PumpPc → Option Effect
  | .loopHead =>
    if gs.Running then some (.plain gs (.pump idx (.selecting (now + 100 * Millisecond))))
    else some (.plain gs (.pump idx .leaving))
  | .selecting deadline =>
    if fire then
      if deadline ≤ now then some (.plain gs (.pump idx .loopHead)) else none
    else
      match gs.Queue with
      | vehicle :: rest =>
        some { Effect.plain { gs with Queue := rest } (.pump idx (.occupy (some vehicle))) with
               received := [(idx, vehicle)] }
      | [] =>
        if gs.QueueClosed then some (.plain gs (.pump idx (.occupy none))) else none
  | .occupy vehicle =>
    some (.plain (gs.setPump idx true vehicle) (.pump idx (.measure vehicle)))
  | .measure none => some (.panic gs (.pump idx (.measure none)))
  | .measure (some vehicle) =>
    some (.plain gs
      (.pump idx (.refuel vehicle (now - vehicle.ArrivalTime) (now + refuelingTime vehicle))))
  | .refuel vehicle waitTime wake =>
    if wake ≤ now then some (.plain gs (.pump idx (.record vehicle waitTime))) else none
  | .record vehicle waitTime =>
    some { Effect.plain { gs with Stats := gs.Stats.record vehicle waitTime }
             (.pump idx (.release vehicle)) with
           panicked := gs.Stats.recordPanics
           served := [(idx, vehicle)] }
  | .release _ => some (.plain (gs.setPump idx false none) (.pump idx .loopHead))
  | .leaving =>
    if gs.pumpWg - 1 < 0 then some (.panic gs (.pump idx .leaving))
    else some (.plain { gs with pumpWg := gs.pumpWg - 1 } (.pump idx .exited))
  | .exited => none

/-- One step of `AddVehicle`. -/
def addStep (now : Time) (gs : GasStation) : AddPc → Option Effect
  | .stamp none => some (.panic gs (.adder (.stamp none)))
  | .stamp (some vehicle) =>
    some (.plain gs (.adder (.count { vehicle with ArrivalTime := now })))
  | .count vehicle => some (.plain gs.countVehicle (.adder (.send vehicle)))
  | .send vehicle =>
    match gs.trySend vehicle with
    | .sent gs1 => some { Effect.plain gs1 (.adder .done) with sent := [vehicle] }
    | .full => none
    | .closed => some (.panic gs (.adder (.send vehicle)))
  | .done => none

/-- One step of `Stop`. -/
def stopStep (gs : GasStation) : StopPc → Option Effect
  | .setFlag => some (.plain { gs with Running := false } (.stopper .waiting))
  | .waiting => if gs.pumpWg = 0 then some (.plain gs (.stopper .closing)) else none
  | .closing =>
    if gs.QueueClosed then some (.panic gs (.stopper .closing))
    else some (.plain { gs with QueueClosed := true } (.stopper .returned))
  | .returned => none

/-- One step of the loop of `Start`: `pumpWg.Add(1)` and `go gs.runPump(pump)`. -/
def startStep (gs : GasStation) (next : Nat) : Effect :=
  if next < gs.Pumps.length then
    { Effect.plain { gs with pumpWg := gs.pumpWg + 1 } (.starter (next + 1)) with
      spawned := [.pump next .loopHead] }
  else .plain gs .started

/-- One step of a thread. -/
def threadStep (now : Time) (gs : GasStation) (fire : Bool) : Thread → Option Effect
  | .starter next => if fire then none else some (startStep gs next)
  | .started => none
  | .pump idx pc => pumpStep now gs idx fire pc
  | .adder pc => if fire then none else addStep now gs pc
  | .stopper pc => if fire then none else stopStep gs pc

/-! ## The running program -/

/-- The station, its threads, the clock, and the history of the run. -/
structure System where
  gs : GasStation
  threads : List Thread
  clock : Time
  crashed : Bool
  sent : List Vehicle
  received : List (Nat × Vehicle)
  served : List (Nat × Vehicle)

/-- What the environment and the scheduler can do. `sched i` runs thread `i` for one
step, `timeout i` takes the timer case of the `select` of thread `i`. -/
inductive Action where
  | callStart
  | callStop
  | callAdd (vehicle : Option Vehicle)
  | tick (d : Nat)
  | sched (i : Nat)
  | timeout (i : Nat)

/-- Writes the effect of a step of thread `i` back. -/
def System.apply (s : System) (i : Nat) (e : Effect) : System :=
  { gs := e.gs
    threads := s.threads.set i e.thread ++ e.spawned
    clock := s.clock
    crashed := e.panicked
    sent := s.sent ++ e.sent
    received := s.received ++ e.received
    served := s.served ++ e.served }

/-- Thread `i` moves, if it can. -/
def System.schedule (s : System) (i : Nat) (fire : Bool) : Option System :=
  match s.threads[i]? with
  | none => none
  | some t =>
    match threadStep s.clock s.gs fire t with
    | none => none
    | some e => some (s.apply i e)

/-- One action; `none` when it is not enabled. Nothing moves after a panic. -/
def step? (a : Action) (s : System) : Option System :=
  if s.crashed then none
  else
    match a with
    | .callStart => some { s with threads := s.threads ++ [.starter 0] }
    | .callStop => some { s with threads := s.threads ++ [.stopper .setFlag] }
    | .callAdd vehicle => some { s with threads := s.threads ++ [.adder (.stamp vehicle)] }
    | .tick d => some { s with clock := s.clock + d }
    | .sched i => s.schedule i false
    | .timeout i => s.schedule i true

/-- One action; an action that is not enabled leaves the state as it is. -/
def step (s : System) (a : Action) : System :=
  (step? a s).getD s

/-- Runs a list of actions. -/
def run (acts : List Action) (s : System) : System :=
  acts.foldl step s

/-- The program right after `NewGasStation(numPumps)`: no goroutine yet. -/
def boot (numPumps : Nat) : System :=
  { gs := NewGasStation numPumps, threads := [], clock := 0, crashed := false,
    sent := [], received := [], served := [] }

/-! ## The calls run alone -/

/-- How a call ends when no other goroutine moves meanwhile. -/
inductive Outcome where
  | returned (gs : GasStation)
  | blocked (gs : GasStation)
  | panicked (gs : GasStation)
deriving DecidableEq

/-- `AddVehicle(vehicle)` at clock value `now`, run to its end or to the point where it
cannot go on. -/
def AddVehicle (now : Time) (vehicle : Option Vehicle) (gs : GasStation) : Outcome :=
  match vehicle with
  | none => .panicked gs
  | some v =>
    let gs1 := gs.countVehicle
    match gs1.trySend { v with ArrivalTime := now } with
    | .sent gs2 => .returned gs2
    | .full => .blocked gs1
    | .closed => .panicked gs1

/-- `Stop()` run to its end or to the point where it cannot go on. -/
def Stop (gs : GasStation) : Outcome :=
  let gs1 := { gs with Running := false }
  if gs1.pumpWg = 0 then
    if gs1.QueueClosed then .panicked gs1 else .returned { gs1 with QueueClosed := true }
  else .blocked gs1

/-! ## Bookkeeping over the thread list -/

/-- 1 for a pump worker that holds a vehicle it has dequeued and not yet recorded. -/
def Thread.inService : Thread → Nat
  | .pump _ (.occupy vehicle) => vehicle.toList.length
  | .pump _ (.measure vehicle) => vehicle.toList.length
  | .pump _ (.refuel _ _ _) => 1
  | .pump _ (.record _ _) => 1
  | _ => 0

/-- 1 for an `AddVehicle` call that has counted its vehicle and not yet enqueued it. -/
def Thread.unsent : Thread → Nat
  | .adder (.send _) => 1
  | _ => 0

/-- 1 for a pump worker that has not yet run its `pumpWg.Done()`. -/
def Thread.live : Thread → Nat
  | .pump _ .exited => 0
  | .pump _ _ => 1
  | _ => 0

/-- A call of `Stop` that has already set `Running` to false. -/
def Thread.pastFlag : Thread → Bool
  | .stopper .setFlag => false
  | .stopper _ => true
  | _ => false

/-- A call of `Stop` that has come back from `pumpWg.Wait()`. -/
def Thread.pastWait : Thread → Bool
  | .stopper .closing => true
  | .stopper .returned => true
  | _ => false

/-- Not a pump worker between its `select` and the end of `serveVehicle`. -/
def Thread.quiet : Thread → Bool
  | .pump _ .loopHead => true
  | .pump _ .leaving => true
  | .pump _ .exited => true
  | .pump _ _ => false
  | _ => true

/-- Adds `f` up over the threads. -/
def tally (f : Thread → Nat) (threads : List Thread) : Nat :=
  (threads.map f).sum

/-- Every counted vehicle is in exactly one place: recorded, in the queue, with a pump
worker, or with an `AddVehicle` call that is about to send it. -/
def Conserved (s : System) : Prop :=
  s.gs.Stats.TotalVehicles
    = s.gs.Stats.ServedVehicles + s.gs.Queue.length
      + tally Thread.inService s.threads + tally Thread.unsent s.threads

/-- The wait group counts the pump workers that have not run `Done`; a `Stop` that has
set the flag finds `Running` false; and once a `Stop` is back from `Wait`, no pump worker
is between its `select` and the end of `serveVehicle`. -/
structure StopInv (s : System) : Prop where
  wg : s.gs.pumpWg = tally Thread.live s.threads
  flag : ∀ t ∈ s.threads, t.pastFlag = true → s.gs.Running = false
  drained : ∀ t ∈ s.threads, t.pastWait = true → ∀ u ∈ s.threads, u.quiet = true

/-- The history agrees with the counters: every dequeued vehicle is either recorded or
still with its pump worker, and `ServedVehicles` counts the recorded ones. -/
def Logged (s : System) : Prop :=
  s.received.length = s.served.length + tally Thread.inService s.threads ∧
  s.gs.Stats.ServedVehicles = s.served.length

/-- Vehicles that pump `idx` has taken from the queue, in the order it took them. -/
def System.receivedBy (s : System) (idx : Nat) : List Vehicle :=
  (s.received.filter fun r => r.1 == idx).map Prod.snd

/-! ## Concrete inputs -/

/-- A car that asks for 30 litres of Gasoline95. -/
def carA : Vehicle :=
  { ID := 1, VType := Car, FuelType := Gasoline95, FuelAmount := 30, ArrivalTime := 0 }

/-- A truck that asks for 120 litres of Diesel. -/
def truckB : Vehicle :=
  { ID := 2, VType := Truck, FuelType := Diesel, FuelAmount := 120, ArrivalTime := 0 }

/-- `k` calls of `AddVehicle(carA)` one after the other, each run to its end, on a
program whose thread list is empty at the start. -/
def fillActions (k : Nat) : List Action :=
  ((List.range k).map fun i => [.callAdd (some carA), .sched i, .sched i, .sched i]).flatten

/-- A station that was never started and whose queue holds 50 vehicles. -/
def fullStation : GasStation :=
  (run (fillActions 50) (boot 1)).gs

/-- The program of `fullStation` after one more `AddVehicle` has counted its vehicle. -/
def fullSystem : System :=
  run (fillActions 50 ++ [.callAdd (some carA), .sched 50, .sched 50]) (boot 1)

/-- The workers that a complete call of `Start` spawns on a station with `n` pumps. -/
def spawnedWorkers (n : Nat) : List Thread :=
  (List.range n).map fun k => .pump k .loopHead

/-- The schedule that makes a call of `Start` and runs it to its end, where `j` is the
number of threads before the call and `n` the number of pumps. -/
def startSchedule (j n : Nat) : List Action :=
  .callStart :: List.replicate (n + 1) (.sched j)

/-- One pump; `Start` is called and runs to its end, then `Start` is called again and
runs to its end. -/
def startTwice : List Action :=
  [.callStart, .sched 0, .sched 0, .callStart, .sched 2, .sched 2]

/-- One pump, started; `carA` is submitted and queued; then `Stop` is called, the worker
sees `Running = false` at the top of its loop and leaves, and `Stop` returns. Threads:
0 the call of `Start`, 1 the worker, 2 the call of `AddVehicle`, 3 the call of `Stop`. -/
def stopWithQueued : List Action :=
  [.callStart, .sched 0, .sched 0,
   .callAdd (some carA), .sched 2, .sched 2, .sched 2,
   .callStop, .sched 3,
   .sched 1, .sched 1,
   .sched 3, .sched 3]

/-- One pump, started; `carA` is submitted and the worker takes it; `truckB` is submitted
and stays queued; `Stop` is called while `carA` is in service; the worker finishes `carA`
(3 seconds), sees `Running = false` and leaves; `Stop` returns. Threads: 0 `Start`,
1 the worker, 2 and 3 the two calls of `AddVehicle`, 4 the call of `Stop`. -/
def stopWhileServing : List Action :=
  [.callStart, .sched 0, .sched 0,
   .callAdd (some carA), .sched 2, .sched 2, .sched 2,
   .sched 1, .sched 1,
   .callAdd (some truckB), .sched 3, .sched 3, .sched 3,
   .callStop, .sched 4,
   .sched 1, .sched 1,
   .tick 3000000000, .sched 1,
   .sched 1, .sched 1,
   .sched 1, .sched 1,
   .sched 4, .sched 4]

/-- The average is what the last recording left: the truncated quotient when a vehicle
has been served, the initial zero otherwise; and the served count is not negative. -/
def AverageOk (st : Statistics) : Prop :=
  0 ≤ st.ServedVehicles ∧
  st.AverageWaitTime
    = if st.ServedVehicles = 0 then 0 else Int.tdiv st.TotalWaitTime st.ServedVehicles

/-- `serveVehicle(pump, vehicle)` on pump number `idx`, run to its end with no other
goroutine moving meanwhile; `now` is the clock value that `time.Since` reads. -/
def serveVehicle (now : Time) (idx : Nat) (vehicle : Vehicle) (gs : GasStation) :
    GasStation :=
  let gs1 := gs.setPump idx true (some vehicle)
  let waitTime := now - vehicle.ArrivalTime
  let gs2 := { gs1 with Stats := gs1.Stats.record vehicle waitTime }
  gs2.setPump idx false none

/-- One pump, started, its worker waiting in the `select`. `carA` is submitted at clock
2 ms and the worker takes it from the queue at clock 3 ms (its last step here). Threads:
0 the call of `Start`, 1 the worker, 2 the call of `AddVehicle`. -/
def dequeueAtThree : List Action :=
  [.callStart, .sched 0, .sched 0, .sched 1, .tick 2000000,
   .callAdd (some carA), .sched 2, .sched 2, .sched 2, .tick 1000000, .sched 1]

/-- After `dequeueAtThree` another 5 ms pass before the worker marks the pump and reads
the clock, at 8 ms; it then sleeps 3 s and records. -/
def readAtEight : List Action :=
  dequeueAtThree ++
    [.tick 5000000, .sched 1, .sched 1, .tick 3000000000, .sched 1, .sched 1]

/-- The vehicle that a pump worker holds between the dequeue and the recording. -/
def Thread.holding : Thread → Option Vehicle
  | .pump _ (.occupy vehicle) => vehicle
  | .pump _ (.measure vehicle) => vehicle
  | .pump _ (.refuel vehicle _ _) => some vehicle
  | .pump _ (.record vehicle _) => some vehicle
  | _ => none

/-- The float64 sum of a list, added up from zero one element after the other. -/
def float64Sum (l : List ℚ) : ℚ := l.foldl float64Add 0

/-- Whether every addition that adds up `l` from `acc` has its exact result in
`float64Range`. -/
def sumInRange : ℚ → List ℚ → Bool
  | _, [] => true
  | acc, q :: rest => float64Range (acc + q) && sumInRange (float64Add acc q) rest

/-- The totals are the float64 sums over the recorded vehicles, in the order of the
recordings. -/
def SumsOk (s : System) : Prop :=
  s.gs.Stats.TotalFuelDispensed = float64Sum (s.served.map fun r => r.2.FuelAmount) ∧
  s.gs.Stats.TotalRevenue
    = float64Sum (s.served.map fun r => float64Mul r.2.FuelAmount (fuelPrices r.2.FuelType))

/-- Every vehicle that a worker holds or that has been recorded was dequeued before. -/
def Traced (s : System) : Prop :=
  (∀ t ∈ s.threads, ∀ v, t.holding = some v → v ∈ s.received.map Prod.snd) ∧
  (∀ r ∈ s.served, r.2 ∈ s.received.map Prod.snd)

/-- A car with id `k` that asks for 1 litre of Gasoline95. -/
def unitCar (k : Int) : Vehicle :=
  { ID := k, VType := Car, FuelType := Gasoline95, FuelAmount := 1, ArrivalTime := 0 }

/-- Two pumps, started, both workers waiting in the `select`. Five vehicles of 1 litre
are submitted; each worker takes one; `Stop` is called; the workers finish their vehicle
(100 ms), read `Running = false` and leave; `Stop` returns. Threads: 0 the call of
`Start`, 1 and 2 the workers, 3 to 7 the calls of `AddVehicle`, 8 the call of `Stop`. -/
def fiveUnitsThenStop : List Action :=
  [.callStart, .sched 0, .sched 0, .sched 0, .sched 1, .sched 2,
   .callAdd (some (unitCar 1)), .sched 3, .sched 3, .sched 3,
   .callAdd (some (unitCar 2)), .sched 4, .sched 4, .sched 4,
   .callAdd (some (unitCar 3)), .sched 5, .sched 5, .sched 5,
   .callAdd (some (unitCar 4)), .sched 6, .sched 6, .sched 6,
   .callAdd (some (unitCar 5)), .sched 7, .sched 7, .sched 7,
   .sched 1, .sched 2,
   .callStop, .sched 8,
   .sched 1, .sched 1, .sched 2, .sched 2,
   .tick 100000000,
   .sched 1, .sched 1, .sched 1, .sched 2, .sched 2, .sched 2,
   .sched 1, .sched 1, .sched 2, .sched 2,
   .sched 8, .sched 8]

/-- A pump worker whose `serveVehicle` call has `nil` as its vehicle. -/
def Thread.nilCall : Thread → Bool
  | .pump _ (.occupy vehicle) => vehicle.isNone
  | .pump _ (.measure vehicle) => vehicle.isNone
  | _ => false

/-- What the queue being closed means for the threads, and that no `serveVehicle` call
has a `nil` vehicle. -/
structure CloseInv (s : System) : Prop where
  stop : StopInv s
  returned : s.gs.QueueClosed = true → Thread.stopper .returned ∈ s.threads
  nonil : ∀ t ∈ s.threads, t.nilCall = false

/-- No pump, so no worker. `Stop` is called, sets the flag and comes back from `Wait`;
then `Start` is called and spawns a worker for a pump; then `Stop` closes the queue.
Threads: 0 the call of `Stop`, 1 the call of `Start`, 2 the worker. -/
def startRacesStop : List Action :=
  [.callStop, .sched 0, .sched 0, .callStart, .sched 1, .sched 0]

/-- 1 for a pump worker that drives pump number `idx`. -/
def Thread.worksOn (idx : Nat) : Thread → Nat
  | .pump j _ => if j = idx then 1 else 0
  | _ => 0

/-- 1 for a call of `Start`, in progress or finished. -/
def Thread.startCall : Thread → Nat
  | .starter _ => 1
  | .started => 1
  | _ => 0

/-- What the worker has written into its pump and not yet cleared: `some v` between the
marking of the pump in `serveVehicle` and the clearing at its end, where `v` is the
vehicle of the call. -/
def PumpPc.marks : PumpPc → Option (Option Vehicle)
  | .measure vehicle => some vehicle
  | .refuel vehicle _ _ => some (some vehicle)
  | .record vehicle _ => some (some vehicle)
  | .release vehicle => some (some vehicle)
  | _ => none

/-- The fields of the pump agree with what its worker has written. -/
def Pump.shows (p : Pump) : Option (Option Vehicle) → Prop
  | none => p.IsOccupied = false ∧ p.CurrentVehicle = none
  | some vehicle => p.IsOccupied = true ∧ p.CurrentVehicle = vehicle

/-- At most one worker drives each pump, and the pump shows what that worker has
written. `ahead` and `unstarted` say that the pumps which `Start` has not reached yet
have no worker. -/
structure OnePerPump (s : System) : Prop where
  single : ∀ idx, tally (Thread.worksOn idx) s.threads ≤ 1
  ahead : ∀ j k : Nat, s.threads[j]? = some (Thread.starter k) →
    ∀ idx, k ≤ idx → tally (Thread.worksOn idx) s.threads = 0
  unstarted : tally Thread.startCall s.threads = 0 →
    ∀ idx, tally (Thread.worksOn idx) s.threads = 0
  marked : ∀ (j idx : Nat) (pc : PumpPc), s.threads[j]? = some (Thread.pump idx pc) →
    ∃ p, s.gs.Pumps[idx]? = some p ∧ p.shows pc.marks
  idle : ∀ (idx : Nat) (p : Pump), s.gs.Pumps[idx]? = some p →
    tally (Thread.worksOn idx) s.threads = 0 → p.shows none

/-- One pump on which `Start` has run twice, so that two workers (threads 1 and 3) drive
it. `unitCar 1` and `truckB` are submitted (threads 4 and 5); worker 1 takes the car and
worker 3 the truck, and both enter `serveVehicle` and start their sleep. -/
def twoWorkersServing : List Action :=
  startTwice ++
    [.sched 1, .sched 3,
     .callAdd (some (unitCar 1)), .sched 4, .sched 4, .sched 4,
     .callAdd (some truckB), .sched 5, .sched 5, .sched 5,
     .sched 1, .sched 3,
     .sched 1, .sched 3,
     .sched 1, .sched 3]

/-- After `twoWorkersServing`, 100 ms pass and worker 1 records the car and frees the
pump, while worker 3 is still in its sleep with the truck. -/
def firstWorkerDone : List Action :=
  twoWorkersServing ++ [.tick 100000000, .sched 1, .sched 1, .sched 1]

/-- One pump, `Start` called once; the worker has taken `carA`, marked the pump and
started its sleep. -/
def oneWorkerServing : List Action :=
  dequeueAtThree ++ [.sched 1, .sched 1]

/-- The largest float64 below 1, which `rand.Float64()` can return. -/
def maxDraw : ℚ := 1 - 1 / 2 ^ 53

/-- `generateRandomVehicle(id)`, with the three random draws as arguments: `typeDraw` is
`rand.Intn(len(vehicleTypes))`, `fuelDraw` is `rand.Intn(len(fuelTypes))` and `r` is
`rand.Float64()`. The product and the sum of the quantity are float64 operations, each
rounded on its own. `ArrivalTime` keeps its zero value. -/
def generateRandomVehicle (id : Int) (typeDraw : Fin 3) (fuelDraw : Fin 4) (r : ℚ) :
    Vehicle :=
  let vehicleTypes : List VehicleType := [Car, Truck, Motorcycle]
  let fuelTypes : List FuelType := [Gasoline95, Gasoline98, Diesel, LPG]
  let vType := vehicleTypes.getD typeDraw.val 0
  let fType := fuelTypes.getD fuelDraw.val 0
  let fuelAmount : ℚ :=
    if vType = Car then float64Add 20 (float64Mul r 40)
    else if vType = Truck then float64Add 50 (float64Mul r 150)
    else if vType = Motorcycle then float64Add 5 (float64Mul r 15)
    else 0
  { ID := id, VType := vType, FuelType := fType, FuelAmount := fuelAmount, ArrivalTime := 0 }

/-- Vehicles that pump `idx` has recorded, in the order of the recordings. -/
def System.servedBy (s : System) (idx : Nat) : List Vehicle :=
  (s.served.filter fun r => r.1 == idx).map Prod.snd

/-- What pump `idx` has taken from the queue is what it has recorded, followed by the
vehicle that its worker holds. -/
structure PumpOrder (s : System) : Prop where
  held : ∀ (j idx : Nat) (pc : PumpPc), s.threads[j]? = some (Thread.pump idx pc) →
    s.receivedBy idx = s.servedBy idx ++ (Thread.holding (Thread.pump idx pc)).toList
  idle : ∀ idx, tally (Thread.worksOn idx) s.threads = 0 →
    s.receivedBy idx = s.servedBy idx

/-- One pump on which `Start` has run twice, so that two workers (threads 1 and 3) drive
it. `truckB` and then `unitCar 1` are submitted (threads 4 and 5); worker 1 takes the
truck and worker 3 the car. After 100 ms worker 3 records the car; after 12 s worker 1
records the truck. -/
def twoWorkersOutOfOrder : List Action :=
  startTwice ++
    [.sched 1, .sched 3,
     .callAdd (some truckB), .sched 4, .sched 4, .sched 4,
     .callAdd (some (unitCar 1)), .sched 5, .sched 5, .sched 5,
     .sched 1, .sched 3,
     .sched 1, .sched 3,
     .sched 1, .sched 3,
     .tick 100000000, .sched 3, .sched 3, .sched 3,
     .tick 11900000000, .sched 1, .sched 1, .sched 1]

/-- A car that asks for 0.1 litre of Gasoline98: the quantity is the float64 nearest to
0.1. -/
def tenthCar : Vehicle :=
  { ID := 3, VType := Car, FuelType := Gasoline98, FuelAmount := roundFloat64 0.1,
    ArrivalTime := 0 }

/-- A car that asks for 1 litre of Gasoline98. -/
def litreCar : Vehicle :=
  { ID := 4, VType := Car, FuelType := Gasoline98, FuelAmount := 1, ArrivalTime := 0 }

/-- A motorcycle that asks for 0.03 litre: the quantity is the float64 nearest to
0.03. -/
def sipMotorcycle : Vehicle :=
  { ID := 5, VType := Motorcycle, FuelType := Gasoline95, FuelAmount := roundFloat64 0.03,
    ArrivalTime := 0 }

/-- A truck that asks for `10^11` litres. -/
def tankerTruck : Vehicle :=
  { ID := 6, VType := Truck, FuelType := Diesel, FuelAmount := 100000000000,
    ArrivalTime := 0 }

/-- The largest whole number of litres whose refuelling time fits into an int64 count of
nanoseconds. -/
def maxLitres : ℚ := 92233720368

/-- What one scheduling round of the worker (thread 1) does for one queued vehicle of 0.1
litre: dequeue, mark the pump, read the clock, sleep 10 ms, record, free the pump, and
go back into the `select`. -/
def serveTenth : List Action :=
  [.sched 1, .sched 1, .sched 1, .tick 10000000, .sched 1, .sched 1, .sched 1, .sched 1]

/-- One pump, started, its worker waiting in the `select`. Three vehicles of 0.1 litre
are submitted and the worker serves them one after the other. Threads: 0 the call of
`Start`, 1 the worker, 2 to 4 the calls of `AddVehicle`. -/
def threeTenths : List Action :=
  [.callStart, .sched 0, .sched 0, .sched 1,
   .callAdd (some tenthCar), .sched 2, .sched 2, .sched 2,
   .callAdd (some tenthCar), .sched 3, .sched 3, .sched 3,
   .callAdd (some tenthCar), .sched 4, .sched 4, .sched 4]
    ++ serveTenth ++ serveTenth ++ serveTenth

/-! ## Theorems -/

/-! ### Float64 rounding -/

theorem roundHalfEven_bounds (q : ℚ) : ⌊q⌋ ≤ roundHalfEven q ∧ roundHalfEven q ≤ ⌊q⌋ + 1 := by
  unfold roundHalfEven
  split_ifs <;> constructor <;> omega

theorem roundHalfEven_of_lt (q : ℚ) (n : Int) (h1 : (n : ℚ) ≤ q) (h2 : q < n + 1 / 2) :
    roundHalfEven q = n := by
  have hfl : ⌊q⌋ = n := by
    rw [Int.floor_eq_iff]
    exact ⟨h1, by linarith⟩
  unfold roundHalfEven
  rw [hfl, if_pos (by linarith)]

theorem roundHalfEven_of_gt (q : ℚ) (n : Int) (h1 : (n : ℚ) + 1 / 2 < q) (h2 : q < n + 1) :
    roundHalfEven q = n + 1 := by
  have hfl : ⌊q⌋ = n := by
    rw [Int.floor_eq_iff]
    exact ⟨by linarith, h2⟩
  unfold roundHalfEven
  rw [hfl, if_neg (by linarith), if_pos (by linarith)]

theorem roundHalfEven_tie (n : Int) :
    roundHalfEven ((n : ℚ) + 1 / 2) = if n % 2 = 0 then n else n + 1 := by
  have hfl : ⌊(n : ℚ) + 1 / 2⌋ = n := by
    rw [Int.floor_eq_iff]
    constructor <;> linarith
  unfold roundHalfEven
  rw [hfl, if_neg (by linarith), if_neg (by linarith)]

theorem roundHalfEven_intCast (n : Int) : roundHalfEven (n : ℚ) = n := by
  apply roundHalfEven_of_lt
  · exact le_refl _
  · linarith

theorem roundHalfEven_mono (p q : ℚ) (h : p ≤ q) : roundHalfEven p ≤ roundHalfEven q := by
  have hfl : ⌊p⌋ ≤ ⌊q⌋ := Int.floor_mono h
  rcases lt_or_eq_of_le hfl with hlt | heq
  · have := (roundHalfEven_bounds p).2
    have := (roundHalfEven_bounds q).1
    omega
  · unfold roundHalfEven
    rw [heq]
    have hd : p - ⌊q⌋ ≤ q - ⌊q⌋ := by linarith
    split_ifs <;> first | omega | linarith

theorem log_two_eq (x : ℚ) (e : Int) (h1 : (2 : ℚ) ^ e ≤ x) (h2 : x < (2 : ℚ) ^ (e + 1)) :
    Int.log 2 x = e := by
  have hx : 0 < x := lt_of_lt_of_le (by positivity) h1
  have hle : e ≤ Int.log 2 x := (Int.zpow_le_iff_le_log (by norm_num) hx).mp (by simpa using h1)
  have hlt : Int.log 2 x < e + 1 :=
    (Int.lt_zpow_iff_log_lt (by norm_num) hx).mp (by simpa using h2)
  omega

theorem bitLengthAux_zero (fuel : Nat) : bitLengthAux fuel 0 = 0 := by
  cases fuel <;> simp [bitLengthAux]

theorem bitLengthAux_spec : ∀ (fuel n : Nat), n < 2 ^ fuel →
    n < 2 ^ bitLengthAux fuel n ∧ (0 < n → 2 ^ bitLengthAux fuel n ≤ 2 * n) := by
  intro fuel
  induction fuel with
  | zero =>
    intro n hn
    have h0 : n = 0 := by simpa using hn
    subst h0
    simp [bitLengthAux]
  | succ f ih =>
    intro n hn
    by_cases h0 : n = 0
    · subst h0
      simp [bitLengthAux]
    · have hhalf : n / 2 < 2 ^ f := by
        rw [pow_succ] at hn
        omega
      obtain ⟨h1, h2⟩ := ih (n / 2) hhalf
      have hdef : bitLengthAux (f + 1) n = bitLengthAux f (n / 2) + 1 := by
        simp [bitLengthAux, h0]
      rw [hdef, pow_succ]
      refine ⟨by omega, fun _ => ?_⟩
      by_cases hz : n / 2 = 0
      · rw [hz, bitLengthAux_zero]
        simp
        omega
      · have := h2 (Nat.pos_of_ne_zero hz)
        omega

theorem bitLength_spec (n : Nat) (hn : 0 < n) :
    n < 2 ^ bitLength n ∧ 2 ^ bitLength n ≤ 2 * n := by
  obtain ⟨h1, h2⟩ := bitLengthAux_spec n n (Nat.lt_two_pow n)
  exact ⟨h1, h2 hn⟩

/-- The value of `binade` is the binary exponent. -/
theorem binade_spec (x : ℚ) (hx : x ≠ 0) :
    (2 : ℚ) ^ binade x ≤ |x| ∧ |x| < (2 : ℚ) ^ (binade x + 1) := by
  have hnum : 0 < x.num.natAbs := Int.natAbs_pos.mpr (Rat.num_ne_zero.mpr hx)
  have hden : 0 < x.den := x.den_pos
  obtain ⟨ha1, ha2⟩ := bitLength_spec _ hnum
  obtain ⟨hd1, hd2⟩ := bitLength_spec _ hden
  have habs : |x| = (x.num.natAbs : ℚ) / (x.den : ℚ) := by
    conv_lhs => rw [← Rat.num_div_den x]
    rw [abs_div, Nat.abs_cast, Nat.cast_natAbs, Int.cast_abs]
  have qa1 : (x.num.natAbs : ℚ) < 2 ^ bitLength x.num.natAbs := by exact_mod_cast ha1
  have qa2 : (2 : ℚ) ^ bitLength x.num.natAbs ≤ 2 * (x.num.natAbs : ℚ) := by exact_mod_cast ha2
  have qd1 : (x.den : ℚ) < 2 ^ bitLength x.den := by exact_mod_cast hd1
  have qd2 : (2 : ℚ) ^ bitLength x.den ≤ 2 * (x.den : ℚ) := by exact_mod_cast hd2
  have qa0 : (0 : ℚ) < (x.num.natAbs : ℚ) := by exact_mod_cast hnum
  have qd0 : (0 : ℚ) < (x.den : ℚ) := by exact_mod_cast hden
  have hpa : (0 : ℚ) < 2 ^ bitLength x.num.natAbs := by positivity
  have hpd : (0 : ℚ) < 2 ^ bitLength x.den := by positivity
  have hs : (2 : ℚ) ^ ((bitLength x.num.natAbs : Int) - (bitLength x.den : Int))
      = 2 ^ bitLength x.num.natAbs / 2 ^ bitLength x.den := by
    rw [zpow_sub₀ (by norm_num), zpow_natCast, zpow_natCast]
  have hup : |x| < (2 : ℚ) ^ ((bitLength x.num.natAbs : Int) - (bitLength x.den : Int) + 1) := by
    rw [zpow_add₀ (by norm_num), hs, habs, zpow_one, div_mul_eq_mul_div, div_lt_div_iff₀ qd0 hpd]
    nlinarith
  have hlo : (2 : ℚ) ^ ((bitLength x.num.natAbs : Int) - (bitLength x.den : Int) - 1) ≤ |x| := by
    rw [zpow_sub₀ (by norm_num), hs, habs, zpow_one, div_div, div_le_div_iff₀ (by positivity) qd0]
    nlinarith
  unfold binade
  split_ifs with h
  · exact ⟨h, hup⟩
  · refine ⟨hlo, ?_⟩
    rw [sub_add_cancel]
    exact lt_of_not_le h

theorem binade_eq (x : ℚ) (e : Int) (h1 : (2 : ℚ) ^ e ≤ x) (h2 : x < (2 : ℚ) ^ (e + 1)) :
    binade x = e := by
  have hx : 0 < x := lt_of_lt_of_le (by positivity) h1
  obtain ⟨b1, b2⟩ := binade_spec x (ne_of_gt hx)
  rw [abs_of_pos hx] at b1 b2
  rw [← log_two_eq x e h1 h2]
  exact (log_two_eq x (binade x) b1 b2).symm

theorem roundFloat64_of_binade (x : ℚ) (e : Int) (h1 : (2 : ℚ) ^ e ≤ x)
    (h2 : x < (2 : ℚ) ^ (e + 1)) :
    roundFloat64 x = roundHalfEven (x / 2 ^ (e - 52)) * 2 ^ (e - 52) := by
  have hx : 0 < x := lt_of_lt_of_le (by positivity) h1
  unfold roundFloat64
  rw [if_neg (ne_of_gt hx), binade_eq x e h1 h2]

theorem roundFloat64_binade_bounds (x : ℚ) (e : Int) (h1 : (2 : ℚ) ^ e ≤ x)
    (h2 : x < (2 : ℚ) ^ (e + 1)) :
    (2 : ℚ) ^ e ≤ roundFloat64 x ∧ roundFloat64 x ≤ (2 : ℚ) ^ (e + 1) := by
  rw [roundFloat64_of_binade x e h1 h2]
  have hu : (0 : ℚ) < 2 ^ (e - 52) := by positivity
  have hlo : (2 : ℚ) ^ e = ((2 ^ 52 : Int) : ℚ) * 2 ^ (e - 52) := by
    rw [zpow_sub₀ (by norm_num)]
    push_cast
    field_simp
    norm_num
    ring
  have hhi : (2 : ℚ) ^ (e + 1) = ((2 ^ 53 : Int) : ℚ) * 2 ^ (e - 52) := by
    rw [zpow_sub₀ (by norm_num), zpow_add₀ (by norm_num)]
    push_cast
    field_simp
    ring
  have hq1 : ((2 ^ 52 : Int) : ℚ) ≤ x / 2 ^ (e - 52) := by
    rw [le_div_iff₀ hu, ← hlo]
    exact h1
  have hq2 : x / 2 ^ (e - 52) ≤ ((2 ^ 53 : Int) : ℚ) := by
    rw [div_le_iff₀ hu, ← hhi]
    exact le_of_lt h2
  have hr1 := roundHalfEven_mono _ _ hq1
  have hr2 := roundHalfEven_mono _ _ hq2
  rw [roundHalfEven_intCast] at hr1 hr2
  have hc1 : ((2 ^ 52 : Int) : ℚ) ≤ (roundHalfEven (x / 2 ^ (e - 52)) : ℚ) := by
    exact_mod_cast hr1
  have hc2 : (roundHalfEven (x / 2 ^ (e - 52)) : ℚ) ≤ ((2 ^ 53 : Int) : ℚ) := by
    exact_mod_cast hr2
  rw [hlo, hhi]
  exact ⟨mul_le_mul_of_nonneg_right hc1 (le_of_lt hu),
    mul_le_mul_of_nonneg_right hc2 (le_of_lt hu)⟩

theorem binade_of_pos (x : ℚ) (hx : 0 < x) :
    (2 : ℚ) ^ Int.log 2 x ≤ x ∧ x < (2 : ℚ) ^ (Int.log 2 x + 1) := by
  have h1 := Int.zpow_log_le_self (b := 2) (r := x) (by norm_num) hx
  have h2 := Int.lt_zpow_succ_log_self (b := 2) (by norm_num) x
  exact ⟨by simpa using h1, by simpa using h2⟩

theorem roundFloat64_nonneg (x : ℚ) (hx : 0 ≤ x) : 0 ≤ roundFloat64 x := by
  rcases eq_or_lt_of_le hx with h0 | hpos
  · rw [← h0]
    simp [roundFloat64]
  · obtain ⟨h1, h2⟩ := binade_of_pos x hpos
    have := (roundFloat64_binade_bounds x _ h1 h2).1
    have hp : (0 : ℚ) < 2 ^ Int.log 2 x := by positivity
    linarith

theorem roundFloat64_mono (x y : ℚ) (hx : 0 ≤ x) (h : x ≤ y) :
    roundFloat64 x ≤ roundFloat64 y := by
  rcases eq_or_lt_of_le hx with h0 | hpos
  · rw [← h0]
    have : roundFloat64 0 = 0 := by simp [roundFloat64]
    rw [this]
    exact roundFloat64_nonneg y (le_trans hx h)
  · have hypos : 0 < y := lt_of_lt_of_le hpos h
    obtain ⟨hx1, hx2⟩ := binade_of_pos x hpos
    obtain ⟨hy1, hy2⟩ := binade_of_pos y hypos
    have hlog : Int.log 2 x ≤ Int.log 2 y := Int.log_mono_right hpos h
    rcases lt_or_eq_of_le hlog with hlt | heq
    · have hbx := (roundFloat64_binade_bounds x _ hx1 hx2).2
      have hby := (roundFloat64_binade_bounds y _ hy1 hy2).1
      have hz : (2 : ℚ) ^ (Int.log 2 x + 1) ≤ (2 : ℚ) ^ Int.log 2 y :=
        zpow_le_zpow_right₀ (by norm_num) (by omega)
      linarith
    · rw [roundFloat64_of_binade x _ hx1 hx2, roundFloat64_of_binade y _ hy1 hy2, heq]
      have hu : (0 : ℚ) < 2 ^ (Int.log 2 y - 52) := by positivity
      have hq : x / 2 ^ (Int.log 2 y - 52) ≤ y / 2 ^ (Int.log 2 y - 52) :=
        div_le_div_of_nonneg_right h (le_of_lt hu)
      have hr := roundHalfEven_mono _ _ hq
      have hc : (roundHalfEven (x / 2 ^ (Int.log 2 y - 52)) : ℚ)
          ≤ (roundHalfEven (y / 2 ^ (Int.log 2 y - 52)) : ℚ) := by
        exact_mod_cast hr
      exact mul_le_mul_of_nonneg_right hc (le_of_lt hu)

theorem roundFloat64_exact (x : ℚ) (e n : Int) (h1 : (2 : ℚ) ^ e ≤ x)
    (h2 : x < (2 : ℚ) ^ (e + 1)) (hn : x / 2 ^ (e - 52) = (n : ℚ)) : roundFloat64 x = x := by
  rw [roundFloat64_of_binade x e h1 h2, hn, roundHalfEven_intCast, ← hn]
  have hu : (2 : ℚ) ^ (e - 52) ≠ 0 := by positivity
  field_simp

theorem roundHalfEven_error (q : ℚ) : |(roundHalfEven q : ℚ) - q| ≤ 1 / 2 := by
  have h1 : (⌊q⌋ : ℚ) ≤ q := Int.floor_le q
  have h2 : q < ⌊q⌋ + 1 := Int.lt_floor_add_one q
  unfold roundHalfEven
  rw [abs_le]
  split_ifs <;> push_cast <;> constructor <;> linarith

/-- A float64 operation returns the exact result within the relative error `2^-53`. -/
theorem roundFloat64_error (x : ℚ) : |roundFloat64 x - x| ≤ |x| / 2 ^ 53 := by
  by_cases hx : x = 0
  · subst hx
    simp [roundFloat64]
  · obtain ⟨b1, _⟩ := binade_spec x hx
    have hu : (0 : ℚ) < 2 ^ (binade x - 52) := by positivity
    have herr := roundHalfEven_error (x / 2 ^ (binade x - 52))
    have hsplit : (2 : ℚ) ^ binade x = 2 ^ (binade x - 52) * 4503599627370496 := by
      have h52 : (2 : ℚ) ^ (52 : Int) = 4503599627370496 := by norm_num
      rw [← h52, ← zpow_add₀ (by norm_num)]
      congr 1
      ring
    have hdiff : roundFloat64 x - x
        = ((roundHalfEven (x / 2 ^ (binade x - 52)) : ℚ) - x / 2 ^ (binade x - 52))
          * 2 ^ (binade x - 52) := by
      unfold roundFloat64
      rw [if_neg hx]
      field_simp
    rw [hdiff, abs_mul, abs_of_pos hu, le_div_iff₀ (by positivity)]
    have h3 : |(roundHalfEven (x / 2 ^ (binade x - 52)) : ℚ) - x / 2 ^ (binade x - 52)|
        * 2 ^ (binade x - 52) ≤ 1 / 2 * 2 ^ (binade x - 52) :=
      mul_le_mul_of_nonneg_right herr (le_of_lt hu)
    rw [hsplit] at b1
    norm_num at h3 ⊢
    linarith

theorem roundFloat64_natCast (n : Nat) (hn : n < 2 ^ 53) : roundFloat64 (n : ℚ) = n := by
  rcases Nat.eq_zero_or_pos n with h0 | hpos
  · subst h0
    simp [roundFloat64]
  · have hx : (0 : ℚ) < (n : ℚ) := by exact_mod_cast hpos
    obtain ⟨b1, b2⟩ := binade_spec (n : ℚ) (ne_of_gt hx)
    rw [abs_of_pos hx] at b1 b2
    have hlt : ((n : ℚ)) < 2 ^ (53 : Int) := by
      have h53 : (2 : ℚ) ^ (53 : Int) = ((2 ^ 53 : Nat) : ℚ) := by norm_num
      rw [h53]
      exact_mod_cast hn
    have he : binade (n : ℚ) ≤ 52 := by
      by_contra hcon
      have h53 : (2 : ℚ) ^ (53 : Int) ≤ 2 ^ binade (n : ℚ) :=
        zpow_le_zpow_right₀ (by norm_num) (by omega)
      linarith
    have hk : binade (n : ℚ) - 52 = -((52 - binade (n : ℚ)).toNat : Int) := by
      rw [Int.toNat_of_nonneg (by omega)]
      ring
    apply roundFloat64_exact (n : ℚ) (binade (n : ℚ))
      ((n : Int) * 2 ^ (52 - binade (n : ℚ)).toNat) b1 b2
    rw [hk, zpow_neg, zpow_natCast, div_inv_eq_mul]
    push_cast
    ring

theorem float64Sum_append (l1 l2 : List ℚ) :
    float64Sum (l1 ++ l2) = l2.foldl float64Add (float64Sum l1) := by
  simp [float64Sum, List.foldl_append]

theorem foldl_float64Add_ones : ∀ (l : List ℚ) (k : Nat), (∀ q ∈ l, q = 1) →
    k + l.length < 2 ^ 53 → l.foldl float64Add (k : ℚ) = ((k + l.length : Nat) : ℚ) := by
  intro l
  induction l with
  | nil => intro k _ _; simp
  | cons q rest ih =>
    intro k hq hk
    have hq1 : q = 1 := hq q (by simp)
    subst hq1
    have hstep : float64Add (k : ℚ) 1 = ((k + 1 : Nat) : ℚ) := by
      unfold float64Add
      have := roundFloat64_natCast (k + 1) (by simp at hk; omega)
      push_cast at this ⊢
      exact this
    rw [List.foldl_cons, hstep, ih (k + 1) (fun q hq1 => hq q (by simp [hq1]))
      (by simp at hk ⊢; omega)]
    simp
    ring

/-! ### The price table -/

theorem fuelPrices_table :
    fuelPrices Gasoline95 = roundFloat64 6.50 ∧ fuelPrices Gasoline98 = roundFloat64 7.20 ∧
      fuelPrices Diesel = roundFloat64 6.80 ∧ fuelPrices LPG = roundFloat64 3.50 := by
  refine ⟨?_, ?_, ?_, ?_⟩ <;>
    simp [fuelPrices, fuelPricesTable, List.lookup, Gasoline95, Gasoline98, Diesel, LPG]

/-- The four prices as float64 values: 6.50 and 3.50 are exact, 7.20 and 6.80 are not. -/
theorem fuelPrices_values :
    fuelPrices Gasoline95 = 13 / 2 ∧
    fuelPrices Gasoline98 = 8106479329266893 / 1125899906842624 ∧
    fuelPrices Diesel = 7656119366529843 / 1125899906842624 ∧
    fuelPrices LPG = 7 / 2 := by
  decide!

/-! ### Runs and steps -/

theorem run_invariant (P : System → Prop) (hstep : ∀ s a, P s → P (step s a))
    (acts : List Action) : ∀ s, P s → P (run acts s) := by
  induction acts with
  | nil => intro s h; exact h
  | cons a rest ih => intro s h; exact ih (step s a) (hstep s a h)

theorem schedule_cases (s : System) (i : Nat) (fire : Bool) :
    (s.schedule i fire).getD s = s ∨
    ∃ t e, s.threads[i]? = some t ∧ threadStep s.clock s.gs fire t = some e ∧
      (s.schedule i fire).getD s = s.apply i e := by
  unfold System.schedule
  cases hti : s.threads[i]? with
  | none => exact Or.inl rfl
  | some t =>
    cases hte : threadStep s.clock s.gs fire t with
    | none => left; simp [hte]
    | some e => right; exact ⟨t, e, rfl, hte, by simp [hte]⟩

theorem step_cases (s : System) (a : Action) :
    step s a = s ∨
    (∃ t, (t = .starter 0 ∨ t = .stopper .setFlag ∨ ∃ v, t = .adder (.stamp v)) ∧
      step s a = { s with threads := s.threads ++ [t] }) ∨
    (∃ d : Nat, step s a = { s with clock := s.clock + d }) ∨
    ∃ i fire t e, s.threads[i]? = some t ∧ threadStep s.clock s.gs fire t = some e ∧
      step s a = s.apply i e := by
  unfold step step?
  by_cases hc : s.crashed = true
  · left; simp [hc]
  · rw [if_neg hc]
    cases a with
    | callStart => exact Or.inr (Or.inl ⟨_, Or.inl rfl, rfl⟩)
    | callStop => exact Or.inr (Or.inl ⟨_, Or.inr (Or.inl rfl), rfl⟩)
    | callAdd v => exact Or.inr (Or.inl ⟨_, Or.inr (Or.inr ⟨v, rfl⟩), rfl⟩)
    | tick d => exact Or.inr (Or.inr (Or.inl ⟨d, rfl⟩))
    | sched i =>
      rcases schedule_cases s i false with h | ⟨t, e, h1, h2, h3⟩
      · exact Or.inl h
      · exact Or.inr (Or.inr (Or.inr ⟨i, false, t, e, h1, h2, h3⟩))
    | timeout i =>
      rcases schedule_cases s i true with h | ⟨t, e, h1, h2, h3⟩
      · exact Or.inl h
      · exact Or.inr (Or.inr (Or.inr ⟨i, true, t, e, h1, h2, h3⟩))

theorem step_invariant (P : System → Prop) (s : System) (a : Action) (hs : P s)
    (hcall : ∀ t, (t = .starter 0 ∨ t = .stopper .setFlag ∨ ∃ v, t = .adder (.stamp v)) →
      P { s with threads := s.threads ++ [t] })
    (htick : ∀ d : Nat, P { s with clock := s.clock + d })
    (hsched : ∀ i fire t e, s.threads[i]? = some t →
      threadStep s.clock s.gs fire t = some e → P (s.apply i e)) :
    P (step s a) := by
  rcases step_cases s a with h | ⟨t, ht, h⟩ | ⟨d, h⟩ | ⟨i, fire, t, e, h1, h2, h⟩
  · rw [h]; exact hs
  · rw [h]; exact hcall t ht
  · rw [h]; exact htick d
  · rw [h]; exact hsched i fire t e h1 h2

theorem pumpStep_elim (now : Time) (gs : GasStation) (idx : Nat) (fire : Bool)
    (motive : PumpPc → Effect → Prop)
    (hrun : gs.Running = true →
      motive .loopHead (.plain gs (.pump idx (.selecting (now + 100 * Millisecond)))))
    (hhalt : gs.Running = false → motive .loopHead (.plain gs (.pump idx .leaving)))
    (htimer : ∀ deadline, deadline ≤ now →
      motive (.selecting deadline) (.plain gs (.pump idx .loopHead)))
    (hrecv : ∀ deadline vehicle rest, gs.Queue = vehicle :: rest →
      motive (.selecting deadline)
        { Effect.plain { gs with Queue := rest } (.pump idx (.occupy (some vehicle))) with
          received := [(idx, vehicle)] })
    (hnil : ∀ deadline, gs.Queue = [] → gs.QueueClosed = true →
      motive (.selecting deadline) (.plain gs (.pump idx (.occupy none))))
    (hocc : ∀ vehicle,
      motive (.occupy vehicle)
        (.plain (gs.setPump idx true vehicle) (.pump idx (.measure vehicle))))
    (hderef : motive (.measure none) (.panic gs (.pump idx (.measure none))))
    (hmeasure : ∀ vehicle,
      motive (.measure (some vehicle))
        (.plain gs (.pump idx
          (.refuel vehicle (now - vehicle.ArrivalTime) (now + refuelingTime vehicle)))))
    (hwake : ∀ vehicle waitTime wake, wake ≤ now →
      motive (.refuel vehicle waitTime wake)
        (.plain gs (.pump idx (.record vehicle waitTime))))
    (hrecord : ∀ vehicle waitTime,
      motive (.record vehicle waitTime)
        { Effect.plain { gs with Stats := gs.Stats.record vehicle waitTime }
            (.pump idx (.release vehicle)) with
          panicked := gs.Stats.recordPanics
          served := [(idx, vehicle)] })
    (hrelease : ∀ vehicle,
      motive (.release vehicle) (.plain (gs.setPump idx false none) (.pump idx .loopHead)))
    (hneg : gs.pumpWg - 1 < 0 → motive .leaving (.panic gs (.pump idx .leaving)))
    (hdone : ¬ gs.pumpWg - 1 < 0 →
      motive .leaving (.plain { gs with pumpWg := gs.pumpWg - 1 } (.pump idx .exited)))
    (pc : PumpPc) (e : Effect) (h : pumpStep now gs idx fire pc = some e) : motive pc e := by
  rcases pc with _ | deadline | vehicle | vehicle | ⟨vehicle, waitTime, wake⟩ |
    ⟨vehicle, waitTime⟩ | vehicle | _ | _
  · simp only [pumpStep] at h
    split at h
    · rename_i hr; injection h with h; subst h; exact hrun hr
    · rename_i hr; injection h with h; subst h; exact hhalt (by simpa using hr)
  · simp only [pumpStep] at h
    split at h
    · split at h
      · rename_i hd; injection h with h; subst h; exact htimer deadline hd
      · exact absurd h (by simp)
    · split at h
      · rename_i v rest hq; injection h with h; subst h; exact hrecv deadline v rest hq
      · rename_i hq
        split at h
        · rename_i hcl; injection h with h; subst h; exact hnil deadline hq hcl
        · exact absurd h (by simp)
  · simp only [pumpStep] at h
    injection h with h; subst h; exact hocc vehicle
  · cases vehicle with
    | none => simp only [pumpStep] at h; injection h with h; subst h; exact hderef
    | some v => simp only [pumpStep] at h; injection h with h; subst h; exact hmeasure v
  · simp only [pumpStep] at h
    split at h
    · rename_i hw; injection h with h; subst h; exact hwake vehicle waitTime wake hw
    · exact absurd h (by simp)
  · simp only [pumpStep] at h
    injection h with h; subst h; exact hrecord vehicle waitTime
  · simp only [pumpStep] at h
    injection h with h; subst h; exact hrelease vehicle
  · simp only [pumpStep] at h
    split at h
    · rename_i hw; injection h with h; subst h; exact hneg hw
    · rename_i hw; injection h with h; subst h; exact hdone hw
  · simp [pumpStep] at h

theorem addStep_elim (now : Time) (gs : GasStation) (motive : AddPc → Effect → Prop)
    (hderef : motive (.stamp none) (.panic gs (.adder (.stamp none))))
    (hstamp : ∀ vehicle,
      motive (.stamp (some vehicle))
        (.plain gs (.adder (.count { vehicle with ArrivalTime := now }))))
    (hcount : ∀ vehicle,
      motive (.count vehicle) (.plain gs.countVehicle (.adder (.send vehicle))))
    (hsend : ∀ vehicle, gs.QueueClosed = false → gs.Queue.length < gs.QueueCap →
      motive (.send vehicle)
        { Effect.plain { gs with Queue := gs.Queue ++ [vehicle] } (.adder .done) with
          sent := [vehicle] })
    (hclosed : ∀ vehicle, gs.QueueClosed = true →
      motive (.send vehicle) (.panic gs (.adder (.send vehicle))))
    (pc : AddPc) (e : Effect) (h : addStep now gs pc = some e) : motive pc e := by
  rcases pc with vehicle | vehicle | vehicle | _
  · cases vehicle with
    | none => simp only [addStep] at h; injection h with h; subst h; exact hderef
    | some v => simp only [addStep] at h; injection h with h; subst h; exact hstamp v
  · simp only [addStep] at h
    injection h with h; subst h; exact hcount vehicle
  · simp only [addStep, GasStation.trySend] at h
    by_cases hcl : gs.QueueClosed = true
    · rw [if_pos hcl] at h
      injection h with h; subst h; exact hclosed vehicle hcl
    · by_cases hlen : gs.Queue.length < gs.QueueCap
      · rw [if_neg hcl, if_pos hlen] at h
        injection h with h; subst h
        exact hsend vehicle (by simpa using hcl) hlen
      · rw [if_neg hcl, if_neg hlen] at h
        exact absurd h (by simp)
  · simp [addStep] at h

theorem stopStep_elim (gs : GasStation) (motive : StopPc → Effect → Prop)
    (hflag : motive .setFlag (.plain { gs with Running := false } (.stopper .waiting)))
    (hwait : gs.pumpWg = 0 → motive .waiting (.plain gs (.stopper .closing)))
    (hagain : gs.QueueClosed = true → motive .closing (.panic gs (.stopper .closing)))
    (hclose : gs.QueueClosed = false →
      motive .closing (.plain { gs with QueueClosed := true } (.stopper .returned)))
    (pc : StopPc) (e : Effect) (h : stopStep gs pc = some e) : motive pc e := by
  rcases pc with _ | _ | _ | _
  · simp only [stopStep] at h
    injection h with h; subst h; exact hflag
  · simp only [stopStep] at h
    split at h
    · rename_i hw; injection h with h; subst h; exact hwait hw
    · exact absurd h (by simp)
  · simp only [stopStep] at h
    split at h
    · rename_i hw; injection h with h; subst h; exact hagain hw
    · rename_i hw; injection h with h; subst h; exact hclose (by simpa using hw)
  · simp [stopStep] at h

theorem threadStep_elim (now : Time) (gs : GasStation) (fire : Bool)
    (motive : Thread → Effect → Prop) (t : Thread) (e : Effect)
    (h : threadStep now gs fire t = some e)
    (hspawn : ∀ next, next < gs.Pumps.length →
      motive (.starter next)
        { Effect.plain { gs with pumpWg := gs.pumpWg + 1 } (.starter (next + 1)) with
          spawned := [.pump next .loopHead] })
    (hstarted : ∀ next, ¬ next < gs.Pumps.length →
      motive (.starter next) (.plain gs .started))
    (hrun : ∀ idx, gs.Running = true →
      motive (.pump idx .loopHead)
        (.plain gs (.pump idx (.selecting (now + 100 * Millisecond)))))
    (hhalt : ∀ idx, gs.Running = false →
      motive (.pump idx .loopHead) (.plain gs (.pump idx .leaving)))
    (htimer : ∀ idx deadline, deadline ≤ now →
      motive (.pump idx (.selecting deadline)) (.plain gs (.pump idx .loopHead)))
    (hrecv : ∀ idx deadline vehicle rest, gs.Queue = vehicle :: rest →
      motive (.pump idx (.selecting deadline))
        { Effect.plain { gs with Queue := rest } (.pump idx (.occupy (some vehicle))) with
          received := [(idx, vehicle)] })
    (hnil : ∀ idx deadline, gs.Queue = [] → gs.QueueClosed = true →
      motive (.pump idx (.selecting deadline)) (.plain gs (.pump idx (.occupy none))))
    (hocc : ∀ idx vehicle,
      motive (.pump idx (.occupy vehicle))
        (.plain (gs.setPump idx true vehicle) (.pump idx (.measure vehicle))))
    (hderef : ∀ idx,
      motive (.pump idx (.measure none)) (.panic gs (.pump idx (.measure none))))
    (hmeasure : ∀ idx vehicle,
      motive (.pump idx (.measure (some vehicle)))
        (.plain gs (.pump idx
          (.refuel vehicle (now - vehicle.ArrivalTime) (now + refuelingTime vehicle)))))
    (hwake : ∀ idx vehicle waitTime wake, wake ≤ now →
      motive (.pump idx (.refuel vehicle waitTime wake))
        (.plain gs (.pump idx (.record vehicle waitTime))))
    (hrecord : ∀ idx vehicle waitTime,
      motive (.pump idx (.record vehicle waitTime))
        { Effect.plain { gs with Stats := gs.Stats.record vehicle waitTime }
            (.pump idx (.release vehicle)) with
          panicked := gs.Stats.recordPanics
          served := [(idx, vehicle)] })
    (hrelease : ∀ idx vehicle,
      motive (.pump idx (.release vehicle))
        (.plain (gs.setPump idx false none) (.pump idx .loopHead)))
    (hneg : ∀ idx, gs.pumpWg - 1 < 0 →
      motive (.pump idx .leaving) (.panic gs (.pump idx .leaving)))
    (hdone : ∀ idx, ¬ gs.pumpWg - 1 < 0 →
      motive (.pump idx .leaving)
        (.plain { gs with pumpWg := gs.pumpWg - 1 } (.pump idx .exited)))
    (hnilarg : motive (.adder (.stamp none)) (.panic gs (.adder (.stamp none))))
    (hstamp : ∀ vehicle,
      motive (.adder (.stamp (some vehicle)))
        (.plain gs (.adder (.count { vehicle with ArrivalTime := now }))))
    (hcount : ∀ vehicle,
      motive (.adder (.count vehicle)) (.plain gs.countVehicle (.adder (.send vehicle))))
    (hsend : ∀ vehicle, gs.QueueClosed = false → gs.Queue.length < gs.QueueCap →
      motive (.adder (.send vehicle))
        { Effect.plain { gs with Queue := gs.Queue ++ [vehicle] } (.adder .done) with
          sent := [vehicle] })
    (hclosed : ∀ vehicle, gs.QueueClosed = true →
      motive (.adder (.send vehicle)) (.panic gs (.adder (.send vehicle))))
    (hflag : motive (.stopper .setFlag)
      (.plain { gs with Running := false } (.stopper .waiting)))
    (hwait : gs.pumpWg = 0 → motive (.stopper .waiting) (.plain gs (.stopper .closing)))
    (hagain : gs.QueueClosed = true →
      motive (.stopper .closing) (.panic gs (.stopper .closing)))
    (hclose : gs.QueueClosed = false →
      motive (.stopper .closing)
        (.plain { gs with QueueClosed := true } (.stopper .returned))) :
    motive t e := by
  rcases t with next | _ | ⟨idx, pc⟩ | pc | pc
  · cases fire with
    | true => simp [threadStep] at h
    | false =>
      simp only [threadStep, startStep, Bool.false_eq_true, if_false] at h
      injection h with h
      subst h
      split
      · rename_i hn; exact hspawn next hn
      · rename_i hn; exact hstarted next hn
  · simp [threadStep] at h
  · exact pumpStep_elim now gs idx fire (fun pc e => motive (.pump idx pc) e)
      (hrun idx) (hhalt idx) (htimer idx) (hrecv idx) (hnil idx) (hocc idx) (hderef idx)
      (hmeasure idx) (hwake idx) (hrecord idx) (hrelease idx) (hneg idx) (hdone idx) pc e h
  · cases fire with
    | true => simp [threadStep] at h
    | false =>
      exact addStep_elim now gs (fun pc e => motive (.adder pc) e)
        hnilarg hstamp hcount hsend hclosed pc e (by simpa [threadStep] using h)
  · cases fire with
    | true => simp [threadStep] at h
    | false =>
      exact stopStep_elim gs (fun pc e => motive (.stopper pc) e)
        hflag hwait hagain hclose pc e (by simpa [threadStep] using h)

theorem threadStep_channel (now : Time) (gs : GasStation) (fire : Bool) (t : Thread)
    (e : Effect) (h : threadStep now gs fire t = some e) :
    e.gs.QueueCap = gs.QueueCap ∧
    ((e.gs.Queue = gs.Queue ∧ e.sent = [] ∧ e.received = []) ∨
     (∃ v, e.gs.Queue = gs.Queue ++ [v] ∧ gs.Queue.length < gs.QueueCap ∧
        e.sent = [v] ∧ e.received = []) ∨
     (∃ v idx, gs.Queue = v :: e.gs.Queue ∧ e.sent = [] ∧ e.received = [(idx, v)])) := by
  apply threadStep_elim now gs fire _ t e h
  all_goals intros
  all_goals simp_all [Effect.plain, Effect.panic, GasStation.setPump, GasStation.countVehicle]


/-! ### Invariants of every run -/

theorem tally_append (f : Thread → Nat) (l1 l2 : List Thread) :
    tally f (l1 ++ l2) = tally f l1 + tally f l2 := by
  simp [tally]

theorem tally_set (f : Thread → Nat) (t1 : Thread) :
    ∀ (l : List Thread) (i : Nat) (t : Thread), l[i]? = some t →
      tally f (l.set i t1) + f t = tally f l + f t1 := by
  intro l
  induction l with
  | nil => intro i t h; simp at h
  | cons a rest ih =>
    intro i t h
    cases i with
    | zero =>
      simp at h
      subst h
      simp [tally]
      omega
    | succ j =>
      simp at h
      have := ih j t h
      simp [tally] at this ⊢
      omega

theorem threadStep_owed (now : Time) (gs : GasStation) (fire : Bool) (t : Thread)
    (e : Effect) (h : threadStep now gs fire t = some e) :
    e.gs.Stats.TotalVehicles + gs.Stats.ServedVehicles + gs.Queue.length
        + t.inService + t.unsent
      = gs.Stats.TotalVehicles + e.gs.Stats.ServedVehicles + e.gs.Queue.length
        + e.thread.inService + e.thread.unsent ∧
    tally Thread.inService e.spawned = 0 ∧ tally Thread.unsent e.spawned = 0 := by
  apply threadStep_elim now gs fire _ t e h
  all_goals intros
  all_goals simp_all [Effect.plain, Effect.panic, GasStation.setPump,
    GasStation.countVehicle, Statistics.record, Thread.inService, Thread.unsent, tally]
  all_goals omega

theorem conserved_step (s : System) (a : Action) (hs : Conserved s) : Conserved (step s a) := by
  apply step_invariant Conserved s a hs
  · intro t ht
    unfold Conserved at hs ⊢
    simp only [tally_append]
    rcases ht with rfl | rfl | ⟨v, rfl⟩ <;> simpa [tally, Thread.inService, Thread.unsent] using hs
  · intro d; exact hs
  · intro i fire t e hti hte
    obtain ⟨h1, h2, h3⟩ := threadStep_owed _ _ _ _ _ hte
    have h4 := tally_set Thread.inService e.thread s.threads i t hti
    have h5 := tally_set Thread.unsent e.thread s.threads i t hti
    unfold Conserved at hs ⊢
    simp only [System.apply, tally_append, h2, h3]
    push_cast
    omega

theorem conserved_run (numPumps : Nat) (acts : List Action) :
    Conserved (run acts (boot numPumps)) := by
  apply run_invariant Conserved conserved_step
  simp [Conserved, boot, NewGasStation, tally]

theorem queue_bound_step (s : System) (a : Action)
    (hs : s.gs.Queue.length ≤ s.gs.QueueCap ∧ s.gs.QueueCap = 50) :
    (step s a).gs.Queue.length ≤ (step s a).gs.QueueCap ∧ (step s a).gs.QueueCap = 50 := by
  apply step_invariant (fun s => s.gs.Queue.length ≤ s.gs.QueueCap ∧ s.gs.QueueCap = 50) s a hs
  · intro t _; exact hs
  · intro d; exact hs
  · intro i fire t e _ hte
    obtain ⟨hcap, hq | ⟨v, hq, hlt, _⟩ | ⟨v, idx, hq, _⟩⟩ := threadStep_channel _ _ _ _ _ hte
    · simp only [System.apply, hcap, hq]; exact hs
    · simp only [System.apply, hcap, hq, List.length_append, List.length_singleton]
      exact ⟨hlt, hs.2⟩
    · simp only [System.apply, hcap]
      rw [hq] at hs
      simp only [List.length_cons] at hs
      exact ⟨by omega, hs.2⟩

theorem fifo_step (s : System) (a : Action)
    (hs : s.received.map Prod.snd ++ s.gs.Queue = s.sent) :
    (step s a).received.map Prod.snd ++ (step s a).gs.Queue = (step s a).sent := by
  apply step_invariant (fun s => s.received.map Prod.snd ++ s.gs.Queue = s.sent) s a hs
  · intro t _; exact hs
  · intro d; exact hs
  · intro i fire t e _ hte
    obtain ⟨_, ⟨hq, h1, h2⟩ | ⟨v, hq, _, h1, h2⟩ | ⟨v, idx, hq, h1, h2⟩⟩ :=
      threadStep_channel _ _ _ _ _ hte
    · simp only [System.apply, hq, h1, h2, List.append_nil, hs]
    · simp only [System.apply, hq, h1, h2, List.append_nil, ← hs, List.append_assoc]
    · simp only [System.apply, h1, h2, List.append_nil, ← hs, hq, List.map_append,
        List.map_cons, List.map_nil, List.append_assoc, List.singleton_append]


theorem tally_eq_zero (f : Thread → Nat) (l : List Thread) (h : tally f l = 0) :
    ∀ u ∈ l, f u = 0 := by
  intro u hu
  unfold tally at h
  have := List.sum_eq_zero_iff.mp h (f u) (List.mem_map_of_mem f hu)
  exact this

theorem tally_zero_of_forall (f : Thread → Nat) (l : List Thread) (h : ∀ u ∈ l, f u = 0) :
    tally f l = 0 := by
  unfold tally
  apply List.sum_eq_zero
  intro x hx
  obtain ⟨u, hu, rfl⟩ := List.mem_map.mp hx
  exact h u hu

theorem quiet_of_not_live (u : Thread) (h : u.live = 0) : u.quiet = true := by
  rcases u with _ | _ | ⟨idx, pc⟩ | _ | _ <;> try rfl
  cases pc <;> first | rfl | simp [Thread.live] at h

theorem inService_of_quiet (u : Thread) (h : u.quiet = true) : u.inService = 0 := by
  rcases u with _ | _ | ⟨idx, pc⟩ | _ | _ <;> try rfl
  cases pc <;> simp [Thread.quiet] at h <;> rfl

theorem threadStep_stop (now : Time) (gs : GasStation) (fire : Bool) (t : Thread)
    (e : Effect) (h : threadStep now gs fire t = some e) :
    (e.gs.pumpWg + t.live = gs.pumpWg + e.thread.live + tally Thread.live e.spawned) ∧
    (gs.Running = false → e.gs.Running = false) ∧
    (e.thread.pastFlag = true → t.pastFlag = true ∨ e.gs.Running = false) ∧
    (∀ u ∈ e.spawned, u.pastFlag = false ∧ u.pastWait = false ∧ u.quiet = true) ∧
    (gs.Running = false → t.quiet = true → e.thread.quiet = true) ∧
    (e.thread.pastWait = true →
      t.pastWait = true ∨ (gs.pumpWg = 0 ∧ e.spawned = [] ∧ e.thread.quiet = true)) := by
  apply threadStep_elim now gs fire _ t e h
  all_goals intros
  all_goals simp_all [Effect.plain, Effect.panic, GasStation.setPump,
    GasStation.countVehicle, Thread.live, Thread.pastFlag, Thread.pastWait, Thread.quiet, tally]

theorem threadStep_logged (now : Time) (gs : GasStation) (fire : Bool) (t : Thread)
    (e : Effect) (h : threadStep now gs fire t = some e) :
    e.received.length + t.inService = e.served.length + e.thread.inService ∧
    e.gs.Stats.ServedVehicles = gs.Stats.ServedVehicles + e.served.length ∧
    tally Thread.inService e.spawned = 0 := by
  apply threadStep_elim now gs fire _ t e h
  all_goals intros
  all_goals simp_all [Effect.plain, Effect.panic, GasStation.setPump,
    GasStation.countVehicle, Statistics.record, Thread.inService, tally]

theorem logged_step (s : System) (a : Action) (hs : Logged s) : Logged (step s a) := by
  apply step_invariant Logged s a hs
  · intro t ht
    unfold Logged at hs ⊢
    simp only [tally_append]
    rcases ht with rfl | rfl | ⟨v, rfl⟩ <;> simpa [tally, Thread.inService] using hs
  · intro d; exact hs
  · intro i fire t e hti hte
    obtain ⟨h1, h2, h3⟩ := threadStep_logged _ _ _ _ _ hte
    have h4 := tally_set Thread.inService e.thread s.threads i t hti
    unfold Logged at hs ⊢
    obtain ⟨hs1, hs2⟩ := hs
    simp only [System.apply, tally_append, h3, List.length_append]
    constructor
    · omega
    · rw [h2, hs2]; push_cast; ring

theorem logged_run (numPumps : Nat) (acts : List Action) :
    Logged (run acts (boot numPumps)) := by
  apply run_invariant Logged logged_step
  simp [Logged, boot, NewGasStation, tally]

theorem stopInv_step (s : System) (a : Action) (hs : StopInv s) : StopInv (step s a) := by
  apply step_invariant StopInv s a hs
  · intro t ht
    have hfresh : t.live = 0 ∧ t.pastFlag = false ∧ t.pastWait = false ∧ t.quiet = true := by
      rcases ht with rfl | rfl | ⟨v, rfl⟩ <;> simp [Thread.live, Thread.pastFlag, Thread.pastWait, Thread.quiet]
    obtain ⟨h1, h2, h3, h4⟩ := hfresh
    refine ⟨?_, ?_, ?_⟩
    · simp only [tally_append]
      simpa [tally, h1] using hs.wg
    · intro u hu hp
      simp only [List.mem_append, List.mem_singleton] at hu
      rcases hu with hu | rfl
      · exact hs.flag u hu hp
      · rw [h2] at hp; exact absurd hp (by simp)
    · intro u hu hp w hw
      simp only [List.mem_append, List.mem_singleton] at hu hw
      rcases hu with hu | rfl
      · rcases hw with hw | rfl
        · exact hs.drained u hu hp w hw
        · exact h4
      · rw [h3] at hp; exact absurd hp (by simp)
  · intro d; exact ⟨hs.wg, hs.flag, hs.drained⟩
  · intro i fire t e hti hte
    obtain ⟨l1, l2, l3, l4, l5, l6⟩ := threadStep_stop _ _ _ _ _ hte
    have hlive := tally_set Thread.live e.thread s.threads i t hti
    have htmem : t ∈ s.threads := List.getElem?_mem hti
    refine ⟨?_, ?_, ?_⟩
    · simp only [System.apply, tally_append]
      have := hs.wg
      push_cast
      omega
    · intro u hu hp
      simp only [System.apply, List.mem_append] at hu ⊢
      rcases hu with hu | hu
      · rcases List.mem_or_eq_of_mem_set hu with hu | rfl
        · exact l2 (hs.flag u hu hp)
        · rcases l3 hp with h | h
          · exact l2 (hs.flag t htmem h)
          · exact h
      · rw [(l4 u hu).1] at hp; exact absurd hp (by simp)
    · intro u hu hp w hw
      simp only [System.apply, List.mem_append] at hu hw
      have hold : ∀ m ∈ s.threads, m.pastWait = true → w.quiet = true := by
        intro m hm hmp
        have hq := hs.drained m hm hmp
        have hrun : s.gs.Running = false := by
          apply hs.flag m hm
          rcases m with _ | _ | _ | _ | pc <;> simp [Thread.pastWait] at hmp
          cases pc <;> simp [Thread.pastWait] at hmp <;> rfl
        rcases hw with hw | hw
        · rcases List.mem_or_eq_of_mem_set hw with hw | rfl
          · exact hq w hw
          · exact l5 hrun (hq t htmem)
        · exact (l4 w hw).2.2
      rcases hu with hu | hu
      · rcases List.mem_or_eq_of_mem_set hu with hu | rfl
        · exact hold u hu hp
        · rcases l6 hp with h | ⟨hwg, hsp, hq⟩
          · exact hold t htmem h
          · have hz : tally Thread.live s.threads = 0 := by
              have := hs.wg
              omega
            rcases hw with hw | hw
            · rcases List.mem_or_eq_of_mem_set hw with hw | rfl
              · exact quiet_of_not_live w (tally_eq_zero _ _ hz w hw)
              · exact hq
            · rw [hsp] at hw; exact absurd hw (by simp)
      · rw [(l4 u hu).2.1] at hp; exact absurd hp (by simp)

theorem stopInv_run (numPumps : Nat) (acts : List Action) :
    StopInv (run acts (boot numPumps)) := by
  apply run_invariant StopInv stopInv_step
  refine ⟨?_, ?_, ?_⟩ <;> simp [boot, NewGasStation, tally]


/-! ### The calls run alone agree with the running program -/

/-- In the running program a call of `AddVehicle` that is scheduled three times in a row
does what `AddVehicle` run alone does. -/
theorem AddVehicle_in_program (s : System) (vehicle : Vehicle) (hc : s.crashed = false) :
    run [.callAdd (some vehicle), .sched s.threads.length, .sched s.threads.length,
        .sched s.threads.length] s
      = match AddVehicle s.clock (some vehicle) s.gs with
        | .returned gs1 =>
          { s with
            gs := gs1
            threads := s.threads ++ [.adder .done]
            sent := s.sent ++ [{ vehicle with ArrivalTime := s.clock }] }
        | .blocked gs1 =>
          { s with
            gs := gs1
            threads := s.threads ++ [.adder (.send { vehicle with ArrivalTime := s.clock })] }
        | .panicked gs1 =>
          { s with
            gs := gs1
            threads := s.threads ++ [.adder (.send { vehicle with ArrivalTime := s.clock })]
            crashed := true } := by
  obtain ⟨gs, threads, clock, crashed, sent, received, served⟩ := s
  simp only at hc
  subst hc
  by_cases hcl : gs.QueueClosed = true
  · simp [run, step, step?, System.schedule, threadStep, addStep, System.apply, Effect.plain,
      Effect.panic, AddVehicle, GasStation.trySend, GasStation.countVehicle, hcl]
  · by_cases hlen : gs.Queue.length < gs.QueueCap
    · simp [run, step, step?, System.schedule, threadStep, addStep, System.apply,
        Effect.plain, Effect.panic, AddVehicle, GasStation.trySend, GasStation.countVehicle,
        hcl, hlen]
    · simp [run, step, step?, System.schedule, threadStep, addStep, System.apply,
        Effect.plain, Effect.panic, AddVehicle, GasStation.trySend, GasStation.countVehicle,
        hcl, hlen]

/-- In the running program a call of `Stop` that is scheduled three times in a row does
what `Stop` run alone does. -/
theorem Stop_in_program (s : System) (hc : s.crashed = false) :
    run [.callStop, .sched s.threads.length, .sched s.threads.length,
        .sched s.threads.length] s
      = match Stop s.gs with
        | .returned gs1 => { s with gs := gs1, threads := s.threads ++ [.stopper .returned] }
        | .blocked gs1 => { s with gs := gs1, threads := s.threads ++ [.stopper .waiting] }
        | .panicked gs1 =>
          { s with gs := gs1, threads := s.threads ++ [.stopper .closing], crashed := true } := by
  obtain ⟨gs, threads, clock, crashed, sent, received, served⟩ := s
  simp only at hc
  subst hc
  by_cases hwg : gs.pumpWg = 0
  · by_cases hcl : gs.QueueClosed = true
    · simp [run, step, step?, System.schedule, threadStep, stopStep, System.apply,
        Effect.plain, Effect.panic, Stop, hwg, hcl]
    · simp [run, step, step?, System.schedule, threadStep, stopStep, System.apply,
        Effect.plain, Effect.panic, Stop, hwg, hcl]
  · simp [run, step, step?, System.schedule, threadStep, stopStep, System.apply,
      Effect.plain, Effect.panic, Stop, hwg]

/-! ### The calls run alone (C2, C4, C5, C6) and the statistics update (C10) -/

/-- C2, counterexample: a station that `NewGasStation` has just built and that was never
started has `Running = true`, and `AddVehicle` on it returns normally with the vehicle in
the queue and counted. -/
theorem AddVehicle_accepted_before_Start :
    (NewGasStation 1).Running = true ∧
    AddVehicle 7 (some carA) (NewGasStation 1) = .returned
      { NewGasStation 1 with
        Queue := [{ carA with ArrivalTime := 7 }]
        Stats := { (NewGasStation 1).Stats with TotalVehicles := 1 } } := by
  decide

/-- C2, amended: `AddVehicle` never reads `Running` and has no `NotAccepting` result. On
every station whose queue is open and has a free slot, whatever `Running` is, it stamps
the arrival time, adds one to `TotalVehicles`, appends the vehicle to the queue and
returns normally. A new station has `Running = true`, and a step of `Start` leaves
`Running` as it is. -/
theorem AddVehicle_ignores_Running (now : Time) (vehicle : Vehicle) (gs : GasStation)
    (numPumps next : Nat) (hopen : gs.QueueClosed = false)
    (hroom : gs.Queue.length < gs.QueueCap) :
    AddVehicle now (some vehicle) gs = .returned
      { gs with
        Queue := gs.Queue ++ [{ vehicle with ArrivalTime := now }]
        Stats := { gs.Stats with TotalVehicles := gs.Stats.TotalVehicles + 1 } } ∧
    AddVehicle now (some vehicle) { gs with Running := false } = .returned
      { gs with
        Running := false
        Queue := gs.Queue ++ [{ vehicle with ArrivalTime := now }]
        Stats := { gs.Stats with TotalVehicles := gs.Stats.TotalVehicles + 1 } } ∧
    (NewGasStation numPumps).Running = true ∧
    (startStep gs next).gs.Running = gs.Running := by
  refine ⟨?_, ?_, rfl, ?_⟩
  · simp [AddVehicle, GasStation.trySend, GasStation.countVehicle, hopen, hroom]
  · simp [AddVehicle, GasStation.trySend, GasStation.countVehicle, hopen, hroom]
  · unfold startStep
    split <;> rfl

/-- Witness for C2: a station with two pumps whose `Running` flag is false. -/
theorem AddVehicle_ignores_Running_witness :
    (NewGasStation 2).QueueClosed = false ∧
    (NewGasStation 2).Queue.length < (NewGasStation 2).QueueCap ∧
    AddVehicle 7 (some truckB) { NewGasStation 2 with Running := false } = .returned
      { NewGasStation 2 with
        Running := false
        Queue := (NewGasStation 2).Queue ++ [{ truckB with ArrivalTime := 7 }]
        Stats := { (NewGasStation 2).Stats with
                   TotalVehicles := (NewGasStation 2).Stats.TotalVehicles + 1 } } :=
  ⟨rfl, by decide,
    (AddVehicle_ignores_Running 7 truckB (NewGasStation 2) 2 0 rfl (by decide)).2.1⟩

/-- C4, counterexample: `Stop` on a station that was never started returns normally, with
no error, and the station is not what it was: `Running` is false and the queue closed. -/
theorem Stop_before_Start_returns :
    Stop (NewGasStation 1) = .returned
      { NewGasStation 1 with Running := false, QueueClosed := true } ∧
    ({ NewGasStation 1 with Running := false, QueueClosed := true } : GasStation)
      ≠ NewGasStation 1 := by
  decide

/-- C4, amended: `Stop` has no state check and no error result. On every station whose
queue is open and whose wait group counts no worker (one that was never started, for
instance), whatever `Running` is, `Stop` sets `Running` to false, closes the queue and
returns normally; nothing else changes. -/
theorem Stop_without_workers (gs : GasStation) (hwg : gs.pumpWg = 0)
    (hopen : gs.QueueClosed = false) :
    Stop gs = .returned { gs with Running := false, QueueClosed := true } := by
  simp [Stop, hwg, hopen]

/-- Witness for C4: a new station with four pumps. -/
theorem Stop_without_workers_witness :
    (NewGasStation 4).pumpWg = 0 ∧ (NewGasStation 4).QueueClosed = false ∧
    Stop (NewGasStation 4) = .returned
      { NewGasStation 4 with Running := false, QueueClosed := true } :=
  ⟨rfl, rfl, Stop_without_workers (NewGasStation 4) rfl rfl⟩

/-- C5, counterexample: 50 vehicles are queued on a station that was never started, so no
pump dequeues. One more `AddVehicle` counts its vehicle and then stands at the send: it
cannot move, also not after an hour has passed, and run alone the call ends blocked, not
with a result. -/
theorem AddVehicle_stuck_at_fifty :
    fullStation.Queue.length = 50 ∧ fullStation.QueueCap = 50 ∧
    fullSystem.crashed = false ∧
    fullSystem.threads[50]? = some (.adder (.send carA)) ∧
    (step? (.sched 50) fullSystem).isNone = true ∧
    (step? (.sched 50) (step fullSystem (.tick 3600000000000))).isNone = true ∧
    AddVehicle 0 (some carA) fullStation = .blocked fullStation.countVehicle := by
  set_option maxRecDepth 100000 in decide

/-- C5, amended: `AddVehicle` has no `QueueFull` result and no timeout. On a queue that is
open and full it adds one to `TotalVehicles` and then blocks in the channel send: run
alone the call ends blocked, and in the running program the thread that stands at the
send cannot move, whatever the clock shows, in any state whose queue is open and full. -/
theorem AddVehicle_blocks_while_full (s : System) (vehicle : Vehicle) (i : Nat)
    (hopen : s.gs.QueueClosed = false) (hfull : s.gs.QueueCap ≤ s.gs.Queue.length) :
    AddVehicle s.clock (some vehicle) s.gs = .blocked s.gs.countVehicle ∧
    (s.threads[i]? = some (.adder (.send vehicle)) →
      step? (.sched i) s = none ∧ step? (.timeout i) s = none ∧
      ∀ d, step? (.sched i) (step s (.tick d)) = none) := by
  have hnot : ¬ s.gs.Queue.length < s.gs.QueueCap := Nat.not_lt.mpr hfull
  have hsend : ∀ now, addStep now s.gs (.send vehicle) = none := by
    intro now
    simp [addStep, GasStation.trySend, hopen, hnot]
  refine ⟨?_, ?_⟩
  · simp [AddVehicle, GasStation.trySend, GasStation.countVehicle, hopen, hnot]
  · intro ht
    refine ⟨?_, ?_, ?_⟩
    · simp [step?, System.schedule, ht, threadStep, hsend]
    · simp [step?, System.schedule, ht, threadStep]
    · intro d
      by_cases hc : s.crashed = true
      · simp [step, step?, hc]
      · simp [step, step?, hc, System.schedule, ht, threadStep, hsend]

/-- Witness for C5: the program `fullSystem`, whose thread 50 stands at the send. -/
theorem AddVehicle_blocks_while_full_witness :
    fullSystem.gs.QueueClosed = false ∧
    fullSystem.gs.QueueCap ≤ fullSystem.gs.Queue.length ∧
    fullSystem.threads[50]? = some (.adder (.send carA)) ∧
    AddVehicle fullSystem.clock (some carA) fullSystem.gs
      = .blocked fullSystem.gs.countVehicle ∧
    step? (.sched 50) fullSystem = none :=
  have h := AddVehicle_blocks_while_full fullSystem carA 50
    (by set_option maxRecDepth 100000 in decide)
    (by set_option maxRecDepth 100000 in decide)
  ⟨by set_option maxRecDepth 100000 in decide, by set_option maxRecDepth 100000 in decide,
    by set_option maxRecDepth 100000 in decide, h.1,
    (h.2 (by set_option maxRecDepth 100000 in decide)).1⟩

/-- C6, counterexample: `AddVehicle` on the full queue of `fullStation` does not enqueue,
and yet `TotalVehicles` is 51 afterwards where it was 50 before. -/
theorem AddVehicle_blocked_counts_vehicle :
    AddVehicle 0 (some truckB) fullStation = .blocked fullStation.countVehicle ∧
    fullStation.Stats.TotalVehicles = 50 ∧
    fullStation.countVehicle.Stats.TotalVehicles = 51 := by
  set_option maxRecDepth 100000 in decide

/-- C6, amended: when `AddVehicle` does not enqueue its vehicle (the queue is full or
closed), the queue, the pumps, `Running` and the counters `ServedVehicles`,
`TotalFuelDispensed`, `TotalRevenue`, `TotalWaitTime`, `AverageWaitTime` are as before
the call, and `TotalVehicles` is larger by exactly one: the vehicle is counted before the
send is tried. -/
theorem AddVehicle_failed_send_frame (now : Time) (vehicle : Vehicle) (gs gs1 : GasStation)
    (hfail : AddVehicle now (some vehicle) gs = .blocked gs1 ∨
      AddVehicle now (some vehicle) gs = .panicked gs1) :
    gs1.Queue = gs.Queue ∧ gs1.QueueClosed = gs.QueueClosed ∧ gs1.Pumps = gs.Pumps ∧
    gs1.Running = gs.Running ∧
    gs1.Stats.ServedVehicles = gs.Stats.ServedVehicles ∧
    gs1.Stats.TotalFuelDispensed = gs.Stats.TotalFuelDispensed ∧
    gs1.Stats.TotalRevenue = gs.Stats.TotalRevenue ∧
    gs1.Stats.TotalWaitTime = gs.Stats.TotalWaitTime ∧
    gs1.Stats.AverageWaitTime = gs.Stats.AverageWaitTime ∧
    gs1.Stats.TotalVehicles = gs.Stats.TotalVehicles + 1 := by
  have hgs : gs1 = gs.countVehicle := by
    unfold AddVehicle at hfail
    simp only at hfail
    split at hfail
    · simp at hfail
    · rcases hfail with h | h
      · exact (Outcome.blocked.inj h).symm
      · simp at h
    · rcases hfail with h | h
      · simp at h
      · exact (Outcome.panicked.inj h).symm
  subst hgs
  simp [GasStation.countVehicle]

/-- Witness for C6: a station whose queue is closed. -/
theorem AddVehicle_failed_send_frame_witness :
    (AddVehicle 3 (some carA) { NewGasStation 1 with QueueClosed := true }
        = .blocked (GasStation.countVehicle { NewGasStation 1 with QueueClosed := true }) ∨
      AddVehicle 3 (some carA) { NewGasStation 1 with QueueClosed := true }
        = .panicked (GasStation.countVehicle { NewGasStation 1 with QueueClosed := true })) ∧
    (GasStation.countVehicle { NewGasStation 1 with QueueClosed := true }).Queue
      = (NewGasStation 1).Queue ∧
    (GasStation.countVehicle { NewGasStation 1 with QueueClosed := true }).Stats.TotalVehicles
      = (NewGasStation 1).Stats.TotalVehicles + 1 :=
  have h := AddVehicle_failed_send_frame 3 carA { NewGasStation 1 with QueueClosed := true }
    (GasStation.countVehicle { NewGasStation 1 with QueueClosed := true }) (Or.inr rfl)
  ⟨Or.inr rfl, h.1, h.2.2.2.2.2.2.2.2.2⟩

/-- C10, counterexample: the totals are float64 values and every `+=` rounds. Three
recordings of a vehicle of 0.1 litre (the float64 nearest to 0.1) from a new station give
the totals 0.1, 0.2 and 0.30000000000000004, so the third recording does not increase
`TotalFuelDispensed` by the quantity of the vehicle. One recording of 1 litre of
Gasoline98 increases `TotalRevenue` by the float64 price, which is not 7.20. -/
theorem record_rounds_the_totals :
    (((NewGasStation 1).Stats.record tenthCar 0).record tenthCar 0).TotalFuelDispensed
      = 3602879701896397 / 18014398509481984 ∧
    ((((NewGasStation 1).Stats.record tenthCar 0).record tenthCar 0).record
        tenthCar 0).TotalFuelDispensed = 1351079888211149 / 4503599627370496 ∧
    ((((NewGasStation 1).Stats.record tenthCar 0).record tenthCar 0).record
        tenthCar 0).TotalFuelDispensed
      ≠ (((NewGasStation 1).Stats.record tenthCar 0).record tenthCar 0).TotalFuelDispensed
        + tenthCar.FuelAmount ∧
    litreCar.FuelAmount = 1 ∧ litreCar.FuelType = Gasoline98 ∧
    ((NewGasStation 1).Stats.record litreCar 0).TotalRevenue
      ≠ (NewGasStation 1).Stats.TotalRevenue + 1 * 7.20 := by
  decide!

/-- C10, amended: the statistics update of `serveVehicle` for a vehicle with quantity
`vehicle.FuelAmount`, fuel kind `vehicle.FuelType` and wait `waitTime` adds exactly 1 to
`ServedVehicles` and the wait to `TotalWaitTime` and leaves `TotalVehicles` as it is.
`TotalFuelDispensed` becomes the float64 sum of its old value and the quantity, and
`TotalRevenue` the float64 sum of its old value and the float64 product of the quantity
and the table price of the fuel kind; the table prices are the float64 values nearest to
6.50, 7.20, 6.80, 3.50. Every float64 result is the exact one rounded to nearest, so it
is within the relative error `2^-53` of the exact one; this is stated for exact results
in the normal float64 range (no overflow to infinity, no subnormal result). This update
is what the recording step of a pump worker writes to `gs.Stats`. -/
theorem serveVehicle_record_effect (st : Statistics) (vehicle : Vehicle)
    (waitTime : Duration) (now : Time) (gs : GasStation) (idx : Nat) (fire : Bool) :
    (st.record vehicle waitTime).ServedVehicles = st.ServedVehicles + 1 ∧
    (st.record vehicle waitTime).TotalWaitTime = st.TotalWaitTime + waitTime ∧
    (st.record vehicle waitTime).TotalVehicles = st.TotalVehicles ∧
    (float64Range (st.TotalFuelDispensed + vehicle.FuelAmount) = true →
      (st.record vehicle waitTime).TotalFuelDispensed
        = float64Add st.TotalFuelDispensed vehicle.FuelAmount ∧
      |(st.record vehicle waitTime).TotalFuelDispensed
          - (st.TotalFuelDispensed + vehicle.FuelAmount)|
        ≤ |st.TotalFuelDispensed + vehicle.FuelAmount| / 2 ^ 53) ∧
    (float64Range (vehicle.FuelAmount * fuelPrices vehicle.FuelType) = true →
      float64Range (st.TotalRevenue
        + float64Mul vehicle.FuelAmount (fuelPrices vehicle.FuelType)) = true →
      (st.record vehicle waitTime).TotalRevenue
        = float64Add st.TotalRevenue
            (float64Mul vehicle.FuelAmount (fuelPrices vehicle.FuelType)) ∧
      |float64Mul vehicle.FuelAmount (fuelPrices vehicle.FuelType)
          - vehicle.FuelAmount * fuelPrices vehicle.FuelType|
        ≤ |vehicle.FuelAmount * fuelPrices vehicle.FuelType| / 2 ^ 53 ∧
      |(st.record vehicle waitTime).TotalRevenue
          - (st.TotalRevenue + float64Mul vehicle.FuelAmount (fuelPrices vehicle.FuelType))|
        ≤ |st.TotalRevenue + float64Mul vehicle.FuelAmount (fuelPrices vehicle.FuelType)|
          / 2 ^ 53) ∧
    (fuelPrices Gasoline95 = roundFloat64 6.50 ∧ fuelPrices Gasoline98 = roundFloat64 7.20 ∧
      fuelPrices Diesel = roundFloat64 6.80 ∧ fuelPrices LPG = roundFloat64 3.50) ∧
    (pumpStep now gs idx fire (.record vehicle waitTime)).map (fun e => e.gs.Stats)
      = some (gs.Stats.record vehicle waitTime) :=
  ⟨rfl, rfl, rfl,
    fun _ => ⟨rfl, roundFloat64_error (st.TotalFuelDispensed + vehicle.FuelAmount)⟩,
    fun _ _ => ⟨rfl, roundFloat64_error (vehicle.FuelAmount * fuelPrices vehicle.FuelType),
      roundFloat64_error
        (st.TotalRevenue + float64Mul vehicle.FuelAmount (fuelPrices vehicle.FuelType))⟩,
    fuelPrices_table, rfl⟩

/-- Witness for C10: `carA` (30 litres of Gasoline95) is recorded on a new station. -/
theorem serveVehicle_record_effect_witness :
    float64Range ((NewGasStation 1).Stats.TotalFuelDispensed + carA.FuelAmount) = true ∧
    float64Range (carA.FuelAmount * fuelPrices carA.FuelType) = true ∧
    float64Range ((NewGasStation 1).Stats.TotalRevenue
      + float64Mul carA.FuelAmount (fuelPrices carA.FuelType)) = true ∧
    ((NewGasStation 1).Stats.record carA 5).TotalFuelDispensed
      = float64Add (NewGasStation 1).Stats.TotalFuelDispensed carA.FuelAmount ∧
    ((NewGasStation 1).Stats.record carA 5).TotalRevenue
      = float64Add (NewGasStation 1).Stats.TotalRevenue
          (float64Mul carA.FuelAmount (fuelPrices carA.FuelType)) ∧
    ((NewGasStation 1).Stats.record carA 5).TotalFuelDispensed = 30 ∧
    ((NewGasStation 1).Stats.record carA 5).TotalRevenue = 195 :=
  have h := serveVehicle_record_effect (NewGasStation 1).Stats carA 5 0 (NewGasStation 1) 0
    false
  ⟨by decide!, by decide!, by decide!, (h.2.2.2.1 (by decide!)).1,
    (h.2.2.2.2.1 (by decide!) (by decide!)).1, by decide!, by decide!⟩

/-! ### Stop and Start in the running program (C1, C3) -/

theorem run_append (acts1 acts2 : List Action) (s : System) :
    run (acts1 ++ acts2) s = run acts2 (run acts1 s) := by
  simp [run, List.foldl_append]

theorem starter_progress (s : System) (hc : s.crashed = false) :
    ∀ k, k ≤ s.gs.Pumps.length →
      run (List.replicate k (.sched s.threads.length))
          { s with threads := s.threads ++ [.starter 0] }
        = { s with
            gs := { s.gs with pumpWg := s.gs.pumpWg + k }
            threads := s.threads ++ [.starter k] ++ spawnedWorkers k } := by
  intro k
  induction k with
  | zero =>
    intro _
    simp [run, spawnedWorkers]
  | succ k ih =>
    intro hk
    rw [List.replicate_succ', run_append, ih (by omega)]
    simp only [run, List.foldl_cons, List.foldl_nil, step, step?, hc, Bool.false_eq_true,
      if_false, System.schedule]
    have hget : (s.threads ++ [Thread.starter k] ++ spawnedWorkers k)[s.threads.length]?
        = some (.starter k) := by
      rw [List.append_assoc, List.getElem?_append_right (Nat.le_refl _)]
      simp
    simp only [hget, threadStep, Bool.false_eq_true, if_false, startStep]
    have hlt : k < s.gs.Pumps.length := by omega
    simp only [hlt, if_true, Option.getD_some, System.apply, Effect.plain]
    have hset : (s.threads ++ [Thread.starter k] ++ spawnedWorkers k).set s.threads.length
        (Thread.starter (k + 1)) = s.threads ++ [Thread.starter (k + 1)] ++ spawnedWorkers k := by
      rw [List.append_assoc, List.set_append_right _ _ (Nat.le_refl _)]
      simp
    have hws : spawnedWorkers (k + 1) = spawnedWorkers k ++ [Thread.pump k .loopHead] := by
      simp [spawnedWorkers, List.range_succ]
    rw [hset, hws]
    simp [add_assoc]

theorem start_runs_to_end (s : System) (hc : s.crashed = false) :
    run (startSchedule s.threads.length s.gs.Pumps.length) s
      = { s with
          gs := { s.gs with pumpWg := s.gs.pumpWg + s.gs.Pumps.length }
          threads := s.threads ++ [.started] ++ spawnedWorkers s.gs.Pumps.length } := by
  unfold startSchedule
  rw [List.replicate_succ']
  have h0 : run (Action.callStart :: (List.replicate s.gs.Pumps.length (.sched s.threads.length)
        ++ [.sched s.threads.length])) s
      = run [.sched s.threads.length]
          (run (List.replicate s.gs.Pumps.length (.sched s.threads.length))
            { s with threads := s.threads ++ [.starter 0] }) := by
    rw [← run_append]
    simp [run, step, step?, hc]
  rw [h0, starter_progress s hc _ (Nat.le_refl _)]
  simp only [run, List.foldl_cons, List.foldl_nil, step, step?, hc, Bool.false_eq_true,
    if_false, System.schedule]
  have hget : (s.threads ++ [Thread.starter s.gs.Pumps.length]
      ++ spawnedWorkers s.gs.Pumps.length)[s.threads.length]?
        = some (.starter s.gs.Pumps.length) := by
    rw [List.append_assoc, List.getElem?_append_right (Nat.le_refl _)]
    simp
  simp only [hget, threadStep, Bool.false_eq_true, if_false, startStep, lt_irrefl,
    Option.getD_some, System.apply, Effect.plain]
  have hset : (s.threads ++ [Thread.starter s.gs.Pumps.length]
      ++ spawnedWorkers s.gs.Pumps.length).set s.threads.length Thread.started
        = s.threads ++ [Thread.started] ++ spawnedWorkers s.gs.Pumps.length := by
    rw [List.append_assoc, List.set_append_right _ _ (Nat.le_refl _)]
    simp
  rw [hset]
  simp

theorem tally_live_spawned (n : Nat) : tally Thread.live (spawnedWorkers n) = n := by
  induction n with
  | zero => rfl
  | succ k ih =>
    have hws : spawnedWorkers (k + 1) = spawnedWorkers k ++ [Thread.pump k .loopHead] := by
      simp [spawnedWorkers, List.range_succ]
    rw [hws, tally_append, ih]
    simp [tally, Thread.live]


/-- C1, counterexample: one pump. `carA` is in service and `truckB` is queued, not yet
taken by the pump, when `Stop` is called; nothing is submitted afterwards. The worker
finishes `carA`, reads `Running = false` and leaves; `Stop` returns, the process has not
panicked, and `truckB` is still in the queue: 2 submitted, 1 served. -/
theorem Stop_leaves_queued_vehicle :
    (run stopWhileServing (boot 1)).threads
      = [.started, .pump 0 .exited, .adder .done, .adder .done, .stopper .returned] ∧
    (run stopWhileServing (boot 1)).crashed = false ∧
    (run stopWhileServing (boot 1)).gs.Stats.TotalVehicles = 2 ∧
    (run stopWhileServing (boot 1)).gs.Stats.ServedVehicles = 1 ∧
    (run stopWhileServing (boot 1)).gs.Queue.length = 1 := by
  decide!

/-- C1, amended: in every run from a new station, once a call of `Stop` has returned, no
pump worker is between its `select` and the end of `serveVehicle`, every vehicle that a
pump took from the queue has been recorded, and `TotalVehicles` equals `ServedVehicles`
plus the number of vehicles still in the queue plus the number of `AddVehicle` calls that
have counted their vehicle and not enqueued it. Vehicles that are still queued when the
workers read `Running = false` stay in the queue. -/
theorem Stop_returned_accounting (numPumps : Nat) (acts : List Action)
    (hret : Thread.stopper .returned ∈ (run acts (boot numPumps)).threads) :
    (∀ u ∈ (run acts (boot numPumps)).threads, u.quiet = true) ∧
    (run acts (boot numPumps)).served.length = (run acts (boot numPumps)).received.length ∧
    (run acts (boot numPumps)).gs.Stats.TotalVehicles
      = (run acts (boot numPumps)).gs.Stats.ServedVehicles
        + (run acts (boot numPumps)).gs.Queue.length
        + tally Thread.unsent (run acts (boot numPumps)).threads := by
  have hquiet := (stopInv_run numPumps acts).drained _ hret rfl
  have hzero : tally Thread.inService (run acts (boot numPumps)).threads = 0 :=
    tally_zero_of_forall _ _ fun u hu => inService_of_quiet u (hquiet u hu)
  have hlog := (logged_run numPumps acts).1
  have hcons := conserved_run numPumps acts
  unfold Conserved at hcons
  rw [hzero] at hlog hcons
  refine ⟨hquiet, by omega, ?_⟩
  rw [hcons]
  simp

/-- Witness for C1: the run `stopWithQueued`, in which `Stop` returns with one vehicle
left in the queue. -/
theorem Stop_returned_accounting_witness :
    Thread.stopper .returned ∈ (run stopWithQueued (boot 1)).threads ∧
    (run stopWithQueued (boot 1)).served.length
      = (run stopWithQueued (boot 1)).received.length ∧
    (run stopWithQueued (boot 1)).gs.Stats.TotalVehicles
      = (run stopWithQueued (boot 1)).gs.Stats.ServedVehicles
        + (run stopWithQueued (boot 1)).gs.Queue.length
        + tally Thread.unsent (run stopWithQueued (boot 1)).threads :=
  ⟨by decide, (Stop_returned_accounting 1 stopWithQueued (by decide)).2⟩

/-- C3, counterexample: on a station with one pump, `Start` is called and runs to its
end twice. The second call ends like the first, without an error and without a panic,
and has spawned a second worker for the one pump: two workers, wait group at 2. -/
theorem Start_twice_spawns_twice :
    (run startTwice (boot 1)).threads
      = [.started, .pump 0 .loopHead, .started, .pump 0 .loopHead] ∧
    (run startTwice (boot 1)).crashed = false ∧
    (run startTwice (boot 1)).gs.pumpWg = 2 ∧
    (run startTwice (boot 1)).gs.Pumps.length = 1 ∧
    tally Thread.live (run startTwice (boot 1)).threads = 2 := by
  decide

/-- C3, amended: `Start` has no state check and no error result. In every state of a
process that has not panicked, also when `Start` was already called, a call of `Start`
that runs to its end spawns one new worker for every pump and adds the number of pumps
to the wait group; it changes nothing else (not `Running`, the queue, the pumps, the
statistics or the other threads). -/
theorem Start_spawns_on_every_call (s : System) (hc : s.crashed = false) :
    run (startSchedule s.threads.length s.gs.Pumps.length) s
      = { s with
          gs := { s.gs with pumpWg := s.gs.pumpWg + s.gs.Pumps.length }
          threads := s.threads ++ [.started] ++ spawnedWorkers s.gs.Pumps.length } ∧
    tally Thread.live (run (startSchedule s.threads.length s.gs.Pumps.length) s).threads
      = tally Thread.live s.threads + s.gs.Pumps.length := by
  have h := start_runs_to_end s hc
  refine ⟨h, ?_⟩
  rw [h]
  simp only [tally_append, tally_live_spawned]
  simp [tally, Thread.live]

/-- Witness for C3: a station with two pumps on which `Start` has already run. -/
theorem Start_spawns_on_every_call_witness :
    (run [.callStart, .sched 0, .sched 0, .sched 0] (boot 2)).crashed = false ∧
    tally Thread.live
        (run (startSchedule
            (run [.callStart, .sched 0, .sched 0, .sched 0] (boot 2)).threads.length
            (run [.callStart, .sched 0, .sched 0, .sched 0] (boot 2)).gs.Pumps.length)
          (run [.callStart, .sched 0, .sched 0, .sched 0] (boot 2))).threads
      = tally Thread.live (run [.callStart, .sched 0, .sched 0, .sched 0] (boot 2)).threads
        + (run [.callStart, .sched 0, .sched 0, .sched 0] (boot 2)).gs.Pumps.length :=
  ⟨by decide,
    (Start_spawns_on_every_call (run [.callStart, .sched 0, .sched 0, .sched 0] (boot 2))
      (by decide)).2⟩

/-! ### Queue and counters in every reachable state (C7, C8) -/

/-- C7: in every state that a run of any actions reaches from a new station, the number
of vehicles in the queue is at least 0 and at most the capacity, and the capacity is the
50 fixed by `NewGasStation`. -/
theorem queue_within_capacity (numPumps : Nat) (acts : List Action) :
    0 ≤ (run acts (boot numPumps)).gs.Queue.length ∧
    (run acts (boot numPumps)).gs.Queue.length ≤ (run acts (boot numPumps)).gs.QueueCap ∧
    (run acts (boot numPumps)).gs.QueueCap = 50 := by
  have h : (run acts (boot numPumps)).gs.Queue.length
        ≤ (run acts (boot numPumps)).gs.QueueCap ∧
      (run acts (boot numPumps)).gs.QueueCap = 50 := by
    apply run_invariant (fun s => s.gs.Queue.length ≤ s.gs.QueueCap ∧ s.gs.QueueCap = 50)
      queue_bound_step
    simp [boot, NewGasStation]
  exact ⟨Nat.zero_le _, h.1, h.2⟩

/-- C8: in every state that a run of any actions reaches from a new station,
`ServedVehicles ≤ TotalVehicles`. -/
theorem served_le_submitted (numPumps : Nat) (acts : List Action) :
    (run acts (boot numPumps)).gs.Stats.ServedVehicles
      ≤ (run acts (boot numPumps)).gs.Stats.TotalVehicles := by
  have h := conserved_run numPumps acts
  unfold Conserved at h
  omega

/-! ### Average wait (C11) -/

theorem threadStep_average (now : Time) (gs : GasStation) (fire : Bool) (t : Thread)
    (e : Effect) (h : threadStep now gs fire t = some e) (hs : AverageOk gs.Stats) :
    AverageOk e.gs.Stats ∧ gs.Stats.recordPanics = false := by
  have hp : gs.Stats.recordPanics = false := by
    have := hs.1
    simp [Statistics.recordPanics]
    omega
  refine ⟨?_, hp⟩
  revert hs
  apply threadStep_elim now gs fire (fun _ e => AverageOk gs.Stats → AverageOk e.gs.Stats) t e h
  all_goals intros
  all_goals first
    | assumption
    | (rename_i hs
       obtain ⟨h0, h1⟩ := hs
       have hne : gs.Stats.ServedVehicles + 1 ≠ 0 := by omega
       simp [AverageOk, Effect.plain, Statistics.record, hne]
       omega)

theorem average_step (s : System) (a : Action) (hs : AverageOk s.gs.Stats) :
    AverageOk (step s a).gs.Stats := by
  apply step_invariant (fun s => AverageOk s.gs.Stats) s a hs
  · intro t _; exact hs
  · intro d; exact hs
  · intro i fire t e _ hte
    exact (threadStep_average _ _ _ _ _ hte hs).1

theorem average_run (numPumps : Nat) (acts : List Action) :
    AverageOk (run acts (boot numPumps)).gs.Stats := by
  apply run_invariant (fun s => AverageOk s.gs.Stats) average_step
  simp [AverageOk, boot, NewGasStation]

/-- C11: in every state that a run reaches from a new station, `AverageWaitTime` is the
truncating integer quotient `TotalWaitTime / ServedVehicles` when `ServedVehicles` is not
zero, and still the initial zero when no vehicle has been served (no average has been
computed). `ServedVehicles` is never negative, so the divisor of the next recording,
`ServedVehicles + 1`, is at least 1 and the division in `serveVehicle` never panics. -/
theorem average_wait_time (numPumps : Nat) (acts : List Action) :
    (run acts (boot numPumps)).gs.Stats.AverageWaitTime
      = (if (run acts (boot numPumps)).gs.Stats.ServedVehicles = 0 then 0
         else Int.tdiv (run acts (boot numPumps)).gs.Stats.TotalWaitTime
           (run acts (boot numPumps)).gs.Stats.ServedVehicles) ∧
    0 ≤ (run acts (boot numPumps)).gs.Stats.ServedVehicles ∧
    1 ≤ (run acts (boot numPumps)).gs.Stats.ServedVehicles + 1 ∧
    (run acts (boot numPumps)).gs.Stats.recordPanics = false ∧
    (boot numPumps).gs.Stats.ServedVehicles = 0 ∧
    (boot numPumps).gs.Stats.AverageWaitTime = 0 := by
  have h := average_run numPumps acts
  refine ⟨h.2, h.1, by have := h.1; omega, ?_, rfl, rfl⟩
  have := h.1
  simp [Statistics.recordPanics]
  omega

/-! ### Float64 rounding and the generated vehicles (C17) -/

theorem roundFloat64_five : roundFloat64 5 = 5 :=
  roundFloat64_exact 5 2 5629499534213120 (by norm_num) (by norm_num) (by norm_num)

theorem roundFloat64_twenty : roundFloat64 20 = 20 :=
  roundFloat64_exact 20 4 5629499534213120 (by norm_num) (by norm_num) (by norm_num)

theorem roundFloat64_fifty : roundFloat64 50 = 50 :=
  roundFloat64_exact 50 5 7036874417766400 (by norm_num) (by norm_num) (by norm_num)

theorem roundFloat64_motorcycle_product : roundFloat64 (maxDraw * 15) = 15 - 1 / 2 ^ 49 := by
  rw [roundFloat64_of_binade _ 3 (by norm_num [maxDraw]) (by norm_num [maxDraw]),
    roundHalfEven_of_lt _ 8444249301319679 (by norm_num [maxDraw]) (by norm_num [maxDraw])]
  norm_num

theorem roundFloat64_motorcycle_sum : roundFloat64 (5 + (15 - 1 / 2 ^ 49)) = 20 := by
  rw [roundFloat64_of_binade _ 4 (by norm_num) (by norm_num)]
  have hq : (5 + (15 - 1 / 2 ^ 49) : ℚ) / 2 ^ ((4 : Int) - 52)
      = ((5629499534213119 : Int) : ℚ) + 1 / 2 := by norm_num
  rw [hq, roundHalfEven_tie]
  norm_num

theorem roundFloat64_car_product : roundFloat64 (maxDraw * 40) = 40 - 1 / 2 ^ 47 := by
  rw [roundFloat64_of_binade _ 5 (by norm_num [maxDraw]) (by norm_num [maxDraw]),
    roundHalfEven_of_lt _ 5629499534213119 (by norm_num [maxDraw]) (by norm_num [maxDraw])]
  norm_num

theorem roundFloat64_car_sum :
    roundFloat64 (20 + (40 - 1 / 2 ^ 47)) = 60 - 1 / 2 ^ 47 := by
  have h := roundFloat64_exact (20 + (40 - 1 / 2 ^ 47)) 5 8444249301319679 (by norm_num)
    (by norm_num) (by norm_num)
  rw [h]
  norm_num

theorem roundFloat64_truck_product : roundFloat64 (maxDraw * 150) = 150 - 1 / 2 ^ 45 := by
  rw [roundFloat64_of_binade _ 7 (by norm_num [maxDraw]) (by norm_num [maxDraw]),
    roundHalfEven_of_lt _ 5277655813324799 (by norm_num [maxDraw]) (by norm_num [maxDraw])]
  norm_num

theorem roundFloat64_truck_sum :
    roundFloat64 (50 + (150 - 1 / 2 ^ 45)) = 200 - 1 / 2 ^ 45 := by
  have h := roundFloat64_exact (50 + (150 - 1 / 2 ^ 45)) 7 7036874417766399 (by norm_num)
    (by norm_num) (by norm_num)
  rw [h]
  norm_num

theorem float64_affine_bounds (r a b top : ℚ) (h0 : 0 ≤ r) (h1 : r ≤ maxDraw)
    (ha : 0 ≤ a) (hb : 0 ≤ b) (hexact : roundFloat64 a = a)
    (hprod : roundFloat64 (maxDraw * b) = top) :
    a ≤ float64Add a (float64Mul r b) ∧
    float64Add a (float64Mul r b) ≤ roundFloat64 (a + top) := by
  unfold float64Add float64Mul
  have hp0 : 0 ≤ r * b := mul_nonneg h0 hb
  have hp1 : r * b ≤ maxDraw * b := mul_le_mul_of_nonneg_right h1 hb
  have hlo : 0 ≤ roundFloat64 (r * b) := roundFloat64_nonneg _ hp0
  have hhi : roundFloat64 (r * b) ≤ top := by
    rw [← hprod]
    exact roundFloat64_mono _ _ hp0 hp1
  constructor
  · have := roundFloat64_mono a (a + roundFloat64 (r * b)) ha (by linarith)
    rw [hexact] at this
    exact this
  · exact roundFloat64_mono _ _ (by linarith) (by linarith)

/-- C17, counterexample: the draw `r = 1 - 2^-53` is at least 0 and below 1, and for a
motorcycle the float64 result of `5 + r*15` is exactly 20, which is not below 20. -/
theorem motorcycle_quantity_reaches_twenty :
    0 ≤ maxDraw ∧ maxDraw < 1 ∧
    (generateRandomVehicle 1 2 0 maxDraw).VType = Motorcycle ∧
    (generateRandomVehicle 1 2 0 maxDraw).FuelAmount = 20 := by
  refine ⟨by norm_num [maxDraw], by norm_num [maxDraw], rfl, ?_⟩
  have h : (generateRandomVehicle 1 2 0 maxDraw).FuelAmount
      = float64Add 5 (float64Mul maxDraw 15) := by
    simp [generateRandomVehicle, Car, Truck, Motorcycle]
  rw [h]
  unfold float64Add float64Mul
  rw [roundFloat64_motorcycle_product, roundFloat64_motorcycle_sum]

/-- C17, amended: for every id, every choice of the two indices and every draw `r` that
is a float64 with `0 ≤ r < 1`, that is `0 ≤ r ≤ 1 - 2^-53`, `generateRandomVehicle`
returns a vehicle with that id, whose fuel kind is one of the four kinds of the price
table, whose quantity is positive, and which is a `Car` with quantity in `[20, 60)`, a
`Truck` with quantity in `[50, 200)` or a `Motorcycle` with quantity in `[5, 20]`, the
upper end 20 included. -/
theorem generateRandomVehicle_range (id : Int) (typeDraw : Fin 3) (fuelDraw : Fin 4)
    (r : ℚ) (h0 : 0 ≤ r) (h1 : r ≤ maxDraw) :
    (generateRandomVehicle id typeDraw fuelDraw r).ID = id ∧
    ((generateRandomVehicle id typeDraw fuelDraw r).FuelType = Gasoline95 ∨
      (generateRandomVehicle id typeDraw fuelDraw r).FuelType = Gasoline98 ∨
      (generateRandomVehicle id typeDraw fuelDraw r).FuelType = Diesel ∨
      (generateRandomVehicle id typeDraw fuelDraw r).FuelType = LPG) ∧
    (generateRandomVehicle id typeDraw fuelDraw r).FuelType
      ∈ fuelPricesTable.map Prod.fst ∧
    0 < (generateRandomVehicle id typeDraw fuelDraw r).FuelAmount ∧
    (((generateRandomVehicle id typeDraw fuelDraw r).VType = Car ∧
        20 ≤ (generateRandomVehicle id typeDraw fuelDraw r).FuelAmount ∧
        (generateRandomVehicle id typeDraw fuelDraw r).FuelAmount < 60) ∨
      ((generateRandomVehicle id typeDraw fuelDraw r).VType = Truck ∧
        50 ≤ (generateRandomVehicle id typeDraw fuelDraw r).FuelAmount ∧
        (generateRandomVehicle id typeDraw fuelDraw r).FuelAmount < 200) ∨
      ((generateRandomVehicle id typeDraw fuelDraw r).VType = Motorcycle ∧
        5 ≤ (generateRandomVehicle id typeDraw fuelDraw r).FuelAmount ∧
        (generateRandomVehicle id typeDraw fuelDraw r).FuelAmount ≤ 20)) := by
  have hcar := float64_affine_bounds r 20 40 _ h0 h1 (by norm_num) (by norm_num)
    roundFloat64_twenty roundFloat64_car_product
  have htruck := float64_affine_bounds r 50 150 _ h0 h1 (by norm_num) (by norm_num)
    roundFloat64_fifty roundFloat64_truck_product
  have hmoto := float64_affine_bounds r 5 15 _ h0 h1 (by norm_num) (by norm_num)
    roundFloat64_five roundFloat64_motorcycle_product
  rw [roundFloat64_car_sum] at hcar
  rw [roundFloat64_truck_sum] at htruck
  rw [roundFloat64_motorcycle_sum] at hmoto
  have hc60 : (60 : ℚ) - 1 / 2 ^ 47 < 60 := by norm_num
  have ht200 : (200 : ℚ) - 1 / 2 ^ 45 < 200 := by norm_num
  fin_cases typeDraw <;> fin_cases fuelDraw <;>
    simp [generateRandomVehicle, fuelPricesTable, Car, Truck, Motorcycle, Gasoline95,
      Gasoline98, Diesel, LPG] <;>
    constructor <;> (try constructor) <;> linarith [hcar.1, hcar.2, htruck.1, htruck.2,
      hmoto.1, hmoto.2]

/-- Witness for C17: the draws 2 (motorcycle), 3 (LPG) and `r = 1/2`. -/
theorem generateRandomVehicle_range_witness :
    (0 : ℚ) ≤ 1 / 2 ∧ (1 / 2 : ℚ) ≤ maxDraw ∧
    (generateRandomVehicle 7 2 3 (1 / 2)).ID = 7 ∧
    0 < (generateRandomVehicle 7 2 3 (1 / 2)).FuelAmount :=
  have h := generateRandomVehicle_range 7 2 3 (1 / 2) (by norm_num) (by norm_num [maxDraw])
  ⟨by norm_num, by norm_num [maxDraw], h.1, h.2.2.2.1⟩

/-! ### Service time (C16) -/

theorem wrapInt64_of_range (n : Int) (h1 : -2 ^ 63 ≤ n) (h2 : n < 2 ^ 63) :
    wrapInt64 n = n := by
  unfold wrapInt64
  norm_num at h1 h2 ⊢
  omega

theorem truncToInt_of_nonneg (x : ℚ) (hx : 0 ≤ x) (hlt : x < 2 ^ 63) : truncToInt x = ⌊x⌋ := by
  have htd : Int.tdiv x.num (x.den : Int) = ⌊x⌋ := by
    rw [Rat.floor_def, Int.tdiv_eq_ediv (Rat.num_nonneg.mpr hx) (by positivity)]
  have h0 : 0 ≤ ⌊x⌋ := Int.floor_nonneg.mpr hx
  have h1 : ⌊x⌋ < 2 ^ 63 := by
    rw [Int.floor_lt]
    exact_mod_cast hlt
  unfold truncToInt
  rw [htd, if_pos ⟨by omega, h1⟩]

theorem roundFloat64_maxProduct : roundFloat64 (maxLitres * 100) = 9223372036800 := by
  have h := roundFloat64_exact (maxLitres * 100) 43 4722366482841600 (by norm_num [maxLitres])
    (by norm_num [maxLitres]) (by norm_num [maxLitres])
  rw [h]
  norm_num [maxLitres]

/-- Up to `maxLitres` the refuelling time is the truncated float64 product, in
milliseconds, and nothing wraps. -/
theorem refuelingTime_in_range (v : Vehicle) (hq : 0 ≤ v.FuelAmount)
    (hmax : v.FuelAmount ≤ maxLitres) :
    refuelingTime v = ⌊float64Mul v.FuelAmount 100⌋ * Millisecond ∧
    0 ≤ float64Mul v.FuelAmount 100 ∧ float64Mul v.FuelAmount 100 ≤ 9223372036800 := by
  have h100 : 0 ≤ v.FuelAmount * 100 := by positivity
  have hp0 : 0 ≤ float64Mul v.FuelAmount 100 := roundFloat64_nonneg _ h100
  have hp1 : float64Mul v.FuelAmount 100 ≤ 9223372036800 := by
    rw [← roundFloat64_maxProduct]
    exact roundFloat64_mono _ _ h100 (by linarith)
  have hf0 : 0 ≤ ⌊float64Mul v.FuelAmount 100⌋ := Int.floor_nonneg.mpr hp0
  have hf1 : ⌊float64Mul v.FuelAmount 100⌋ ≤ 9223372036800 := by
    have := Int.floor_mono hp1
    simpa using this
  refine ⟨?_, hp0, hp1⟩
  unfold refuelingTime
  rw [truncToInt_of_nonneg _ hp0 (lt_of_le_of_lt hp1 (by norm_num))]
  apply wrapInt64_of_range
  · unfold Millisecond
    norm_num
    omega
  · unfold Millisecond
    norm_num
    omega

/-- C16, counterexample: a motorcycle that asks for 0.03 litre (the float64 nearest to
0.03) sleeps 3 ms, because the float64 product with 100 is 3, while the quantity times
100 is below 3 and truncates to 2. A truck that asks for `10^11` litres gets a negative
refuelling time, because the multiplication by `time.Millisecond` wraps around in int64:
a vehicle of 1 litre sleeps 100 ms, the larger quantity gets the shorter time. -/
theorem refuelingTime_rounds_and_wraps :
    0 ≤ sipMotorcycle.FuelAmount ∧
    refuelingTime sipMotorcycle = 3 * Millisecond ∧
    ⌊sipMotorcycle.FuelAmount * 100⌋ = 2 ∧
    (unitCar 1).FuelAmount ≤ tankerTruck.FuelAmount ∧
    refuelingTime (unitCar 1) = 100 * Millisecond ∧
    refuelingTime tankerTruck = -8446744073709551616 ∧
    refuelingTime tankerTruck < refuelingTime (unitCar 1) := by
  decide!

/-- C16, amended: for every vehicle with quantity `q`, `0 ≤ q ≤ 92233720368` litres, the
refuelling time that `serveVehicle` sleeps is the float64 product `q * 100` truncated to
a whole number, in milliseconds. The time is computed from the quantity alone: two
vehicles with the same quantity get the same time whatever their id, type, fuel kind and
arrival are, among quantities in that range a larger quantity never gets a shorter time,
and the sleep that a worker starts lasts exactly this long whatever the pump, the clock
and the station state are. A millisecond is 1000000 nanoseconds. -/
theorem refuelingTime_of_quantity (v w : Vehicle) (now : Time) (gs : GasStation)
    (idx : Nat) (fire : Bool) :
    (0 ≤ v.FuelAmount → v.FuelAmount ≤ maxLitres →
      refuelingTime v = ⌊float64Mul v.FuelAmount 100⌋ * Millisecond) ∧
    (w.FuelAmount = v.FuelAmount → refuelingTime w = refuelingTime v) ∧
    (0 ≤ v.FuelAmount → v.FuelAmount ≤ w.FuelAmount → w.FuelAmount ≤ maxLitres →
      refuelingTime v ≤ refuelingTime w) ∧
    pumpStep now gs idx fire (.measure (some v))
      = some (.plain gs (.pump idx
          (.refuel v (now - v.ArrivalTime) (now + refuelingTime v)))) ∧
    Millisecond = 1000000 ∧ maxLitres = 92233720368 := by
  refine ⟨fun hq hmax => (refuelingTime_in_range v hq hmax).1, ?_, ?_, rfl, rfl, rfl⟩
  · intro h
    unfold refuelingTime
    rw [h]
  · intro hq hle hmax
    rw [(refuelingTime_in_range v hq (le_trans hle hmax)).1,
      (refuelingTime_in_range w (le_trans hq hle) hmax).1]
    have hfl : ⌊float64Mul v.FuelAmount 100⌋ ≤ ⌊float64Mul w.FuelAmount 100⌋ :=
      Int.floor_mono (roundFloat64_mono _ _ (by positivity) (by linarith))
    have hms : (0 : Int) ≤ Millisecond := by decide
    exact Int.mul_le_mul_of_nonneg_right hfl hms

/-- Witness for C16: `carA` asks for 30 litres and `truckB` for 120. -/
theorem refuelingTime_of_quantity_witness :
    0 ≤ carA.FuelAmount ∧ carA.FuelAmount ≤ truckB.FuelAmount ∧
    truckB.FuelAmount ≤ maxLitres ∧
    refuelingTime carA = ⌊float64Mul carA.FuelAmount 100⌋ * Millisecond ∧
    refuelingTime carA ≤ refuelingTime truckB :=
  have h := refuelingTime_of_quantity carA truckB 0 (NewGasStation 1) 0 false
  ⟨by decide!, by decide!, by decide!, h.1 (by decide!) (by decide!),
    h.2.2.1 (by decide!) (by decide!) (by decide!)⟩

/-! ### Conservation and the effect of a submission (C18, C12) -/

theorem threadStep_closed (now : Time) (gs : GasStation) (fire : Bool) (t : Thread)
    (e : Effect) (h : threadStep now gs fire t = some e) :
    t ≠ .stopper .returned ∧
    (e.gs.QueueClosed = true → gs.QueueClosed = true ∨ e.thread = .stopper .returned) := by
  apply threadStep_elim now gs fire _ t e h
  all_goals intros
  all_goals simp_all [Effect.plain, Effect.panic, GasStation.setPump,
    GasStation.countVehicle]

theorem mem_set_of_ne (l : List Thread) (i : Nat) (t t1 u : Thread)
    (hi : l[i]? = some t) (hu : u ∈ l) (hne : u ≠ t) : u ∈ l.set i t1 := by
  obtain ⟨j, hj, hju⟩ := List.getElem_of_mem hu
  have hij : i ≠ j := by
    rintro rfl
    rw [List.getElem?_eq_getElem hj] at hi
    exact hne (hju.symm.trans (Option.some.inj hi))
  rw [List.mem_iff_getElem]
  refine ⟨j, by simpa using hj, ?_⟩
  rw [List.getElem_set_ne hij]
  exact hju

theorem closed_step (s : System) (a : Action)
    (hs : s.gs.QueueClosed = true → Thread.stopper .returned ∈ s.threads) :
    (step s a).gs.QueueClosed = true → Thread.stopper .returned ∈ (step s a).threads := by
  apply step_invariant
    (fun s => s.gs.QueueClosed = true → Thread.stopper .returned ∈ s.threads) s a hs
  · intro t _ hc
    exact List.mem_append_left _ (hs hc)
  · intro d; exact hs
  · intro i fire t e hti hte hc
    obtain ⟨hne, hcl⟩ := threadStep_closed _ _ _ _ _ hte
    simp only [System.apply] at hc ⊢
    apply List.mem_append_left
    rcases hcl hc with h | h
    · exact mem_set_of_ne _ _ _ _ _ hti (hs h) (Ne.symm hne)
    · rw [← h]
      have hlt : i < s.threads.length := by
        by_contra hge
        rw [List.getElem?_eq_none (by omega)] at hti
        exact absurd hti (by simp)
      exact List.mem_set _ _ hlt _

theorem closed_run (numPumps : Nat) (acts : List Action) :
    (run acts (boot numPumps)).gs.QueueClosed = true →
      Thread.stopper .returned ∈ (run acts (boot numPumps)).threads := by
  apply run_invariant
    (fun s => s.gs.QueueClosed = true → Thread.stopper .returned ∈ s.threads) closed_step
  simp [boot, NewGasStation]

theorem open_of_running (numPumps : Nat) (acts : List Action)
    (hrun : (run acts (boot numPumps)).gs.Running = true) :
    (run acts (boot numPumps)).gs.QueueClosed = false := by
  by_contra hc
  have hcl : (run acts (boot numPumps)).gs.QueueClosed = true := by simpa using hc
  have hf := (stopInv_run numPumps acts).flag _ (closed_run numPumps acts hcl) rfl
  rw [hf] at hrun
  exact absurd hrun (by simp)

/-- C18: in every state that a run of any actions reaches from a new station,
`TotalVehicles` equals `ServedVehicles` plus the number of vehicles in the queue plus the
number of vehicles that a pump worker has dequeued and not yet recorded plus the number
of `AddVehicle` calls that have counted their vehicle and not yet enqueued it. -/
theorem vehicle_conservation (numPumps : Nat) (acts : List Action) :
    (run acts (boot numPumps)).gs.Stats.TotalVehicles
      = (run acts (boot numPumps)).gs.Stats.ServedVehicles
        + (run acts (boot numPumps)).gs.Queue.length
        + tally Thread.inService (run acts (boot numPumps)).threads
        + tally Thread.unsent (run acts (boot numPumps)).threads :=
  conserved_run numPumps acts

/-- C12: in every state that a run reaches from a new station, if `Running` is true, the
queue has a free slot and the process has not panicked, then `AddVehicle(vehicle)` returns
normally; the station afterwards is the station before with `TotalVehicles` larger by one
and with the vehicle, its arrival time set to the clock value and its id, type, fuel kind
and quantity as given, appended at the tail of the queue, and nothing else is changed:
the other counters, the pumps and `Running` are the same. In the running program the call
leaves the other threads, the clock and the history of dequeues and recordings as they
are. -/
theorem AddVehicle_success_effect (numPumps : Nat) (acts : List Action) (vehicle : Vehicle)
    (hrun : (run acts (boot numPumps)).gs.Running = true)
    (hroom : (run acts (boot numPumps)).gs.Queue.length
      < (run acts (boot numPumps)).gs.QueueCap)
    (halive : (run acts (boot numPumps)).crashed = false) :
    AddVehicle (run acts (boot numPumps)).clock (some vehicle) (run acts (boot numPumps)).gs
      = .returned
        { (run acts (boot numPumps)).gs with
          Queue := (run acts (boot numPumps)).gs.Queue ++
            [{ ID := vehicle.ID, VType := vehicle.VType, FuelType := vehicle.FuelType,
               FuelAmount := vehicle.FuelAmount,
               ArrivalTime := (run acts (boot numPumps)).clock }]
          Stats :=
            { TotalVehicles := (run acts (boot numPumps)).gs.Stats.TotalVehicles + 1
              ServedVehicles := (run acts (boot numPumps)).gs.Stats.ServedVehicles
              TotalFuelDispensed := (run acts (boot numPumps)).gs.Stats.TotalFuelDispensed
              TotalRevenue := (run acts (boot numPumps)).gs.Stats.TotalRevenue
              AverageWaitTime := (run acts (boot numPumps)).gs.Stats.AverageWaitTime
              TotalWaitTime := (run acts (boot numPumps)).gs.Stats.TotalWaitTime } } ∧
    run [.callAdd (some vehicle), .sched (run acts (boot numPumps)).threads.length,
        .sched (run acts (boot numPumps)).threads.length,
        .sched (run acts (boot numPumps)).threads.length] (run acts (boot numPumps))
      = { run acts (boot numPumps) with
          gs :=
            { (run acts (boot numPumps)).gs with
              Queue := (run acts (boot numPumps)).gs.Queue ++
                [{ vehicle with ArrivalTime := (run acts (boot numPumps)).clock }]
              Stats :=
                { (run acts (boot numPumps)).gs.Stats with
                  TotalVehicles := (run acts (boot numPumps)).gs.Stats.TotalVehicles + 1 } }
          threads := (run acts (boot numPumps)).threads ++ [.adder .done]
          sent := (run acts (boot numPumps)).sent ++
            [{ vehicle with ArrivalTime := (run acts (boot numPumps)).clock }] } := by
  have hopen := open_of_running numPumps acts hrun
  have hcall : AddVehicle (run acts (boot numPumps)).clock (some vehicle)
      (run acts (boot numPumps)).gs
      = .returned
        { (run acts (boot numPumps)).gs with
          Queue := (run acts (boot numPumps)).gs.Queue ++
            [{ vehicle with ArrivalTime := (run acts (boot numPumps)).clock }]
          Stats :=
            { (run acts (boot numPumps)).gs.Stats with
              TotalVehicles := (run acts (boot numPumps)).gs.Stats.TotalVehicles + 1 } } := by
    simp [AddVehicle, GasStation.trySend, GasStation.countVehicle, hopen, hroom]
  refine ⟨hcall, ?_⟩
  rw [AddVehicle_in_program _ _ halive, hcall]

/-- Witness for C12: a station with one pump right after `Start` has run. -/
theorem AddVehicle_success_effect_witness :
    (run [.callStart, .sched 0, .sched 0] (boot 1)).gs.Running = true ∧
    (run [.callStart, .sched 0, .sched 0] (boot 1)).gs.Queue.length
      < (run [.callStart, .sched 0, .sched 0] (boot 1)).gs.QueueCap ∧
    (run [.callStart, .sched 0, .sched 0] (boot 1)).crashed = false ∧
    AddVehicle (run [.callStart, .sched 0, .sched 0] (boot 1)).clock (some truckB)
        (run [.callStart, .sched 0, .sched 0] (boot 1)).gs
      = .returned
        { (run [.callStart, .sched 0, .sched 0] (boot 1)).gs with
          Queue := (run [.callStart, .sched 0, .sched 0] (boot 1)).gs.Queue ++
            [{ ID := truckB.ID, VType := truckB.VType, FuelType := truckB.FuelType,
               FuelAmount := truckB.FuelAmount,
               ArrivalTime := (run [.callStart, .sched 0, .sched 0] (boot 1)).clock }]
          Stats :=
            { TotalVehicles :=
                (run [.callStart, .sched 0, .sched 0] (boot 1)).gs.Stats.TotalVehicles + 1
              ServedVehicles :=
                (run [.callStart, .sched 0, .sched 0] (boot 1)).gs.Stats.ServedVehicles
              TotalFuelDispensed :=
                (run [.callStart, .sched 0, .sched 0] (boot 1)).gs.Stats.TotalFuelDispensed
              TotalRevenue :=
                (run [.callStart, .sched 0, .sched 0] (boot 1)).gs.Stats.TotalRevenue
              AverageWaitTime :=
                (run [.callStart, .sched 0, .sched 0] (boot 1)).gs.Stats.AverageWaitTime
              TotalWaitTime :=
                (run [.callStart, .sched 0, .sched 0] (boot 1)).gs.Stats.TotalWaitTime } } :=
  ⟨by decide, by decide, by decide,
    (AddVehicle_success_effect 1 [.callStart, .sched 0, .sched 0] truckB (by decide)
      (by decide) (by decide)).1⟩

/-! ### The recorded wait (C13) -/

theorem getElem?_set_self_of_some (l : List Thread) (i : Nat) (t u : Thread)
    (h : l[i]? = some t) : (l.set i u)[i]? = some u := by
  have hlt : i < l.length := by
    by_contra hge
    rw [List.getElem?_eq_none (by omega)] at h
    exact absurd h (by simp)
  simp [hlt]

/-- In the running program a worker that stands at the start of `serveVehicle` and is
scheduled five times, with `d0` nanoseconds passing before it reads the clock and `d`
nanoseconds (at least the refuelling time) passing during its sleep, does what
`serveVehicle` run alone does with the clock value of the read. -/
theorem serveVehicle_in_program (s : System) (i idx : Nat) (vehicle : Vehicle) (d0 d : Nat)
    (hc : s.crashed = false)
    (hti : s.threads[i]? = some (.pump idx (.occupy (some vehicle))))
    (hd : refuelingTime vehicle ≤ d) (hp : s.gs.Stats.recordPanics = false) :
    run [.sched i, .tick d0, .sched i, .tick d, .sched i, .sched i, .sched i] s
      = { s with
          gs := serveVehicle (s.clock + d0) idx vehicle s.gs
          threads := s.threads.set i (.pump idx .loopHead)
          clock := s.clock + d0 + d
          served := s.served ++ [(idx, vehicle)] } := by
  obtain ⟨gs, threads, clock, crashed, sent, received, served⟩ := s
  simp only at hc hti hp
  subst hc
  have h1 := getElem?_set_self_of_some threads i _ (Thread.pump idx (.measure (some vehicle))) hti
  have h2 := getElem?_set_self_of_some threads i _
    (Thread.pump idx (.refuel vehicle (clock + d0 - vehicle.ArrivalTime)
      (clock + d0 + refuelingTime vehicle))) hti
  have h3 := getElem?_set_self_of_some threads i _
    (Thread.pump idx (.record vehicle (clock + d0 - vehicle.ArrivalTime))) hti
  have h4 := getElem?_set_self_of_some threads i _ (Thread.pump idx (.release vehicle)) hti
  have hwake : clock + (d0 : Int) + refuelingTime vehicle ≤ clock + (d0 : Int) + (d : Int) :=
    Int.add_le_add_left hd _
  have hp2 : (gs.setPump idx true (some vehicle)).Stats.recordPanics = false := hp
  simp [run, step, step?, System.schedule, threadStep, pumpStep, System.apply, Effect.plain,
    hti, h1, h2, h3, h4, hwake, hp2, serveVehicle, List.set_set]

/-- C13, counterexample: `carA` arrives at clock 2 ms and the worker dequeues it at clock
3 ms, so the clock at the dequeue minus the arrival is 1 ms. The worker reads the clock
5 ms later, at 8 ms, and the wait that the recording adds to `TotalWaitTime` is 6 ms. -/
theorem wait_counts_time_after_dequeue :
    (run dequeueAtThree (boot 1)).clock = 3000000 ∧
    (run dequeueAtThree (boot 1)).received = [(0, { carA with ArrivalTime := 2000000 })] ∧
    (run dequeueAtThree (boot 1)).gs.Stats.TotalWaitTime = 0 ∧
    (run readAtEight (boot 1)).gs.Stats.ServedVehicles = 1 ∧
    (run readAtEight (boot 1)).gs.Stats.TotalWaitTime = 6000000 := by
  decide!

/-- C13, amended: the wait that a service adds to `TotalWaitTime` is the clock value
that `serveVehicle` reads with `time.Since`, after the dequeue and after the pump has
been marked occupied and before the sleep, minus the arrival time of the vehicle. Time
that passes between the dequeue and this read (`d0`) is part of the wait; the sleep (`d`)
is not, and with the same arrival time and the same clock value at the read a vehicle
with another quantity `q` gets the same recorded wait. -/
theorem wait_is_clock_read_minus_arrival (s : System) (i idx : Nat) (vehicle : Vehicle)
    (d0 d : Nat) (q : ℚ) (now : Time) (gs : GasStation)
    (hc : s.crashed = false)
    (hti : s.threads[i]? = some (.pump idx (.occupy (some vehicle))))
    (hd : refuelingTime vehicle ≤ d) (hp : s.gs.Stats.recordPanics = false) :
    (run [.sched i, .tick d0, .sched i, .tick d, .sched i, .sched i, .sched i]
        s).gs.Stats.TotalWaitTime
      = s.gs.Stats.TotalWaitTime + (s.clock + d0 - vehicle.ArrivalTime) ∧
    (serveVehicle now idx vehicle gs).Stats.TotalWaitTime
      = gs.Stats.TotalWaitTime + (now - vehicle.ArrivalTime) ∧
    (serveVehicle now idx { vehicle with FuelAmount := q } gs).Stats.TotalWaitTime
      = (serveVehicle now idx vehicle gs).Stats.TotalWaitTime := by
  refine ⟨?_, rfl, rfl⟩
  rw [serveVehicle_in_program s i idx vehicle d0 d hc hti hd hp]
  rfl

/-- Witness for C13: the worker of `dequeueAtThree`, which reads the clock 5 ms after
the dequeue and sleeps 3 s. -/
theorem wait_is_clock_read_minus_arrival_witness :
    (run dequeueAtThree (boot 1)).crashed = false ∧
    (run dequeueAtThree (boot 1)).threads[1]?
      = some (.pump 0 (.occupy (some { carA with ArrivalTime := 2000000 }))) ∧
    refuelingTime { carA with ArrivalTime := 2000000 } ≤ ((3000000000 : Nat) : Int) ∧
    (run dequeueAtThree (boot 1)).gs.Stats.recordPanics = false ∧
    (run [.sched 1, .tick 5000000, .sched 1, .tick 3000000000, .sched 1, .sched 1,
        .sched 1] (run dequeueAtThree (boot 1))).gs.Stats.TotalWaitTime
      = (run dequeueAtThree (boot 1)).gs.Stats.TotalWaitTime
        + ((run dequeueAtThree (boot 1)).clock + ((5000000 : Nat) : Int) - 2000000) :=
  ⟨by decide, by decide, by decide!, by decide,
    (wait_is_clock_read_minus_arrival (run dequeueAtThree (boot 1)) 1 0
      { carA with ArrivalTime := 2000000 } 5000000 3000000000 0 0 (NewGasStation 1)
      (by decide) (by decide) (by decide!) (by decide)).1⟩

/-! ### Totals over the served vehicles (C15) -/

theorem threadStep_sums (now : Time) (gs : GasStation) (fire : Bool) (t : Thread)
    (e : Effect) (h : threadStep now gs fire t = some e) :
    e.gs.Stats.TotalFuelDispensed
      = (e.served.map fun r => r.2.FuelAmount).foldl float64Add
          gs.Stats.TotalFuelDispensed ∧
    e.gs.Stats.TotalRevenue
      = (e.served.map fun r => float64Mul r.2.FuelAmount (fuelPrices r.2.FuelType)).foldl
          float64Add gs.Stats.TotalRevenue := by
  apply threadStep_elim now gs fire _ t e h
  all_goals intros
  all_goals simp_all [Effect.plain, Effect.panic, GasStation.setPump,
    GasStation.countVehicle, Statistics.record]

theorem sums_step (s : System) (a : Action) (hs : SumsOk s) : SumsOk (step s a) := by
  apply step_invariant SumsOk s a hs
  · intro t _; exact hs
  · intro d; exact hs
  · intro i fire t e _ hte
    obtain ⟨h1, h2⟩ := threadStep_sums _ _ _ _ _ hte
    unfold SumsOk at hs ⊢
    simp only [System.apply, List.map_append, float64Sum_append]
    rw [h1, h2, hs.1, hs.2]
    exact ⟨rfl, rfl⟩

theorem sums_run (numPumps : Nat) (acts : List Action) :
    SumsOk (run acts (boot numPumps)) := by
  apply run_invariant SumsOk sums_step
  simp [SumsOk, boot, NewGasStation, float64Sum]

theorem threadStep_traced (now : Time) (gs : GasStation) (fire : Bool) (t : Thread)
    (e : Effect) (h : threadStep now gs fire t = some e) :
    (∀ v, e.thread.holding = some v → t.holding = some v ∨ v ∈ e.received.map Prod.snd) ∧
    (∀ r ∈ e.served, t.holding = some r.2) ∧
    (∀ u ∈ e.spawned, u.holding = none) := by
  apply threadStep_elim now gs fire _ t e h
  all_goals intros
  all_goals simp_all [Effect.plain, Effect.panic, Thread.holding]

theorem traced_step (s : System) (a : Action) (hs : Traced s) : Traced (step s a) := by
  apply step_invariant Traced s a hs
  · intro t ht
    refine ⟨?_, hs.2⟩
    intro u hu v hv
    simp only [List.mem_append, List.mem_singleton] at hu
    rcases hu with hu | rfl
    · exact hs.1 u hu v hv
    · rcases ht with rfl | rfl | ⟨w, rfl⟩ <;> simp [Thread.holding] at hv
  · intro d; exact hs
  · intro i fire t e hti hte
    obtain ⟨h1, h2, h3⟩ := threadStep_traced _ _ _ _ _ hte
    have htmem : t ∈ s.threads := List.getElem?_mem hti
    constructor
    · intro u hu v hv
      simp only [System.apply, List.mem_append, List.map_append] at hu ⊢
      rcases hu with hu | hu
      · rcases List.mem_or_eq_of_mem_set hu with hu | rfl
        · exact Or.inl (hs.1 u hu v hv)
        · rcases h1 v hv with h | h
          · exact Or.inl (hs.1 t htmem v h)
          · exact Or.inr h
      · rw [h3 u hu] at hv
        exact absurd hv (by simp)
    · intro r hr
      simp only [System.apply, List.mem_append, List.map_append] at hr ⊢
      rcases hr with hr | hr
      · exact Or.inl (hs.2 r hr)
      · exact Or.inl (hs.1 t htmem r.2 (h2 r hr))

theorem traced_run (numPumps : Nat) (acts : List Action) :
    Traced (run acts (boot numPumps)) := by
  apply run_invariant Traced traced_step
  constructor <;> simp [boot]

/-- C15, counterexample: 2 pumps and 5 submitted vehicles of quantity 1 each. `Stop` is
called while two of them are in service and three are queued; `Stop` returns, the
process has not panicked, and the station has submitted = 5, served = 2, total quantity
= 2, with 3 vehicles left in the queue. And the totals are float64 sums: after one pump
has served three vehicles of 0.1 litre (the float64 nearest to 0.1), `TotalFuelDispensed`
is 0.30000000000000004, which is not the sum of the three quantities. -/
theorem five_units_not_all_served :
    Thread.stopper .returned ∈ (run fiveUnitsThenStop (boot 2)).threads ∧
    (run fiveUnitsThenStop (boot 2)).crashed = false ∧
    (run fiveUnitsThenStop (boot 2)).gs.Pumps.length = 2 ∧
    (run fiveUnitsThenStop (boot 2)).gs.Stats.TotalVehicles = 5 ∧
    (run fiveUnitsThenStop (boot 2)).gs.Stats.ServedVehicles = 2 ∧
    (run fiveUnitsThenStop (boot 2)).gs.Stats.TotalFuelDispensed = 2 ∧
    (run fiveUnitsThenStop (boot 2)).gs.Queue.length = 3 ∧
    (run threeTenths (boot 1)).crashed = false ∧
    (run threeTenths (boot 1)).served.length = 3 ∧
    (run threeTenths (boot 1)).gs.Stats.ServedVehicles = 3 ∧
    (run threeTenths (boot 1)).gs.Stats.TotalFuelDispensed
      = 1351079888211149 / 4503599627370496 ∧
    (run threeTenths (boot 1)).gs.Stats.TotalFuelDispensed
      ≠ ((run threeTenths (boot 1)).served.map fun r => r.2.FuelAmount).sum := by
  decide!

/-- C15, amended: in every run from a new station, with `served` the list of the
vehicles recorded so far, `ServedVehicles` is the length of the list,
`TotalFuelDispensed` is the float64 sum of their quantities and `TotalRevenue` the
float64 sum of the float64 products of quantity and price, both added up from zero in
the order of the recordings; this is stated for runs in which the exact result of every
such operation is in the normal float64 range (no overflow to infinity, no subnormal
result). When all enqueued vehicles have quantity 1 and fewer than
`2^53` have been served, the total quantity equals the served count; and once `Stop` has
returned, the submitted count is the served count plus the vehicles left in the queue
plus the calls of `AddVehicle` that have not enqueued yet, so with 5 submitted vehicles
the served count is 5 minus what was left behind. -/
theorem totals_are_sums_over_served (numPumps : Nat) (acts : List Action) :
    (run acts (boot numPumps)).gs.Stats.ServedVehicles
      = (run acts (boot numPumps)).served.length ∧
    (sumInRange 0 ((run acts (boot numPumps)).served.map fun r => r.2.FuelAmount) = true →
      (run acts (boot numPumps)).gs.Stats.TotalFuelDispensed
        = float64Sum ((run acts (boot numPumps)).served.map fun r => r.2.FuelAmount)) ∧
    ((∀ r ∈ (run acts (boot numPumps)).served,
        float64Range (r.2.FuelAmount * fuelPrices r.2.FuelType) = true) →
      sumInRange 0 ((run acts (boot numPumps)).served.map
        fun r => float64Mul r.2.FuelAmount (fuelPrices r.2.FuelType)) = true →
      (run acts (boot numPumps)).gs.Stats.TotalRevenue
        = float64Sum ((run acts (boot numPumps)).served.map
            fun r => float64Mul r.2.FuelAmount (fuelPrices r.2.FuelType))) ∧
    ((∀ v ∈ (run acts (boot numPumps)).sent, v.FuelAmount = 1) →
      (run acts (boot numPumps)).served.length < 2 ^ 53 →
      (run acts (boot numPumps)).gs.Stats.TotalFuelDispensed
        = (run acts (boot numPumps)).gs.Stats.ServedVehicles) ∧
    (Thread.stopper .returned ∈ (run acts (boot numPumps)).threads →
      (run acts (boot numPumps)).gs.Stats.TotalVehicles
        = (run acts (boot numPumps)).gs.Stats.ServedVehicles
          + (run acts (boot numPumps)).gs.Queue.length
          + tally Thread.unsent (run acts (boot numPumps)).threads) := by
  have hlog := (logged_run numPumps acts).2
  have hsum := sums_run numPumps acts
  refine ⟨hlog, fun _ => hsum.1, fun _ _ => hsum.2, ?_, ?_⟩
  · intro hunit hfew
    have hfifo : (run acts (boot numPumps)).received.map Prod.snd
        <+: (run acts (boot numPumps)).sent :=
      ⟨(run acts (boot numPumps)).gs.Queue,
        run_invariant (fun s => s.received.map Prod.snd ++ s.gs.Queue = s.sent) fifo_step
          acts (boot numPumps) (by simp [boot, NewGasStation])⟩
    have hone : ∀ q ∈ ((run acts (boot numPumps)).served.map fun r => r.2.FuelAmount),
        q = 1 := by
      intro q hq
      obtain ⟨r, hr, rfl⟩ := List.mem_map.mp hq
      exact hunit r.2 (hfifo.subset ((traced_run numPumps acts).2 r hr))
    have hfold := foldl_float64Add_ones _ 0 hone (by simpa using hfew)
    rw [hsum.1, hlog]
    unfold float64Sum
    simpa using hfold
  · intro hret
    have hquiet := (stopInv_run numPumps acts).drained _ hret rfl
    have hzero : tally Thread.inService (run acts (boot numPumps)).threads = 0 :=
      tally_zero_of_forall _ _ fun u hu => inService_of_quiet u (hquiet u hu)
    have hcons := conserved_run numPumps acts
    unfold Conserved at hcons
    rw [hzero] at hcons
    rw [hcons]
    simp

/-- Witness for C15: the run `fiveUnitsThenStop`; all enqueued vehicles have quantity 1
and `Stop` has returned. -/
theorem totals_are_sums_over_served_witness :
    (∀ v ∈ (run fiveUnitsThenStop (boot 2)).sent, v.FuelAmount = 1) ∧
    (run fiveUnitsThenStop (boot 2)).served.length < 2 ^ 53 ∧
    Thread.stopper .returned ∈ (run fiveUnitsThenStop (boot 2)).threads ∧
    sumInRange 0 ((run fiveUnitsThenStop (boot 2)).served.map fun r => r.2.FuelAmount)
      = true ∧
    (∀ r ∈ (run fiveUnitsThenStop (boot 2)).served,
      float64Range (r.2.FuelAmount * fuelPrices r.2.FuelType) = true) ∧
    sumInRange 0 ((run fiveUnitsThenStop (boot 2)).served.map
      fun r => float64Mul r.2.FuelAmount (fuelPrices r.2.FuelType)) = true ∧
    (run fiveUnitsThenStop (boot 2)).gs.Stats.TotalFuelDispensed
      = float64Sum ((run fiveUnitsThenStop (boot 2)).served.map fun r => r.2.FuelAmount) ∧
    (run fiveUnitsThenStop (boot 2)).gs.Stats.TotalRevenue
      = float64Sum ((run fiveUnitsThenStop (boot 2)).served.map
          fun r => float64Mul r.2.FuelAmount (fuelPrices r.2.FuelType)) ∧
    (run fiveUnitsThenStop (boot 2)).gs.Stats.TotalFuelDispensed
      = (run fiveUnitsThenStop (boot 2)).gs.Stats.ServedVehicles ∧
    (run fiveUnitsThenStop (boot 2)).gs.Stats.TotalVehicles
      = (run fiveUnitsThenStop (boot 2)).gs.Stats.ServedVehicles
        + (run fiveUnitsThenStop (boot 2)).gs.Queue.length
        + tally Thread.unsent (run fiveUnitsThenStop (boot 2)).threads :=
  have h := totals_are_sums_over_served 2 fiveUnitsThenStop
  ⟨by decide!, by decide!, by decide!, by decide!, by decide!, by decide!,
    h.2.1 (by decide!), h.2.2.1 (by decide!) (by decide!),
    h.2.2.2.1 (by decide!) (by decide!), h.2.2.2.2 (by decide!)⟩

/-! ### No service of a nil vehicle (C19) -/

theorem threadStep_nil (now : Time) (gs : GasStation) (fire : Bool) (t : Thread)
    (e : Effect) (h : threadStep now gs fire t = some e) :
    (e.thread.nilCall = true →
      t.nilCall = true ∨ (gs.QueueClosed = true ∧ t.quiet = false)) ∧
    (∀ u ∈ e.spawned, u.nilCall = false) := by
  apply threadStep_elim now gs fire _ t e h
  all_goals intros
  all_goals simp_all [Effect.plain, Effect.panic, Thread.nilCall, Thread.quiet]

theorem closeInv_step (s : System) (a : Action) (hs : CloseInv s) : CloseInv (step s a) := by
  refine ⟨stopInv_step s a hs.stop, closed_step s a hs.returned, ?_⟩
  apply step_invariant (fun s1 => ∀ t ∈ s1.threads, t.nilCall = false) s a hs.nonil
  · intro t ht u hu
    simp only [List.mem_append, List.mem_singleton] at hu
    rcases hu with hu | rfl
    · exact hs.nonil u hu
    · rcases ht with rfl | rfl | ⟨v, rfl⟩ <;> rfl
  · intro d; exact hs.nonil
  · intro i fire t e hti hte u hu
    obtain ⟨h1, h2⟩ := threadStep_nil _ _ _ _ _ hte
    have htmem : t ∈ s.threads := List.getElem?_mem hti
    simp only [System.apply, List.mem_append] at hu
    rcases hu with hu | hu
    · rcases List.mem_or_eq_of_mem_set hu with hu | rfl
      · exact hs.nonil u hu
      · by_contra hnil
        have hnil1 : e.thread.nilCall = true := by simpa using hnil
        rcases h1 hnil1 with h | ⟨hcl, hq⟩
        · rw [hs.nonil t htmem] at h
          exact absurd h (by simp)
        · have := hs.stop.drained _ (hs.returned hcl) rfl t htmem
          rw [this] at hq
          exact absurd hq (by simp)
    · exact h2 u hu

theorem closeInv_run (numPumps : Nat) (acts : List Action) :
    CloseInv (run acts (boot numPumps)) := by
  apply run_invariant CloseInv closeInv_step
  refine ⟨?_, ?_, ?_⟩
  · refine ⟨?_, ?_, ?_⟩ <;> simp [boot, NewGasStation, tally]
  · simp [boot, NewGasStation]
  · simp [boot]

/-- C19, counterexample: one `Stop` call, no `AddVehicle` call. `Stop` comes back from
`Wait` while no worker exists; `Start` then spawns a worker; `Stop` then closes the
queue. The queue is closed and the worker has not left its loop: it stands at the top of
the loop and the wait group counts it. -/
theorem queue_closed_before_worker_left :
    (run startRacesStop (boot 1)).threads
      = [.stopper .returned, .starter 1, .pump 0 .loopHead] ∧
    (run startRacesStop (boot 1)).gs.QueueClosed = true ∧
    (run startRacesStop (boot 1)).gs.pumpWg = 1 ∧
    (run startRacesStop (boot 1)).crashed = false := by
  decide

/-- C19, amended: in every state that a run reaches from a new station, however often
`Stop` is called, no `serveVehicle` call has a nil vehicle, and while the queue is closed
`Running` is false and every pump worker has left its loop or stands at the top of the
loop about to read `Running = false` and leave: none is in its `select` or in
`serveVehicle`, so none receives from the closed queue. A `Stop` closes the queue only
after its `Wait` has returned, and whenever a `Stop` stands between `Wait` and the close
the same holds for the workers. -/
theorem no_nil_service (numPumps : Nat) (acts : List Action) :
    (∀ idx, Thread.pump idx (.occupy none) ∉ (run acts (boot numPumps)).threads) ∧
    (∀ idx, Thread.pump idx (.measure none) ∉ (run acts (boot numPumps)).threads) ∧
    ((run acts (boot numPumps)).gs.QueueClosed = true →
      (run acts (boot numPumps)).gs.Running = false ∧
      ∀ u ∈ (run acts (boot numPumps)).threads, u.quiet = true) ∧
    (Thread.stopper .closing ∈ (run acts (boot numPumps)).threads →
      ∀ u ∈ (run acts (boot numPumps)).threads, u.quiet = true) := by
  have h := closeInv_run numPumps acts
  refine ⟨?_, ?_, ?_, ?_⟩
  · intro idx hmem
    have := h.nonil _ hmem
    simp [Thread.nilCall] at this
  · intro idx hmem
    have := h.nonil _ hmem
    simp [Thread.nilCall] at this
  · intro hcl
    exact ⟨h.stop.flag _ (h.returned hcl) rfl, h.stop.drained _ (h.returned hcl) rfl⟩
  · intro hmem
    exact h.stop.drained _ hmem rfl

/-- Witness for C19: the run `stopWhileServing`, after which the queue is closed. -/
theorem no_nil_service_witness :
    (run stopWhileServing (boot 1)).gs.QueueClosed = true ∧
    (run stopWhileServing (boot 1)).gs.Running = false ∧
    ∀ u ∈ (run stopWhileServing (boot 1)).threads, u.quiet = true :=
  ⟨by decide!, ((no_nil_service 1 stopWhileServing).2.2.1 (by decide!)).1,
    ((no_nil_service 1 stopWhileServing).2.2.1 (by decide!)).2⟩

/-! ### One service per pump (C14) -/

theorem tally_ge_of_getElem? (f : Thread → Nat) :
    ∀ (l : List Thread) (j : Nat) (t : Thread), l[j]? = some t → f t ≤ tally f l := by
  intro l
  induction l with
  | nil => intro j t h; simp at h
  | cons a rest ih =>
    intro j t h
    cases j with
    | zero =>
      simp at h
      subst h
      simp [tally]
    | succ k =>
      simp at h
      have := ih k t h
      simp [tally] at this ⊢
      omega

theorem tally_ge_two (f : Thread → Nat) :
    ∀ (l : List Thread) (i j : Nat) (a b : Thread), l[i]? = some a → l[j]? = some b →
      i ≠ j → f a + f b ≤ tally f l := by
  intro l
  induction l with
  | nil => intro i j a b hi; simp at hi
  | cons c rest ih =>
    intro i j a b hi hj hij
    cases i with
    | zero =>
      cases j with
      | zero => exact absurd rfl hij
      | succ j1 =>
        simp at hi hj
        subst hi
        have := tally_ge_of_getElem? f rest j1 b hj
        simp [tally] at this ⊢
        omega
    | succ i1 =>
      cases j with
      | zero =>
        simp at hi hj
        subst hj
        have := tally_ge_of_getElem? f rest i1 a hi
        simp [tally] at this ⊢
        omega
      | succ j1 =>
        simp at hi hj
        have := ih i1 j1 a b hi hj (by omega)
        simp [tally] at this ⊢
        omega

theorem getElem?_after_step (l sp : List Thread) (i j : Nat) (t1 u : Thread)
    (h : (l.set i t1 ++ sp)[j]? = some u) :
    (j = i ∧ u = t1) ∨ (j ≠ i ∧ l[j]? = some u) ∨ u ∈ sp := by
  by_cases hj : j < (l.set i t1).length
  · rw [List.getElem?_append_left hj] at h
    by_cases hij : i = j
    · subst hij
      rw [List.getElem?_set_self (by simpa using hj)] at h
      exact Or.inl ⟨rfl, (Option.some.inj h).symm⟩
    · rw [List.getElem?_set_ne hij] at h
      exact Or.inr (Or.inl ⟨fun hji => hij hji.symm, h⟩)
  · rw [List.getElem?_append_right (by omega)] at h
    exact Or.inr (Or.inr (List.getElem?_mem h))

theorem getElem?_after_call (l : List Thread) (j : Nat) (t u : Thread)
    (h : (l ++ [t])[j]? = some u) : l[j]? = some u ∨ u = t := by
  by_cases hj : j < l.length
  · rw [List.getElem?_append_left hj] at h
    exact Or.inl h
  · rw [List.getElem?_append_right (by omega)] at h
    have := List.getElem?_mem h
    simp at this
    exact Or.inr this

theorem tally_after_step (f : Thread → Nat) (l sp : List Thread) (i : Nat) (t t1 : Thread)
    (hi : l[i]? = some t) :
    tally f (l.set i t1 ++ sp) + f t = tally f l + f t1 + tally f sp := by
  have := tally_set f t1 l i t hi
  rw [tally_append]
  omega

theorem setPump_getElem?_ne (gs : GasStation) (idx j : Nat) (b : Bool)
    (v : Option Vehicle) (h : idx ≠ j) :
    (gs.setPump idx b v).Pumps[j]? = gs.Pumps[j]? := by
  simp [GasStation.setPump, List.getElem?_modify_ne _ _ h]

theorem setPump_getElem?_eq (gs : GasStation) (idx : Nat) (b : Bool) (v : Option Vehicle) :
    (gs.setPump idx b v).Pumps[idx]?
      = gs.Pumps[idx]?.map fun p => { p with IsOccupied := b, CurrentVehicle := v } := by
  simp [GasStation.setPump]

theorem threadStep_pumps (now : Time) (gs : GasStation) (fire : Bool) (t : Thread)
    (e : Effect) (h : threadStep now gs fire t = some e) :
    (∀ idx, e.thread.worksOn idx = t.worksOn idx) ∧
    e.thread.startCall = t.startCall ∧
    (e.spawned = [] ∨ ∃ k, t = .starter k ∧ e.thread = .starter (k + 1) ∧
      e.spawned = [.pump k .loopHead] ∧ k < gs.Pumps.length) ∧
    (∀ k, e.thread = .starter k → e.spawned ≠ []) ∧
    (∀ idx, t.worksOn idx = 0 → e.gs.Pumps[idx]? = gs.Pumps[idx]?) ∧
    (∀ idx pc, e.thread = .pump idx pc → ∃ pc0, t = .pump idx pc0 ∧
      ∀ p, gs.Pumps[idx]? = some p → p.shows pc0.marks →
        ∃ p1, e.gs.Pumps[idx]? = some p1 ∧ p1.shows pc.marks) := by
  apply threadStep_elim now gs fire _ t e h
  all_goals intros
  all_goals refine ⟨?_, ?_, ?_, ?_, ?_, ?_⟩
  all_goals simp_all [Effect.plain, Effect.panic, Thread.worksOn, Thread.startCall,
    PumpPc.marks, Pump.shows, GasStation.countVehicle]
  all_goals first
    | (intro j hj
       exact setPump_getElem?_ne gs _ j _ _ hj)
    | (intro p hp _
       rw [setPump_getElem?_eq, hp]
       simp)

theorem onePerPump_call (s : System) (t : Thread)
    (ht : t = .starter 0 ∨ t = .stopper .setFlag ∨ ∃ v, t = .adder (.stamp v))
    (hs : tally Thread.startCall s.threads ≤ 1 → OnePerPump s)
    (hle : tally Thread.startCall (s.threads ++ [t]) ≤ 1) :
    OnePerPump { s with threads := s.threads ++ [t] } := by
  have hw : ∀ idx, t.worksOn idx = 0 := by
    intro idx
    rcases ht with rfl | rfl | ⟨v, rfl⟩ <;> rfl
  have hwork : ∀ idx, tally (Thread.worksOn idx) (s.threads ++ [t])
      = tally (Thread.worksOn idx) s.threads := by
    intro idx
    rw [tally_append]
    simp [tally, hw idx]
  have hstart : tally Thread.startCall (s.threads ++ [t])
      = tally Thread.startCall s.threads + t.startCall := by
    rw [tally_append]
    simp [tally]
  have inv : OnePerPump s := hs (by omega)
  refine ⟨?_, ?_, ?_, ?_, ?_⟩
  · intro idx
    simp only [hwork]
    exact inv.single idx
  · intro j k hj idx hk
    simp only [hwork]
    rcases getElem?_after_call _ _ _ _ hj with hold | hnew
    · exact inv.ahead j k hold idx hk
    · have h1 : t.startCall = 1 := by rw [← hnew]; rfl
      exact inv.unstarted (by omega) idx
  · intro h0 idx
    have h0a : tally Thread.startCall (s.threads ++ [t]) = 0 := h0
    simp only [hwork]
    exact inv.unstarted (by omega) idx
  · intro j idx pc hj
    rcases getElem?_after_call _ _ _ _ hj with hold | hnew
    · exact inv.marked j idx pc hold
    · have := hw idx
      rw [← hnew] at this
      simp [Thread.worksOn] at this
  · intro idx p hp h0
    simp only [hwork] at h0
    exact inv.idle idx p hp h0

theorem onePerPump_sched (s : System) (i : Nat) (fire : Bool) (t : Thread) (e : Effect)
    (hti : s.threads[i]? = some t) (hte : threadStep s.clock s.gs fire t = some e)
    (hs : tally Thread.startCall s.threads ≤ 1 → OnePerPump s)
    (hle : tally Thread.startCall (s.apply i e).threads ≤ 1) :
    OnePerPump (s.apply i e) := by
  obtain ⟨hA, hB, hC, hD, hE, hF⟩ := threadStep_pumps _ _ _ _ _ hte
  have hwork : ∀ idx, tally (Thread.worksOn idx) (s.apply i e).threads
      = tally (Thread.worksOn idx) s.threads + tally (Thread.worksOn idx) e.spawned := by
    intro idx
    have := tally_after_step (Thread.worksOn idx) s.threads e.spawned i t e.thread hti
    have := hA idx
    simp only [System.apply]
    omega
  have hsp0 : tally Thread.startCall e.spawned = 0 := by
    rcases hC with h | ⟨k, _, _, h, _⟩ <;> rw [h] <;> rfl
  have hstart : tally Thread.startCall (s.apply i e).threads
      = tally Thread.startCall s.threads := by
    have := tally_after_step Thread.startCall s.threads e.spawned i t e.thread hti
    simp only [System.apply]
    omega
  have hle0 : tally Thread.startCall s.threads ≤ 1 := by omega
  have inv : OnePerPump s := hs hle0
  have hown : ∀ (j idx : Nat) (pc : PumpPc), j ≠ i →
      s.threads[j]? = some (Thread.pump idx pc) → t.worksOn idx = 0 := by
    intro j idx pc hji hj
    have h2 := tally_ge_two (Thread.worksOn idx) s.threads i j t _ hti hj
      (fun h => hji h.symm)
    have h1 := inv.single idx
    have hp1 : (Thread.pump idx pc).worksOn idx = 1 := by simp [Thread.worksOn]
    omega
  rcases hC with hnone | ⟨k, htk, hek, hspk, hklt⟩
  · -- no goroutine is spawned
    have hwork0 : ∀ idx, tally (Thread.worksOn idx) (s.apply i e).threads
        = tally (Thread.worksOn idx) s.threads := by
      intro idx
      rw [hwork idx, hnone]
      rfl
    refine ⟨?_, ?_, ?_, ?_, ?_⟩
    · intro idx
      rw [hwork0]
      exact inv.single idx
    · intro j k hj idx hk
      rw [hwork0]
      simp only [System.apply] at hj
      rcases getElem?_after_step _ _ _ _ _ _ hj with ⟨_, hu⟩ | ⟨_, hold⟩ | hsp
      · exact absurd hnone (hD k hu.symm)
      · exact inv.ahead j k hold idx hk
      · rw [hnone] at hsp
        exact absurd hsp (by simp)
    · intro h0 idx
      rw [hwork0]
      exact inv.unstarted (by omega) idx
    · intro j idx pc hj
      simp only [System.apply] at hj ⊢
      rcases getElem?_after_step _ _ _ _ _ _ hj with ⟨_, hu⟩ | ⟨hji, hold⟩ | hsp
      · obtain ⟨pc0, ht0, hshow⟩ := hF idx pc hu.symm
        obtain ⟨p, hp, hps⟩ := inv.marked i idx pc0 (ht0 ▸ hti)
        exact hshow p hp hps
      · obtain ⟨p, hp, hps⟩ := inv.marked j idx pc hold
        exact ⟨p, by rw [hE idx (hown j idx pc hji hold)]; exact hp, hps⟩
      · rw [hnone] at hsp
        exact absurd hsp (by simp)
    · intro idx p hp h0
      rw [hwork0] at h0
      have ht0 : t.worksOn idx = 0 := by
        have := tally_ge_of_getElem? (Thread.worksOn idx) _ _ _ hti
        omega
      simp only [System.apply] at hp
      rw [hE idx ht0] at hp
      exact inv.idle idx p hp h0
  · -- `Start` spawns the worker of pump `k`
    subst htk
    have hfresh : ∀ idx, k ≤ idx → tally (Thread.worksOn idx) s.threads = 0 :=
      inv.ahead i k hti
    have hwork1 : ∀ idx, tally (Thread.worksOn idx) (s.apply i e).threads
        = tally (Thread.worksOn idx) s.threads + if k = idx then 1 else 0 := by
      intro idx
      rw [hwork idx, hspk]
      simp [tally, Thread.worksOn]
    have hpumps : ∀ idx, e.gs.Pumps[idx]? = s.gs.Pumps[idx]? := fun idx => hE idx rfl
    refine ⟨?_, ?_, ?_, ?_, ?_⟩
    · intro idx
      rw [hwork1]
      by_cases hk : k = idx
      · have := hfresh idx (by omega)
        simp [hk] at this ⊢
        omega
      · have := inv.single idx
        simp [hk]
        exact this
    · intro j k1 hj idx hk
      rw [hwork1]
      simp only [System.apply] at hj
      rcases getElem?_after_step _ _ _ _ _ _ hj with ⟨_, hu⟩ | ⟨hji, hold⟩ | hsp
      · rw [hek] at hu
        have hk1 : k1 = k + 1 := Thread.starter.inj hu
        have hne : k ≠ idx := by omega
        have := hfresh idx (by omega)
        simp [hne]
        exact this
      · have h2 := tally_ge_two Thread.startCall s.threads i j _ _ hti hold
          (fun h => hji h.symm)
        simp only [Thread.startCall] at h2
        omega
      · rw [hspk] at hsp
        simp at hsp
    · intro h0
      have := tally_ge_of_getElem? Thread.startCall _ _ _ hti
      simp only [Thread.startCall] at this
      omega
    · intro j idx pc hj
      simp only [System.apply] at hj ⊢
      rcases getElem?_after_step _ _ _ _ _ _ hj with ⟨_, hu⟩ | ⟨hji, hold⟩ | hsp
      · rw [hek] at hu
        exact absurd hu (by simp)
      · obtain ⟨p, hp, hps⟩ := inv.marked j idx pc hold
        exact ⟨p, by rw [hpumps]; exact hp, hps⟩
      · rw [hspk] at hsp
        simp only [List.mem_singleton] at hsp
        obtain ⟨hidx, hpc⟩ := Thread.pump.inj hsp
        subst hidx hpc
        have hsome : ∃ p, s.gs.Pumps[idx]? = some p :=
          ⟨s.gs.Pumps[idx], List.getElem?_eq_getElem hklt⟩
        obtain ⟨p, hp⟩ := hsome
        exact ⟨p, by rw [hpumps]; exact hp, inv.idle idx p hp (hfresh idx (Nat.le_refl _))⟩
    · intro idx p hp h0
      rw [hwork1] at h0
      simp only [System.apply] at hp
      rw [hpumps] at hp
      exact inv.idle idx p hp (by omega)

theorem onePerPump_step (s : System) (a : Action)
    (hs : tally Thread.startCall s.threads ≤ 1 → OnePerPump s) :
    tally Thread.startCall (step s a).threads ≤ 1 → OnePerPump (step s a) := by
  apply step_invariant
    (fun s1 => tally Thread.startCall s1.threads ≤ 1 → OnePerPump s1) s a hs
  · intro t ht hle
    exact onePerPump_call s t ht hs hle
  · intro d hle
    have inv := hs hle
    exact ⟨inv.single, inv.ahead, inv.unstarted, inv.marked, inv.idle⟩
  · intro i fire t e hti hte hle
    exact onePerPump_sched s i fire t e hti hte hs hle

theorem newPumps_idle (numPumps idx : Nat) (p : Pump)
    (h : (newPumps numPumps)[idx]? = some p) : p.shows none := by
  have hmem := List.getElem?_mem h
  simp only [newPumps, List.mem_map] at hmem
  obtain ⟨k, _, hk⟩ := hmem
  rw [← hk]
  exact ⟨rfl, rfl⟩

theorem onePerPump_run (numPumps : Nat) (acts : List Action) :
    tally Thread.startCall (run acts (boot numPumps)).threads ≤ 1 →
      OnePerPump (run acts (boot numPumps)) := by
  apply run_invariant
    (fun s1 => tally Thread.startCall s1.threads ≤ 1 → OnePerPump s1) onePerPump_step
  intro _
  refine ⟨?_, ?_, ?_, ?_, ?_⟩
  · intro idx; simp [boot, tally]
  · intro j k hj; simp [boot] at hj
  · intro _ idx; simp [boot, tally]
  · intro j idx pc hj; simp [boot] at hj
  · intro idx p hp _
    exact newPumps_idle numPumps idx p hp

theorem tally_pos_exists (f : Thread → Nat) :
    ∀ l : List Thread, 0 < tally f l → ∃ (j : Nat) (t : Thread), l[j]? = some t ∧ 0 < f t := by
  intro l
  induction l with
  | nil => intro h; simp [tally] at h
  | cons a rest ih =>
    intro h
    by_cases ha : 0 < f a
    · exact ⟨0, a, by simp, ha⟩
    · have hrest : 0 < tally f rest := by
        simp [tally] at h ⊢
        omega
      obtain ⟨j, t, hj, ht⟩ := ih hrest
      exact ⟨j + 1, t, by simpa using hj, ht⟩

theorem worksOn_pos (idx : Nat) (t : Thread) (h : 0 < t.worksOn idx) :
    ∃ pc, t = Thread.pump idx pc := by
  rcases t with _ | _ | ⟨j, pc⟩ | _ | _ <;> simp [Thread.worksOn] at h
  by_cases hj : j = idx
  · exact ⟨pc, by rw [hj]⟩
  · simp [hj] at h

/-- C14, counterexample: `Start` has run twice on a station with one pump, so two
workers drive the pump. Both are inside `serveVehicle` on it at the same time, one with
the car and one with the truck, and the pump shows the truck. When the first worker is
done it clears the pump: the pump then shows idle (`IsOccupied = false`, no current
vehicle) while the second worker is still inside its `serveVehicle` call with the
truck. The process has not panicked. -/
theorem two_workers_share_a_pump :
    (run twoWorkersServing (boot 1)).threads[1]?
      = some (.pump 0 (.refuel (unitCar 1) 0 100000000)) ∧
    (run twoWorkersServing (boot 1)).threads[3]?
      = some (.pump 0 (.refuel truckB 0 12000000000)) ∧
    ((run twoWorkersServing (boot 1)).gs.Pumps.map
        fun p => (p.IsOccupied, p.CurrentVehicle)) = [(true, some truckB)] ∧
    (run firstWorkerDone (boot 1)).threads[1]? = some (.pump 0 .loopHead) ∧
    (run firstWorkerDone (boot 1)).threads[3]?
      = some (.pump 0 (.refuel truckB 0 12000000000)) ∧
    ((run firstWorkerDone (boot 1)).gs.Pumps.map
        fun p => (p.IsOccupied, p.CurrentVehicle)) = [(false, none)] ∧
    (run firstWorkerDone (boot 1)).crashed = false := by
  decide!

/-- C14, amended: in every state that a run reaches from a new station in which `Start`
has been called at most once, every pump has at most one worker, and every pump is
either idle (`IsOccupied = false`, `CurrentVehicle = nil`) or shows
`IsOccupied = true` and the vehicle of the one `serveVehicle` call that its one worker
is inside of; a worker that has marked its pump and not yet cleared it finds its vehicle
there. In every state, whatever the number of `Start` calls, a step of a thread changes
no pump other than the one that the thread drives, `serveVehicle` on pump `idx` leaves
every other pump as it is, and when it completes pump `idx` is idle with no current
vehicle. -/
theorem one_service_per_pump (numPumps : Nat) (acts : List Action)
    (honce : tally Thread.startCall (run acts (boot numPumps)).threads ≤ 1) :
    (∀ idx, tally (Thread.worksOn idx) (run acts (boot numPumps)).threads ≤ 1) ∧
    (∀ (idx : Nat) (p : Pump), (run acts (boot numPumps)).gs.Pumps[idx]? = some p →
      (p.IsOccupied = false ∧ p.CurrentVehicle = none) ∨
      ∃ (j : Nat) (pc : PumpPc) (vehicle : Option Vehicle),
        (run acts (boot numPumps)).threads[j]? = some (Thread.pump idx pc) ∧
        pc.marks = some vehicle ∧ p.IsOccupied = true ∧ p.CurrentVehicle = vehicle ∧
        ∀ (j2 : Nat) (pc2 : PumpPc),
          (run acts (boot numPumps)).threads[j2]? = some (Thread.pump idx pc2) → j2 = j) ∧
    (∀ (j idx : Nat) (pc : PumpPc) (vehicle : Option Vehicle),
      (run acts (boot numPumps)).threads[j]? = some (Thread.pump idx pc) →
      pc.marks = some vehicle →
      ∃ p, (run acts (boot numPumps)).gs.Pumps[idx]? = some p ∧
        p.IsOccupied = true ∧ p.CurrentVehicle = vehicle) ∧
    (∀ (now : Time) (gs : GasStation) (fire : Bool) (t : Thread) (e : Effect) (idx : Nat),
      threadStep now gs fire t = some e → t.worksOn idx = 0 →
      e.gs.Pumps[idx]? = gs.Pumps[idx]?) ∧
    (∀ (now : Time) (gs : GasStation) (vehicle : Vehicle) (idx other : Nat), idx ≠ other →
      (serveVehicle now idx vehicle gs).Pumps[other]? = gs.Pumps[other]?) ∧
    (∀ (now : Time) (gs : GasStation) (vehicle : Vehicle) (idx : Nat) (p : Pump),
      (serveVehicle now idx vehicle gs).Pumps[idx]? = some p →
      p.IsOccupied = false ∧ p.CurrentVehicle = none) := by
  have inv := onePerPump_run numPumps acts honce
  refine ⟨inv.single, ?_, ?_, ?_, ?_, ?_⟩
  · intro idx p hp
    by_cases h0 : tally (Thread.worksOn idx) (run acts (boot numPumps)).threads = 0
    · exact Or.inl (inv.idle idx p hp h0)
    · obtain ⟨j, t, hj, ht⟩ := tally_pos_exists (Thread.worksOn idx) _
        (Nat.pos_of_ne_zero h0)
      obtain ⟨pc, rfl⟩ := worksOn_pos idx t ht
      obtain ⟨p1, hp1, hshow⟩ := inv.marked j idx pc hj
      have hpp : p1 = p := Option.some.inj (hp1.symm.trans hp)
      subst hpp
      cases hm : pc.marks with
      | none =>
        rw [hm] at hshow
        exact Or.inl hshow
      | some vehicle =>
        rw [hm] at hshow
        refine Or.inr ⟨j, pc, vehicle, hj, hm, hshow.1, hshow.2, ?_⟩
        intro j2 pc2 hj2
        by_contra hne
        have h2 := tally_ge_two (Thread.worksOn idx) _ j j2 _ _ hj hj2
          (fun h => hne h.symm)
        have h1 := inv.single idx
        have ha : (Thread.pump idx pc).worksOn idx = 1 := by simp [Thread.worksOn]
        have hb : (Thread.pump idx pc2).worksOn idx = 1 := by simp [Thread.worksOn]
        omega
  · intro j idx pc vehicle hj hm
    obtain ⟨p, hp, hshow⟩ := inv.marked j idx pc hj
    rw [hm] at hshow
    exact ⟨p, hp, hshow.1, hshow.2⟩
  · intro now gs fire t e idx hte h0
    exact (threadStep_pumps now gs fire t e hte).2.2.2.2.1 idx h0
  · intro now gs vehicle idx other hne
    simp only [serveVehicle]
    rw [setPump_getElem?_ne _ _ _ _ _ hne]
    exact setPump_getElem?_ne _ _ _ _ _ hne
  · intro now gs vehicle idx p hp
    simp only [serveVehicle] at hp
    rw [setPump_getElem?_eq] at hp
    cases hq : ({ gs.setPump idx true (some vehicle) with
        Stats := (gs.setPump idx true (some vehicle)).Stats.record vehicle
          (now - vehicle.ArrivalTime) } : GasStation).Pumps[idx]? with
    | none => rw [hq] at hp; simp at hp
    | some q =>
      rw [hq] at hp
      simp only [Option.map_some'] at hp
      rw [← Option.some.inj hp]
      exact ⟨rfl, rfl⟩

/-- Witness for C14: the run `oneWorkerServing`; `Start` was called once and the one
worker of pump 0 is in its sleep with `carA`, which the pump shows. -/
theorem one_service_per_pump_witness :
    tally Thread.startCall (run oneWorkerServing (boot 1)).threads ≤ 1 ∧
    (run oneWorkerServing (boot 1)).threads[1]?
      = some (Thread.pump 0 (.refuel { carA with ArrivalTime := 2000000 } 1000000
          3003000000)) ∧
    ∃ p, (run oneWorkerServing (boot 1)).gs.Pumps[0]? = some p ∧
      p.IsOccupied = true ∧ p.CurrentVehicle = some { carA with ArrivalTime := 2000000 } :=
  ⟨by decide!, by decide!,
    (one_service_per_pump 1 oneWorkerServing (by decide!)).2.2.1 1 0
      (.refuel { carA with ArrivalTime := 2000000 } 1000000 3003000000)
      (some { carA with ArrivalTime := 2000000 }) (by decide!) rfl⟩

/-! ### FIFO delivery and the order of service per pump (C9) -/

theorem threadStep_order (now : Time) (gs : GasStation) (fire : Bool) (t : Thread)
    (e : Effect) (h : threadStep now gs fire t = some e) :
    (∀ idx, t.worksOn idx = 0 →
      e.received.filter (fun r => r.1 == idx) = [] ∧
      e.served.filter (fun r => r.1 == idx) = []) ∧
    (∀ idx pc, e.thread = Thread.pump idx pc →
      t.holding.toList ++ (e.received.filter fun r => r.1 == idx).map Prod.snd
        = (e.served.filter fun r => r.1 == idx).map Prod.snd ++ e.thread.holding.toList) := by
  apply threadStep_elim now gs fire _ t e h
  all_goals intros
  all_goals refine ⟨?_, ?_⟩
  all_goals simp_all [Effect.plain, Effect.panic, Thread.worksOn, Thread.holding]

theorem receivedBy_apply (s : System) (i idx : Nat) (e : Effect) :
    (s.apply i e).receivedBy idx
      = s.receivedBy idx ++ (e.received.filter fun r => r.1 == idx).map Prod.snd := by
  simp [System.receivedBy, System.apply]

theorem servedBy_apply (s : System) (i idx : Nat) (e : Effect) :
    (s.apply i e).servedBy idx
      = s.servedBy idx ++ (e.served.filter fun r => r.1 == idx).map Prod.snd := by
  simp [System.servedBy, System.apply]

theorem pumpOrder_call (s : System) (t : Thread)
    (ht : t = .starter 0 ∨ t = .stopper .setFlag ∨ ∃ v, t = .adder (.stamp v))
    (hs : PumpOrder s) : PumpOrder { s with threads := s.threads ++ [t] } := by
  have hw : ∀ idx, t.worksOn idx = 0 := by
    intro idx
    rcases ht with rfl | rfl | ⟨v, rfl⟩ <;> rfl
  refine ⟨?_, ?_⟩
  · intro j idx pc hj
    rcases getElem?_after_call _ _ _ _ hj with hold | hnew
    · exact hs.held j idx pc hold
    · have := hw idx
      rw [← hnew] at this
      simp [Thread.worksOn] at this
  · intro idx h0
    have h0a : tally (Thread.worksOn idx) (s.threads ++ [t]) = 0 := h0
    rw [tally_append] at h0a
    exact hs.idle idx (by omega)

theorem pumpOrder_sched (s : System) (i : Nat) (fire : Bool) (t : Thread) (e : Effect)
    (hti : s.threads[i]? = some t) (hte : threadStep s.clock s.gs fire t = some e)
    (inv : OnePerPump s) (hs : PumpOrder s) : PumpOrder (s.apply i e) := by
  obtain ⟨hA, _, hC, _, _, hF⟩ := threadStep_pumps _ _ _ _ _ hte
  obtain ⟨hquiet, hmove⟩ := threadStep_order _ _ _ _ _ hte
  have hown : ∀ (j idx : Nat) (pc : PumpPc), j ≠ i →
      s.threads[j]? = some (Thread.pump idx pc) → t.worksOn idx = 0 := by
    intro j idx pc hji hj
    have h2 := tally_ge_two (Thread.worksOn idx) s.threads i j t _ hti hj
      (fun h => hji h.symm)
    have h1 := inv.single idx
    have hp1 : (Thread.pump idx pc).worksOn idx = 1 := by simp [Thread.worksOn]
    omega
  have hsame : ∀ idx, t.worksOn idx = 0 →
      (s.apply i e).receivedBy idx = s.receivedBy idx ∧
      (s.apply i e).servedBy idx = s.servedBy idx := by
    intro idx h0
    obtain ⟨h1, h2⟩ := hquiet idx h0
    rw [receivedBy_apply, servedBy_apply, h1, h2]
    simp
  refine ⟨?_, ?_⟩
  · intro j idx pc hj
    simp only [System.apply] at hj
    rcases getElem?_after_step _ _ _ _ _ _ hj with ⟨_, hu⟩ | ⟨hji, hold⟩ | hsp
    · obtain ⟨pc0, ht0, _⟩ := hF idx pc hu.symm
      have hold := hs.held i idx pc0 (ht0 ▸ hti)
      have hm := hmove idx pc hu.symm
      rw [receivedBy_apply, servedBy_apply, hold, List.append_assoc, List.append_assoc,
        ← ht0, hm, ← hu]
    · obtain ⟨h1, h2⟩ := hsame idx (hown j idx pc hji hold)
      rw [h1, h2]
      exact hs.held j idx pc hold
    · rcases hC with hnone | ⟨k, htk, _, hspk, _⟩
      · rw [hnone] at hsp
        exact absurd hsp (by simp)
      · rw [hspk] at hsp
        simp only [List.mem_singleton] at hsp
        obtain ⟨hidx, hpc⟩ := Thread.pump.inj hsp
        subst hidx hpc htk
        obtain ⟨h1, h2⟩ := hsame idx rfl
        rw [h1, h2]
        have := hs.idle idx (inv.ahead i idx hti idx (Nat.le_refl _))
        simpa [Thread.holding] using this
  · intro idx h0
    have hstep := tally_after_step (Thread.worksOn idx) s.threads e.spawned i t e.thread hti
    have hsum : tally (Thread.worksOn idx) (s.threads.set i e.thread ++ e.spawned) = 0 := h0
    have hge := tally_ge_of_getElem? (Thread.worksOn idx) _ _ _ hti
    have hAi := hA idx
    obtain ⟨h1, h2⟩ := hsame idx (by omega)
    rw [h1, h2]
    exact hs.idle idx (by omega)

theorem ordered_step (s : System) (a : Action)
    (hs : tally Thread.startCall s.threads ≤ 1 → OnePerPump s ∧ PumpOrder s) :
    tally Thread.startCall (step s a).threads ≤ 1 →
      OnePerPump (step s a) ∧ PumpOrder (step s a) := by
  intro hle
  refine ⟨onePerPump_step s a (fun h => (hs h).1) hle, ?_⟩
  revert hle
  apply step_invariant
    (fun s1 => tally Thread.startCall s1.threads ≤ 1 → PumpOrder s1) s a (fun h => (hs h).2)
  · intro t ht hle
    have hle0 : tally Thread.startCall s.threads ≤ 1 := by
      have hle1 : tally Thread.startCall (s.threads ++ [t]) ≤ 1 := hle
      rw [tally_append] at hle1
      omega
    exact pumpOrder_call s t ht (hs hle0).2
  · intro d hle
    have ord := (hs hle).2
    exact ⟨ord.held, ord.idle⟩
  · intro i fire t e hti hte hle
    obtain ⟨_, hB, hC, _, _, _⟩ := threadStep_pumps _ _ _ _ _ hte
    have hsp0 : tally Thread.startCall e.spawned = 0 := by
      rcases hC with h | ⟨k, _, _, h, _⟩ <;> rw [h] <;> rfl
    have hstep := tally_after_step Thread.startCall s.threads e.spawned i t e.thread hti
    have hle1 : tally Thread.startCall (s.threads.set i e.thread ++ e.spawned) ≤ 1 := hle
    have hle0 : tally Thread.startCall s.threads ≤ 1 := by omega
    exact pumpOrder_sched s i fire t e hti hte (hs hle0).1 (hs hle0).2

theorem ordered_run (numPumps : Nat) (acts : List Action) :
    tally Thread.startCall (run acts (boot numPumps)).threads ≤ 1 →
      OnePerPump (run acts (boot numPumps)) ∧ PumpOrder (run acts (boot numPumps)) := by
  apply run_invariant
    (fun s1 => tally Thread.startCall s1.threads ≤ 1 → OnePerPump s1 ∧ PumpOrder s1)
    ordered_step
  intro h
  refine ⟨onePerPump_run numPumps [] h, ?_, ?_⟩
  · intro j idx pc hj; simp [boot] at hj
  · intro idx _; rfl

/-- C9, counterexample: one pump on which `Start` has run twice, so that two workers
drive it. `truckB` (id 2) is enqueued before `unitCar 1` (id 1), and the dequeues hand
them to pump 0 in this order; the worker that took the car records it after 100 ms, the
worker that took the truck after 12 s. Pump 0 has served the vehicle that was submitted
second before the one that was submitted first. The process has not panicked. -/
theorem two_workers_serve_out_of_order :
    (run twoWorkersOutOfOrder (boot 1)).crashed = false ∧
    (run twoWorkersOutOfOrder (boot 1)).sent.map (fun v => v.ID) = [2, 1] ∧
    ((run twoWorkersOutOfOrder (boot 1)).receivedBy 0).map (fun v => v.ID) = [2, 1] ∧
    ((run twoWorkersOutOfOrder (boot 1)).servedBy 0).map (fun v => v.ID) = [1, 2] ∧
    ¬ ((run twoWorkersOutOfOrder (boot 1)).servedBy 0).Sublist
        (run twoWorkersOutOfOrder (boot 1)).sent := by
  decide!

/-- C9, amended: in every run from a new station, the vehicles handed to pumps by
dequeues, followed by the vehicles still in the queue, are exactly the vehicles enqueued
by `AddVehicle`, in the order of their enqueue; so the dequeued vehicles are a prefix of
the enqueued ones, and the vehicles that reach any one pump, in the order in which the
pump takes them, are a subsequence of the enqueued ones in enqueue order. When `Start`
has been called at most once, every pump records its vehicles in the order in which it
took them (what it has recorded is a prefix of what it has taken), so the vehicles that
reach any one pump are served in submission order. -/
theorem fifo_delivery (numPumps : Nat) (acts : List Action) :
    (run acts (boot numPumps)).received.map Prod.snd ++ (run acts (boot numPumps)).gs.Queue
      = (run acts (boot numPumps)).sent ∧
    (run acts (boot numPumps)).received.map Prod.snd <+: (run acts (boot numPumps)).sent ∧
    (∀ idx, ((run acts (boot numPumps)).receivedBy idx).Sublist
      (run acts (boot numPumps)).sent) ∧
    (tally Thread.startCall (run acts (boot numPumps)).threads ≤ 1 →
      ∀ idx, (run acts (boot numPumps)).servedBy idx
          <+: (run acts (boot numPumps)).receivedBy idx ∧
        ((run acts (boot numPumps)).servedBy idx).Sublist
          (run acts (boot numPumps)).sent) := by
  have h : (run acts (boot numPumps)).received.map Prod.snd
      ++ (run acts (boot numPumps)).gs.Queue = (run acts (boot numPumps)).sent := by
    apply run_invariant (fun s => s.received.map Prod.snd ++ s.gs.Queue = s.sent) fifo_step
    simp [boot, NewGasStation]
  have hpre : (run acts (boot numPumps)).received.map Prod.snd
      <+: (run acts (boot numPumps)).sent := ⟨_, h⟩
  have hsub : ∀ idx, ((run acts (boot numPumps)).receivedBy idx).Sublist
      (run acts (boot numPumps)).sent := fun idx =>
    (List.Sublist.map _ (List.filter_sublist _)).trans hpre.sublist
  refine ⟨h, hpre, hsub, fun honce idx => ?_⟩
  obtain ⟨inv, ord⟩ := ordered_run numPumps acts honce
  have hfront : (run acts (boot numPumps)).servedBy idx
      <+: (run acts (boot numPumps)).receivedBy idx := by
    by_cases h0 : tally (Thread.worksOn idx) (run acts (boot numPumps)).threads = 0
    · rw [ord.idle idx h0]
    · obtain ⟨j, t, hj, ht⟩ := tally_pos_exists (Thread.worksOn idx) _
        (Nat.pos_of_ne_zero h0)
      obtain ⟨pc, rfl⟩ := worksOn_pos idx t ht
      exact ⟨_, (ord.held j idx pc hj).symm⟩
  exact ⟨hfront, hfront.sublist.trans (hsub idx)⟩

/-- Witness for C9: the run `readAtEight`, in which `Start` is called once and pump 0
takes and records `carA`. -/
theorem fifo_delivery_witness :
    tally Thread.startCall (run readAtEight (boot 1)).threads ≤ 1 ∧
    (run readAtEight (boot 1)).servedBy 0 = [{ carA with ArrivalTime := 2000000 }] ∧
    (run readAtEight (boot 1)).servedBy 0 <+: (run readAtEight (boot 1)).receivedBy 0 ∧
    ((run readAtEight (boot 1)).servedBy 0).Sublist (run readAtEight (boot 1)).sent :=
  have h := (fifo_delivery 1 readAtEight).2.2.2 (by decide!) 0
  ⟨by decide!, by decide!, h.1, h.2⟩

end GasStationSim
